import Mathlib

/-!
kube-nftlb: farm synthesis, backend synthesis, DSR aliases and backend deltas.

A shallow embedding of `pkg/json/encoding.go`, `pkg/watchers/funcs/update.go` and
`pkg/watchers/funcs/delete.go`.

* Kubernetes objects are records holding the fields the code reads.
* The package-level variables of `pkg/json` (`nodePortArray`, `serviceDsr`,
  `maxConnsMap`) together with the trace of effects (commands executed inside
  containers, requests sent to the nftlb sink) form the process state `Proc`.
* A Go function that can panic is a function `Proc → Result α`: the outcome is
  either `ok` with a value or `panic`, and in both cases carries the process
  state reached, so that the effects issued before a panic stay visible.
* Everything outside the repository that the code calls (the pod lookup, the
  docker client, the HTTP sink, `net.ParseIP`) and the pieces of the repository
  that are not part of the translated files are fields of `Env`.
* `range` over a Go map visits the entries in an unspecified order; a map that
  the code ranges over (the annotations) is the list of its entries in the order
  of the visit.
-/

namespace KubeNftlb

/-! ## Kubernetes objects -/

/-- A `v1.ServicePort`: name, protocol, port and node port (both `int32`). -/
structure ServicePort where
  Name : String
  Protocol : String
  Port : Int
  NodePort : Int
deriving DecidableEq, Repr

/-- A `v1.ClientIPConfig`; `TimeoutSeconds` is a pointer in Go. -/
structure ClientIPConfig where
  TimeoutSeconds : Option Int
deriving DecidableEq, Repr

/-- A `v1.SessionAffinityConfig`; `ClientIP` is a pointer in Go. -/
structure SessionAffinityConfig where
  ClientIP : Option ClientIPConfig
deriving DecidableEq, Repr

/-- A `v1.Service`, flattened to the fields read by the code. `Annotations` is `none`
for a nil map and otherwise lists the entries in the order `range` visits them;
`SpecType` is `service.Spec.Type`. -/
structure Service where
  Name : String
  Labels : List (String × String)
  Annotations : Option (List (String × String))
  Ports : List ServicePort
  ClusterIP : String
  SpecType : String
  SessionAffinity : String
  SessionAffinityConfig : Option SessionAffinityConfig
deriving DecidableEq, Repr

/-- A `v1.ObjectReference` (only its name is read). -/
structure ObjectReference where
  Name : String
deriving DecidableEq, Repr

/-- A `v1.EndpointAddress`; `TargetRef` is a pointer in Go. -/
structure EndpointAddress where
  IP : String
  TargetRef : Option ObjectReference
deriving DecidableEq, Repr

/-- A `v1.EndpointPort`. -/
structure EndpointPort where
  Name : String
  Port : Int
deriving DecidableEq, Repr

/-- A `v1.EndpointSubset`. -/
structure EndpointSubset where
  Addresses : List EndpointAddress
  Ports : List EndpointPort
deriving DecidableEq, Repr

/-- A `v1.Endpoints`. -/
structure Endpoints where
  Name : String
  Subsets : List EndpointSubset
deriving DecidableEq, Repr

/-- A `v1.Pod` as seen by the DSR code: name, labels, and the `ContainerID` of each
container status. -/
structure Pod where
  Name : String
  Labels : List (String × String)
  ContainerStatuses : List String
deriving DecidableEq, Repr

/-! ## nftlb objects (`pkg/types`, as filled by `createFarm` and `createBackend`) -/

/-- A `types.Backend`. -/
structure Backend where
  Name : String
  IPAddr : String
  State : String
  Port : String
  BackendMaxConns : String
deriving DecidableEq, Repr

/-- A `types.Farm`. -/
structure Farm where
  Name : String
  Family : String
  VirtualAddr : String
  VirtualPorts : String
  Mode : String
  Protocol : String
  Scheduler : String
  SchedulerParam : String
  Helper : String
  Log : String
  LogPrefix : String
  State : String
  Intraconnect : String
  Persistence : String
  PersistTTL : String
  Iface : String
  Backends : List Backend
deriving DecidableEq, Repr

/-- A `types.JSONnftlb`. -/
structure JSONnftlb where
  Farms : List Farm
deriving DecidableEq, Repr

/-- A `types.RequestData`; `Body` is the text the body reader yields. -/
structure RequestData where
  Method : String
  Path : String
  Body : String
deriving DecidableEq, Repr

/-! ## Process state and environment -/

/-- The `dsrStruct` of encoding.go: the aliased address and the container handles on
which the alias was applied. -/
structure dsrStruct where
  virtualAddr : String
  dockerUid : List String
deriving DecidableEq, Repr

/-- The process state: the global variables of `pkg/json` and the trace of effects.
Go maps are partial functions on their keys. `externalIPsArray` is the map behind
`json.GetExternalIPsArray()` and `backendIDs` the counters behind `CreateFarmID`;
both live in files of `pkg/json` that are not translated here. `execs` lists the
commands started inside containers as (container, shell command), `requests` the
requests handed to the sink, both in order of issue. -/
structure Proc where
  nodePortArray : List String
  serviceDsr : String → Option dsrStruct
  maxConnsMap : String → Option String
  externalIPsArray : String → Option (List String)
  backendIDs : String → Option Int
  execs : List (String × String)
  requests : List RequestData

/-- The process state after more commands were started inside containers. -/
def Proc.addExecs (st : Proc) (cs : List (String × String)) : Proc :=
  { st with execs := st.execs ++ cs }

/-- The process state after `serviceDsr[key] = record`. -/
def Proc.setDsr (st : Proc) (key : String) (record : dsrStruct) : Proc :=
  { st with serviceDsr := fun k => if k = key then some record else st.serviceDsr k }

/-- The process state after `delete(serviceDsr, key)`. -/
def Proc.eraseDsr (st : Proc) (key : String) : Proc :=
  { st with serviceDsr := fun k => if k = key then none else st.serviceDsr k }

/-- The process state after `nodePortArray = append(nodePortArray, farmName)`. -/
def Proc.addNodePort (st : Proc) (farmName : String) : Proc :=
  { st with nodePortArray := st.nodePortArray ++ [farmName] }

/-- The state of a freshly started process: empty registries, no effect issued. -/
def Proc.empty : Proc :=
  { nodePortArray := [], serviceDsr := fun _ => none, maxConnsMap := fun _ => none,
    externalIPsArray := fun _ => none, backendIDs := fun _ => none, execs := [],
    requests := [] }

/-- What the code reaches outside the translated files.
* `PodsList`: the items of `clientset.CoreV1().Pods("default").List`.
* `PodsGet`: the pod of `clientset.CoreV1().Pods("default").Get(name)` (the code drops
  the error, so a failed lookup is the zero pod).
* `dockerExec container cmd`: whether creating the docker client, creating the exec
  and starting it all succeed for this command in this container.
* `Send`: `http.Send`, `none` standing for a non-nil error.
* `BadNames`: the list `http.BadNames`.
* `InterfaceBridge`: `defaults.Init().Global.InterfaceBridge`.
* `ParseIP`: `net.ParseIP`, reduced to what `findFamily` asks of the result: `none`
  for a nil IP, `some true` when `To4()` is non-nil, `some false` otherwise.
* `DecodePrettyJSON`: `json.DecodePrettyJSON`. -/
structure Env where
  PodsList : List Pod
  PodsGet : String → Pod
  dockerExec : String → String → Bool
  Send : RequestData → Option String
  BadNames : List String
  InterfaceBridge : String
  ParseIP : String → Option Bool
  DecodePrettyJSON : JSONnftlb → String

/-- Outcome of running a Go function: it returns `val`, or it panics; `st` is the
process state reached in either case. -/
inductive Result (α : Type) where
  | ok (val : α) (st : Proc)
  | panic (st : Proc)

/-- The process state an outcome ends in. -/
def Result.proc {α : Type} : Result α → Proc
  | .ok _ st => st
  | .panic st => st

/-- Whether the function returned (did not panic). -/
def Result.returned {α : Type} : Result α → Bool
  | .ok _ _ => true
  | .panic _ => false

/-- The returned value, if any. -/
def Result.value {α : Type} : Result α → Option α
  | .ok a _ => some a
  | .panic _ => none

/-- A Go function body: from a process state to an outcome. -/
def M (α : Type) : Type := Proc → Result α

/-- Returning a value leaves the state alone. -/
def M.pure {α : Type} (a : α) : M α := fun st => .ok a st

/-- Sequencing: a panic stops the run and keeps the state reached. -/
def M.bind {α β : Type} (m : M α) (f : α → M β) : M β := fun st =>
  match m st with
  | .ok a st1 => f a st1
  | .panic st1 => .panic st1

instance : Monad M where
  pure := M.pure
  bind := M.bind

/-- A run-time panic (index out of range, nil dereference, explicit `panic`). -/
def throwPanic {α : Type} : M α := fun st => .panic st

/-- Read the process state. -/
def getProc : M Proc := fun st => .ok st st

/-- Update the process state. -/
def modifyProc (f : Proc → Proc) : M Unit := fun st => .ok () (f st)

/-- The value of an expression that panics when it has none. -/
def orPanic {α : Type} : Option α → M α
  | some a => M.pure a
  | none => throwPanic

/-- A `for _, x := range xs` loop; `acc` holds the local variables that the body
assigns and that outlive an iteration. -/
def rangeFold {β γ : Type} (body : γ → β → M γ) : γ → List β → M γ
  | acc, [] => M.pure acc
  | acc, x :: xs => fun st =>
    match body acc x st with
    | .ok acc1 st1 => rangeFold body acc1 xs st1
    | .panic st1 => .panic st1

/-! ## Strings -/

/-- `strings.ToLower`, on ASCII letters (its arguments in this code are matches of
`[a-z]+` and protocol names). -/
def ToLower (s : String) : String := ⟨s.data.map Char.toLower⟩

/-- The two regular expressions compiled in encoding.go. -/
inductive Regexp where
  /-- The expression `[a-z]+$`. -/
  | lowerAtEnd
  /-- The expression `^[a-z]+`. -/
  | lowerAtStart
deriving DecidableEq, Repr

/-- The element `[0]` of `rgx.FindStringSubmatch(s)`: the longest run of letters a to z
that ends the text (`[a-z]+$`) or starts it (`^[a-z]+`); `none` when the run is empty,
where Go returns a nil slice and indexing it panics. -/
def FindStringSubmatch (rgx : Regexp) (s : String) : Option String :=
  let run : List Char :=
    match rgx with
    | .lowerAtEnd => (s.data.reverse.takeWhile Char.isLower).reverse
    | .lowerAtStart => s.data.takeWhile Char.isLower
  if run.isEmpty then none else some ⟨run⟩

/-- The first piece that `strings.SplitAfter` cuts off: the text up to and including
the first occurrence of `sep`, and the rest; `none` when `sep` does not occur. -/
def cutAfter (sep : List Char) : List Char → Option (List Char × List Char)
  | [] => none
  | c :: cs =>
    if sep.isPrefixOf (c :: cs) then some (sep, (c :: cs).drop sep.length)
    else (cutAfter sep cs).map (fun pr => (c :: pr.1, pr.2))

/-- The pieces of `strings.SplitAfter` for a non-empty separator; `fuel` bounds the
number of cuts. -/
def splitAfterAux (sep : List Char) : Nat → List Char → List (List Char)
  | 0, s => [s]
  | fuel + 1, s =>
    match cutAfter sep s with
    | none => [s]
    | some (piece, rest) => piece :: splitAfterAux sep fuel rest

/-- `strings.SplitAfter(s, sep)` for a non-empty `sep`. -/
def SplitAfter (s sep : String) : List String :=
  (splitAfterAux sep.data s.length s.data).map String.mk

/-- `fmt.Sprint` of an `int32`. -/
def Sprint (n : Int) : String := toString n

/-! ## Farm names (`pkg/farms`) -/

/-- Modelled from the spec: `configFarm.AssignFarmNameService` of `pkg/farms`, which is
not among the translated files. The base farm identifier is the service name, two
hyphens and the port name, the form delete.go line 74 spells out. -/
def AssignFarmNameService (serviceName portName : String) : String :=
  serviceName ++ "--" ++ portName

/-- Modelled from the spec: `configFarm.AssignFarmNameNodePort` of `pkg/farms`, which is
not among the translated files. The twin identifier is the given farm name, two hyphens
and the given suffix. -/
def AssignFarmNameNodePort (farmName nodePort : String) : String :=
  farmName ++ "--" ++ nodePort

/-- Contains returns true when `str` is in the slice `sl`. -/
def Contains : List String → String → Bool
  | [], _ => false
  | value :: sl, str => if value == str then true else Contains sl str

/-! ## Reading the service: persistence, annotations, connection ceiling, family -/

/-- The loop of `getPersistence` over the annotations: `persistence` is the local
variable; `none` is the panic of `field[0]` on a key that `[a-z]+$` does not match. -/
def persistenceLoop : String → List (String × String) → Option String
  | persistence, [] => some persistence
  | persistence, (key, value) :: rest =>
    match FindStringSubmatch .lowerAtEnd key with
    | none => none
    | some field0 =>
      if ToLower field0 == "persistence" then
        if value == "srcip" || value == "dstip" || value == "srcport" || value == "srcport"
            || value == "dstport" || value == "srcmac" || value == "dstmac" then
          persistenceLoop value rest
        else persistenceLoop persistence rest
      else persistenceLoop persistence rest

/-- The function getPersistence: persistence and its TTL, `none` when it panics. -/
def getPersistence (service : Service) : Option (String × String) :=
  let afterLoop : Option String :=
    match service.Annotations with
    | none => some ""
    | some entries => persistenceLoop "" entries
  match afterLoop with
  | none => none
  | some persistence0 =>
    let persistence :=
      if persistence0 == "" then
        if service.SessionAffinity == "ClientIP" then "srcip"
        else if service.SessionAffinity == "None" then "none"
        else persistence0
      else persistence0
    let persistenceTTL :=
      match service.SessionAffinityConfig with
      | none => ""
      | some cfg =>
        match cfg.ClientIP with
        | none => ""
        | some clientIP =>
          match clientIP.TimeoutSeconds with
          | none => ""
          | some seconds => Sprint seconds
    some (persistence, persistenceTTL)

/-- The local variables of `getAnnotations`, the regular expression `rgx` included: the
loop body reassigns it. -/
structure AnnotationVars where
  mode : String
  scheduler : String
  sched_param : String
  helper : String
  log : String
  logPrefix : String
  rgx : Regexp
deriving DecidableEq, Repr

/-- One iteration of the loop of `getAnnotations`; `none` is the panic of a `field[0]`
on a nil match. -/
def annotationStep (v : AnnotationVars) (key value : String) : Option AnnotationVars :=
  match FindStringSubmatch v.rgx key with
  | none => none
  | some field0 =>
    if ToLower field0 == "mode" then some { v with mode := value }
    else if ToLower field0 == "scheduler" then
      let field := FindStringSubmatch .lowerAtStart value
      if value == "rr" then some { v with rgx := .lowerAtStart, scheduler := value }
      else if value == "symhash" then some { v with rgx := .lowerAtStart, scheduler := value }
      else
        match field with
        | none => none
        | some valueStart =>
          if ToLower valueStart == "hash" then
            match FindStringSubmatch .lowerAtEnd value with
            | none => none
            | some valueEnd =>
              let valueHash := ToLower valueEnd
              if valueHash == "srcip" || valueHash == "dstip" || valueHash == "srcport"
                  || valueHash == "dstport" || valueHash == "srcmac" || valueHash == "dstmac" then
                some { v with rgx := .lowerAtEnd, sched_param := valueHash, scheduler := "hash" }
              else some { v with rgx := .lowerAtEnd, scheduler := "hash" }
          else some { v with rgx := .lowerAtStart }
    else if ToLower field0 == "helper" then some { v with helper := value }
    else if ToLower field0 == "log" then some { v with log := value }
    else if ToLower field0 == "logprefix" && v.log != "" && v.log != "none" then
      some { v with logPrefix := value }
    else some v

/-- The loop of `getAnnotations` over the entries in the order of the visit. -/
def annotationLoop : AnnotationVars → List (String × String) → Option AnnotationVars
  | v, [] => some v
  | v, (key, value) :: rest =>
    match annotationStep v key value with
    | none => none
    | some v1 => annotationLoop v1 rest

/-- The values `getAnnotations` starts from. -/
def annotationDefaults : AnnotationVars :=
  { mode := "snat", scheduler := "rr", sched_param := "none", helper := "", log := "",
    logPrefix := "", rgx := .lowerAtEnd }

/-- The function getAnnotations: the variables at the return statement (the six
returned values are the first six fields), `none` when it panics. -/
def getAnnotations (service : Service) : Option AnnotationVars :=
  match service.Annotations with
  | none => some annotationDefaults
  | some entries => annotationLoop annotationDefaults entries

/-- The name of the base farm of a service port, as GetJSONnftlbFromService and
findMaxConns compute it (encoding.go lines 62 to 66 and 328 to 332). -/
def baseFarmName (serviceName : String) (port : ServicePort) : String :=
  if port.Name == "" then AssignFarmNameService serviceName "default"
  else AssignFarmNameService serviceName port.Name

/-- The second loop of `findMaxConns`: the value of `backendMaxConnsMap` after it,
`none` when `field[0]` panics. -/
def maxConnsLoop : String → List (String × String) → Option String
  | backendMaxConnsMap, [] => some backendMaxConnsMap
  | backendMaxConnsMap, (key, value) :: rest =>
    match FindStringSubmatch .lowerAtEnd key with
    | none => none
    | some field0 =>
      if ToLower field0 == "maxconns" then maxConnsLoop value rest
      else maxConnsLoop backendMaxConnsMap rest

/-- The last loop of `findMaxConns`: `maxConnsMap[nameFarm] = backendMaxConnsMap` for
every collected farm name. -/
def setMaxConns (backendMaxConnsMap : String) :
    List String → (String → Option String) → (String → Option String)
  | [], m => m
  | nameFarm :: rest, m =>
    setMaxConns backendMaxConnsMap rest
      (fun k => if k = nameFarm then some backendMaxConnsMap else m k)

/-- The function findMaxConns. With a nil annotation map the farm slice stays empty and
nothing is written. -/
def findMaxConns (service : Service) : M Unit :=
  match service.Annotations with
  | none => M.pure ()
  | some entries =>
    let farmSlice := service.Ports.map (baseFarmName service.Name)
    match maxConnsLoop "0" entries with
    | none => throwPanic
    | some backendMaxConnsMap =>
      modifyProc (fun st =>
        { st with maxConnsMap := setMaxConns backendMaxConnsMap farmSlice st.maxConnsMap })

/-- The function findFamily. -/
def findFamily (w : Env) (service : Service) : String :=
  match w.ParseIP service.ClusterIP with
  | some true => "ipv4"
  | some false => "ipv6"
  | none => "ipv4"

/-- The function createFarm. -/
def createFarm (farmName family virtualAddr virtualPorts mode protocol scheduler
    schedulerParam helper log logPrefix state intraconnect persistence persistTTL
    iface : String) (backends : List Backend) : Farm :=
  { Name := farmName, Family := family, VirtualAddr := virtualAddr,
    VirtualPorts := virtualPorts, Mode := mode, Protocol := protocol,
    Scheduler := scheduler, SchedulerParam := schedulerParam, Helper := helper,
    Log := log, LogPrefix := logPrefix, State := state, Intraconnect := intraconnect,
    Persistence := persistence, PersistTTL := persistTTL, Iface := iface,
    Backends := backends }

/-- The function createBackend. -/
def createBackend (name ipAddr state port maxconns : String) : Backend :=
  { Name := name, IPAddr := ipAddr, State := state, Port := port,
    BackendMaxConns := maxconns }

/-! ## DSR aliases -/

/-- The shell command that retracts the alias of a virtual address. -/
def retractCommand (virtualAddr : String) : String :=
  "ip ad del " ++ virtualAddr ++ "/32 dev lo"

/-- The shell command that applies the alias of a virtual address. -/
def aliasCommand (virtualAddr : String) : String :=
  "ip ad add " ++ virtualAddr ++ "/32 dev lo"

/-- Run a shell command inside a container through the docker client: a failure of the
client, of the exec creation or of the exec start panics; a started command is added
to the trace. -/
def dockerRun (w : Env) (container cmd : String) : M Unit := fun st =>
  if w.dockerExec container cmd then .ok () (st.addExecs [(container, cmd)])
  else .panic st

/-- The function DeleteServiceDsr: `delete(serviceDsr, key)`. -/
def DeleteServiceDsr (key : String) : M Unit :=
  modifyProc (fun st => st.eraseDsr key)

/-- The function addInterfaceDsr. The pod lookup drops its error; the first container
status, the piece after `docker://` and the record `serviceDsr[farmName]` are accessed
without a check, so each of them panics when missing. -/
def addInterfaceDsr (w : Env) (farmName backendName virtualAddr : String) : M Unit := do
  let objContainer := w.PodsGet backendName
  let dockerUid ← orPanic objContainer.ContainerStatuses.head?
  let uid := SplitAfter dockerUid "docker://"
  let uid1 ← orPanic (uid.get? 1)
  dockerRun w uid1 (aliasCommand virtualAddr)
  let st ← getProc
  let record ← orPanic (st.serviceDsr farmName)
  modifyProc (fun st =>
    st.setDsr farmName { record with dockerUid := record.dockerUid ++ [uid1] })

/-- The function deleteInterfaceDsr: one `ip ad del` per recorded handle, then the
record is deleted. -/
def deleteInterfaceDsr (w : Env) (farmName : String) : M Unit := do
  let st ← getProc
  let record ← orPanic (st.serviceDsr farmName)
  let _ ← rangeFold (fun (_ : Unit) (uid : String) =>
      dockerRun w uid (retractCommand record.virtualAddr)) () record.dockerUid
  DeleteServiceDsr farmName

/-- The function createInterfaceDsr. Only the first pod of the list has its `app` label
compared with the label of the service; `objPod.Items[0]` panics on an empty list. -/
def createInterfaceDsr (w : Env) (farmName : String) (service : Service) : M Unit := do
  let virtualAddr := service.ClusterIP
  match service.Labels.lookup "app" with
  | none => pure ()
  | some labelService =>
    let objPod := w.PodsList
    let first ← orPanic objPod.head?
    match first.Labels.lookup "app" with
    | none => pure ()
    | some labelDeployment =>
      if labelService == labelDeployment then
        rangeFold (fun (_ : Unit) (objectMeta : Pod) =>
          addInterfaceDsr w farmName objectMeta.Name virtualAddr) () objPod
      else pure ()

/-- The assignment `serviceDsr[farmName].virtualAddr = virtualAddr` (a nil record
panics). -/
def setVirtualAddr (farmName virtualAddr : String) : M Unit := do
  let st ← getProc
  let record ← orPanic (st.serviceDsr farmName)
  modifyProc (fun st => st.setDsr farmName { record with virtualAddr := virtualAddr })

/-- The statement `serviceDsr[farmName] = &dsrStruct{}`. -/
def newDsrRecord (farmName : String) : M Unit :=
  modifyProc (fun st => st.setDsr farmName { virtualAddr := "", dockerUid := [] })

/-! ## GetJSONnftlbFromService -/

/-- The locals of GetJSONnftlbFromService that one loop iteration hands to the next. -/
structure ServiceVars where
  farmsSlice : List Farm
  iface : String
deriving DecidableEq, Repr

/-- The name of the node-port twin of a service port (encoding.go line 91): built from
the raw port name, not from the name of the base farm. -/
def twinFarmName (serviceName : String) (port : ServicePort) : String :=
  AssignFarmNameNodePort (serviceName ++ "--" ++ port.Name) "nodePort"

/-- Lines 72 to 75 and 96 to 99: a farm seen in DSR mode for the first time gets an
empty record, and the alias is applied to the pods found through the `app` label. -/
def ensureDsrRecord (w : Env) (service : Service) (farmName : String) : M Unit := do
  let st ← getProc
  if (st.serviceDsr farmName).isNone then
    newDsrRecord farmName
    createInterfaceDsr w farmName service
  else pure ()

/-- Lines 79 to 83: a base farm that has a record while the mode is not dsr has its
aliases retracted, unless the service is of type NodePort. -/
def retractBaseRecord (w : Env) (service : Service) (farmName : String) : M Unit := do
  let st ← getProc
  if (st.serviceDsr farmName).isSome then
    if service.SpecType != "NodePort" then deleteInterfaceDsr w farmName
    else pure ()
  else pure ()

/-- Lines 103 to 105: a twin farm that has a record while the mode is not dsr loses
the record. -/
def dropTwinRecord (farmName : String) : M Unit := do
  let st ← getProc
  if (st.serviceDsr farmName).isSome then DeleteServiceDsr farmName
  else pure ()

/-- Lines 71 to 84: the DSR bookkeeping for the base farm; returns `iface`. -/
def baseDsrStep (w : Env) (service : Service) (mode farmName virtualAddr iface : String) :
    M String := do
  if mode == "dsr" then
    ensureDsrRecord w service farmName
    setVirtualAddr farmName virtualAddr
    pure w.InterfaceBridge
  else
    retractBaseRecord w service farmName
    pure iface

/-- Lines 95 to 106: the DSR bookkeeping for the twin farm; returns `iface`. -/
def twinDsrStep (w : Env) (service : Service) (mode farmName virtualAddr iface : String) :
    M String := do
  if mode == "dsr" then
    ensureDsrRecord w service farmName
    setVirtualAddr farmName virtualAddr
    pure w.InterfaceBridge
  else
    dropTwinRecord farmName
    pure iface

/-- The test of line 90: the port gets a twin farm when the service is of type NodePort,
or of type LoadBalancer with a node port that is not negative (`&&` binds tighter than
`||`). -/
def hasTwin (service : Service) (port : ServicePort) : Bool :=
  service.SpecType == "NodePort" || service.SpecType == "LoadBalancer" && port.NodePort ≥ 0

/-- The body of the loop over `service.Spec.Ports` (lines 60 to 112). `a` holds the
values returned by `getAnnotations`. -/
def servicePortStep (w : Env) (service : Service) (persistence persistenceTTL : String)
    (a : AnnotationVars) (family : String) (vars : ServiceVars) (port : ServicePort) :
    M ServiceVars := do
  let serviceName := service.Name
  let state := "up"
  let intraconnect := "on"
  let farmName := baseFarmName serviceName port
  let nameProtocol := ToLower port.Protocol
  let portString := Sprint port.Port
  let virtualAddr := service.ClusterIP
  let iface ← baseDsrStep w service a.mode farmName virtualAddr vars.iface
  let farm := createFarm farmName family virtualAddr portString a.mode nameProtocol
    a.scheduler a.sched_param a.helper a.log a.logPrefix state intraconnect persistence
    persistenceTTL iface []
  let farmsSlice := vars.farmsSlice ++ [farm]
  if hasTwin service port then
    let farmName := twinFarmName serviceName port
    let virtualAddr := ""
    let portString := Sprint port.NodePort
    let iface ← twinDsrStep w service a.mode farmName virtualAddr iface
    let farm := createFarm farmName family virtualAddr portString a.mode nameProtocol
      a.scheduler a.sched_param a.helper a.log a.logPrefix state intraconnect persistence
      persistenceTTL iface []
    modifyProc (fun st => st.addNodePort farmName)
    pure { farmsSlice := farmsSlice ++ [farm], iface := iface }
  else
    pure { farmsSlice := farmsSlice, iface := iface }

/-- GetJSONnftlbFromService returns a JSONnftlb struct filled with any Service data. -/
def GetJSONnftlbFromService (w : Env) (service : Service) : M JSONnftlb := do
  let (persistence, persistenceTTL) ← orPanic (getPersistence service)
  let a ← orPanic (getAnnotations service)
  findMaxConns service
  let family := findFamily w service
  let vars ← rangeFold (servicePortStep w service persistence persistenceTTL a family)
    { farmsSlice := [], iface := "" } service.Ports
  pure { Farms := vars.farmsSlice }

/-! ## GetJSONnftlbFromEndpoints -/

/-- Modelled from the spec: `CreateFarmID` of `pkg/json`, which is not among the
translated files. The backend count is a counter per source object; the call makes sure
the object has one, starting at zero. -/
def CreateFarmID (objName : String) : M Unit :=
  modifyProc (fun st =>
    { st with backendIDs := fun k =>
        if k = objName then some ((st.backendIDs objName).getD 0) else st.backendIDs k })

/-- The locals of GetJSONnftlbFromEndpoints that one loop iteration hands to the next. -/
structure EndpointsVars where
  farmsSlice : List Farm
  maxconns : String
deriving DecidableEq, Repr

/-- The name under which an endpoint port is filed: its name, or `default`. -/
def endpointPortName (port : EndpointPort) : String :=
  if port.Name == "" then "default" else port.Name

/-- The name of the backend of an address: the name of its target, or the name of the
endpoints object when there is no target reference. -/
def addressBackendName (objName : String) (address : EndpointAddress) : String :=
  match address.TargetRef with
  | some ref => ref.Name
  | none => objName

/-- A farm value with only its name and backends set (lines 159 to 162). -/
def backendsFarm (farmName : String) (backends : List Backend) : Farm :=
  { Name := farmName, Family := "", VirtualAddr := "", VirtualPorts := "", Mode := "",
    Protocol := "", Scheduler := "", SchedulerParam := "", Helper := "", Log := "",
    LogPrefix := "", State := "", Intraconnect := "", Persistence := "", PersistTTL := "",
    Iface := "", Backends := backends }

/-- Lines 153 to 155: the value of `maxconns` after the test on `maxConnsMap[farmName]`;
a missing key reads as the empty string, which differs from "0". -/
def portMaxconns (maxConnsMap : String → Option String) (farmName maxconns : String) : String :=
  if (maxConnsMap farmName).getD "" != "0" then (maxConnsMap farmName).getD "" else maxconns

/-- Lines 166 to 168: a farm with a DSR record has the alias applied to the backend. -/
def endpointDsrStep (w : Env) (farmName backendName : String) : M Unit := do
  let st ← getProc
  match st.serviceDsr farmName with
  | some record => addInterfaceDsr w farmName backendName record.virtualAddr
  | none => pure ()

/-- Lines 159 to 185: the entries appended to `farmsSlice` for one port: the entry under
the base name, the same entry once more when the base name is in `nodePortArray`, and
the entry under the twin name when the twin name is in `nodePortArray`. -/
def portFarms (nodePortArray : List String) (farmName : String) (backends : List Backend) :
    List Farm :=
  [backendsFarm farmName backends]
    ++ (if Contains nodePortArray farmName then [backendsFarm farmName backends] else [])
    ++ (if Contains nodePortArray (AssignFarmNameNodePort farmName "nodePort") then
          [backendsFarm (AssignFarmNameNodePort farmName "nodePort") backends]
        else [])

/-- The body of the innermost loop, over `endpoint.Ports` (lines 143 to 186). -/
def endpointPortStep (w : Env) (objName backendName ipBackend : String)
    (vars : EndpointsVars) (port : EndpointPort) : M EndpointsVars := do
  let farmName := AssignFarmNameService objName (endpointPortName port)
  let st ← getProc
  let maxconns := portMaxconns st.maxConnsMap farmName vars.maxconns
  let backends := [createBackend backendName ipBackend "up" (Sprint port.Port) maxconns]
  endpointDsrStep w farmName backendName
  let st ← getProc
  pure { farmsSlice := vars.farmsSlice ++ portFarms st.nodePortArray farmName backends,
         maxconns := maxconns }

/-- The body of the loop over `endpoint.Addresses` (lines 132 to 187). -/
def endpointAddressStep (w : Env) (objName : String) (ports : List EndpointPort)
    (vars : EndpointsVars) (address : EndpointAddress) : M EndpointsVars :=
  rangeFold (endpointPortStep w objName (addressBackendName objName address) address.IP)
    vars ports

/-- The body of the loop over `endpoints.Subsets` (lines 131 to 188). -/
def endpointSubsetStep (w : Env) (objName : String) (vars : EndpointsVars)
    (endpoint : EndpointSubset) : M EndpointsVars :=
  rangeFold (endpointAddressStep w objName endpoint.Ports) vars endpoint.Addresses

/-- GetJSONnftlbFromEndpoints returns a JSONnftlb struct filled with any Endpoints data. -/
def GetJSONnftlbFromEndpoints (w : Env) (endpoints : Endpoints) : M JSONnftlb := do
  let objName := endpoints.Name
  CreateFarmID objName
  let vars ← rangeFold (endpointSubsetStep w objName)
    { farmsSlice := [], maxconns := "0" } endpoints.Subsets
  pure { Farms := vars.farmsSlice }

/-! ## UpdateNftlbBackends (update.go) -/

/-- The process state after more requests were handed to the sink. -/
def Proc.addRequests (st : Proc) (rs : List RequestData) : Proc :=
  { st with requests := st.requests ++ rs }

/-- Hand a request to the sink; an error panics. The request is in the trace either
way. -/
def sendRequest (w : Env) (requestData : RequestData) : M String := fun st =>
  let st1 := st.addRequests [requestData]
  match w.Send requestData with
  | some response => .ok response st1
  | none => .panic st1

/-- The request data that updateNftlbRequest fills: a POST with the JSON text as body. -/
def postRequestData (json : String) : RequestData :=
  { Method := "POST", Path := "", Body := json }

/-- The request data that deleteNftlbRequest fills: a DELETE of the path `/name`. -/
def deleteRequestData (name : String) : RequestData :=
  { Method := "DELETE", Path := "/" ++ name, Body := "" }

/-- The function updateNftlbRequest. -/
def updateNftlbRequest (w : Env) (json : String) : M String :=
  sendRequest w (postRequestData json)

/-- The function deleteNftlbRequest. -/
def deleteNftlbRequest (w : Env) (name : String) : M String :=
  sendRequest w (deleteRequestData name)

/-- The path of a backend inside a farm: `fmt.Sprintf("%s/backends/%s", farm, backend)`. -/
def backendPath (farmName backendName : String) : String :=
  farmName ++ "/backends/" ++ backendName

/-- The function getNewBackendsSlice: the target names of the addresses of an endpoints
object that have a target reference. -/
def getNewBackendsSlice (newEP : Endpoints) : List String :=
  newEP.Subsets.flatMap (fun endpoint =>
    endpoint.Addresses.filterMap (fun address => address.TargetRef.map (fun ref => ref.Name)))

/-- The function getNewServiceSlice: the port names of all subsets, `default` for an
empty name. -/
def getNewServiceSlice (newEP : Endpoints) : List String :=
  newEP.Subsets.flatMap (fun endpoint => endpoint.Ports.map endpointPortName)

/-- The function getOldServiceSlice: the same walk over the old object. -/
def getOldServiceSlice (oldEP : Endpoints) : List String :=
  oldEP.Subsets.flatMap (fun endpoint => endpoint.Ports.map endpointPortName)

/-- The function find of update.go, reduced to its boolean result. -/
def find : List String → String → Bool
  | [], _ => false
  | item :: slice, val => if item == val then true else find slice val

/-- Lines 90 to 95 of update.go: the backend is also deleted under the node-port twin
of the farm when the twin is in `nodePortArray`. -/
def deleteTwinBackend (w : Env) (farmName backendName : String) : M Unit := do
  let farmNodeport := AssignFarmNameNodePort farmName "nodePort"
  let st ← getProc
  if Contains st.nodePortArray farmNodeport then
    let _ ← deleteNftlbRequest w (backendPath farmNodeport backendName)
    pure ()
  else pure ()

/-- Lines 98 to 104 of update.go: the backend is also deleted under every farm that the
external-addresses map lists for the farm. -/
def deleteExternalBackends (w : Env) (farmName backendName : String) : M Unit := do
  let st ← getProc
  match st.externalIPsArray farmName with
  | some farms =>
    rangeFold (fun (_ : Unit) (farmExternalIPs : String) => do
      let _ ← deleteNftlbRequest w (backendPath farmExternalIPs backendName)
      pure ()) () farms
  | none => pure ()

/-- The function actionDeleteNftlbRequest (its first argument only feeds the log). -/
def actionDeleteNftlbRequest (w : Env) (farmName backendName : String) : M Unit := do
  let fullPath := backendPath farmName backendName
  let _ ← deleteNftlbRequest w fullPath
  deleteTwinBackend w farmName backendName
  deleteExternalBackends w farmName backendName

/-- The body of the loop over the addresses of the old object (update.go lines 55 to
78). -/
def updateAddressStep (w : Env) (objName : String)
    (newBackendsNameSlice newServiceNameSlice oldServiceNameSlice : List String)
    (_ : Unit) (address : EndpointAddress) : M Unit :=
  match address.TargetRef with
  | none => pure ()
  | some ref =>
    if newServiceNameSlice.length < 1 then
      rangeFold (fun (_ : Unit) (serviceName : String) =>
        actionDeleteNftlbRequest w (AssignFarmNameService objName serviceName) ref.Name)
        () oldServiceNameSlice
    else
      if find newBackendsNameSlice ref.Name then pure ()
      else
        rangeFold (fun (_ : Unit) (serviceName : String) =>
          actionDeleteNftlbRequest w (AssignFarmNameService objName serviceName) ref.Name)
          () newServiceNameSlice

/-- UpdateNftlbBackends updates backends for any farm given a Endpoints object. -/
def UpdateNftlbBackends (w : Env) (oldEP newEP : Endpoints) : M Unit := do
  if !Contains w.BadNames newEP.Name then
    let objName := oldEP.Name
    let newJSONnftlb ← GetJSONnftlbFromEndpoints w newEP
    let backendsJSON := w.DecodePrettyJSON newJSONnftlb
    let newBackendsNameSlice := getNewBackendsSlice newEP
    let newServiceNameSlice := getNewServiceSlice newEP
    let oldServiceNameSlice := getOldServiceSlice oldEP
    let _ ← updateNftlbRequest w backendsJSON
    rangeFold (fun (_ : Unit) (endpoint : EndpointSubset) =>
      rangeFold (updateAddressStep w objName newBackendsNameSlice newServiceNameSlice
        oldServiceNameSlice) () endpoint.Addresses) () oldEP.Subsets

/-! ## DeleteNftlbFarm (delete.go)

A statement `go f(x)` is rendered as the call `f(x)` at the place of the statement: the
functions started that way here only write the registries, and the statements below look at
the registries once these calls have run. -/

/-- The function DeleteMaxConnsMap: the whole map is replaced by an empty one. -/
def DeleteMaxConnsMap : M Unit :=
  modifyProc (fun st => { st with maxConnsMap := fun _ => none })

/-- The function deleteServiceDsr of delete.go: the record is deleted when there is one. -/
def deleteServiceDsr (farmName : String) : M Unit := do
  let st ← getProc
  if (st.serviceDsr farmName).isSome then DeleteServiceDsr farmName
  else pure ()

/-- The loop of indexOf from position `k` on. -/
def indexOfFrom (element : String) : Nat → List String → Int
  | _, [] => -1
  | k, v :: data => if element == v then (k : Int) else indexOfFrom element (k + 1) data

/-- The function indexOf: the position of the first element equal to `element`, -1 when
there is none. -/
def indexOf (element : String) (data : List String) : Int :=
  indexOfFrom element 0 data

/-- Lines 43 to 47 of delete.go. The local slice shares its array with the global
`nodePortArray`: the element found is overwritten by the last element and the last element
by the empty string, in the global array too; the final re-slicing shortens the local slice
only, so the global slice keeps its length. An index of -1 (name absent) is out of range
and panics. -/
def dropNodePort (farmName : String) : M Unit := fun st =>
  let nodePortArray := st.nodePortArray
  let indexNodePort := indexOf farmName nodePortArray
  if 0 ≤ indexNodePort ∧ indexNodePort < nodePortArray.length then
    let last := nodePortArray.getD (nodePortArray.length - 1) ""
    let written := (nodePortArray.set indexNodePort.toNat last).set (nodePortArray.length - 1) ""
    .ok () { st with nodePortArray := written }
  else .panic st

/-- The body of the loop of DeleteNftlbFarm over `service.Spec.Ports` (lines 24 to 54). The
loop variable is a copy, so giving it the name `default` stays local. -/
def deleteFarmPortStep (w : Env) (service : Service) (_ : Unit) (port : ServicePort) :
    M Unit := do
  let portName := if port.Name == "" then "default" else port.Name
  let farmName := AssignFarmNameService service.Name portName
  let _ ← deleteNftlbRequest w farmName
  DeleteMaxConnsMap
  deleteServiceDsr farmName
  if service.SpecType == "NodePort" || service.SpecType == "LoadBalancer" then
    let farmName := AssignFarmNameNodePort farmName "nodePort"
    dropNodePort farmName
    let _ ← deleteNftlbRequest w farmName
    deleteServiceDsr farmName
  else pure ()

/-- DeleteNftlbFarm deletes any nftlb farm given a Service object. -/
def DeleteNftlbFarm (w : Env) (service : Service) : M Unit :=
  rangeFold (deleteFarmPortStep w service) () service.Ports

/-! ## DeleteNftlbBackends (delete.go) -/

/-- Modelled from the spec: `GetBackendID` of `pkg/json`, which is not among the
translated files. The backend count recorded for an object, zero when there is none. -/
def GetBackendID (st : Proc) (objName : String) : Int :=
  (st.backendIDs objName).getD 0

/-- Modelled from the spec: `DecreaseBackendID` of `pkg/json`, which is not among the
translated files. It lowers the backend count of the object by one per call. -/
def DecreaseBackendID (objName : String) : M Unit :=
  modifyProc (fun st =>
    { st with backendIDs := fun k =>
        if k = objName then some (GetBackendID st objName - 1) else st.backendIDs k })

/-- The names that lines 62 to 70 of delete.go append to `newServiceNameSlice` in one
pass over the subsets and their ports. -/
def backendPortNames (endpoints : Endpoints) : List String :=
  endpoints.Subsets.flatMap (fun endpoint =>
    endpoint.Ports.map (fun port => if port.Name != "" then port.Name else "default"))

/-- The body of the loop over `newServiceNameSlice` (lines 71 to 80): one DELETE for the
backend named after the object and its current count, then the count is lowered. -/
def deleteBackendStep (w : Env) (objName : String) (_ : Unit) (serviceName : String) :
    M Unit := do
  let st ← getProc
  let backendName := objName ++ Sprint (GetBackendID st objName)
  let fullPath := objName ++ "--" ++ serviceName ++ "/backends/" ++ backendName
  let _ ← deleteNftlbRequest w fullPath
  DecreaseBackendID objName

/-- The loop `for json.GetBackendID(objName) > 0` (lines 61 to 81). `fuel` bounds the
number of times the condition is evaluated; the value `none` says that the bound was
reached, `some ()` that the loop was left. `newServiceNameSlice` is declared before the
loop and only appended to, so every pass adds the port names once more. -/
def deleteBackendsLoop (w : Env) (endpoints : Endpoints) :
    Nat → List String → M (Option Unit)
  | 0, _ => M.pure none
  | fuel + 1, newServiceNameSlice => fun st =>
    if GetBackendID st endpoints.Name > 0 then
      let names := newServiceNameSlice ++ backendPortNames endpoints
      match rangeFold (deleteBackendStep w endpoints.Name) () names st with
      | .ok _ st1 => deleteBackendsLoop w endpoints fuel names st1
      | .panic st1 => .panic st1
    else .ok (some ()) st

/-- DeleteNftlbBackends deletes all nftlb backends from a farm given a Endpoints object;
`fuel` bounds the passes of its loop. -/
def DeleteNftlbBackends (w : Env) (endpoints : Endpoints) (fuel : Nat) : M (Option Unit) :=
  deleteBackendsLoop w endpoints fuel []

/-! ## What the update is expected to send -/

/-- The delete requests of one call of actionDeleteNftlbRequest, given the node-port
list and the external-addresses map: under the farm, under its twin when registered,
under every externally published farm. -/
def actionRequests (nodePortArray : List String) (externalIPsArray : String → Option (List String))
    (farmName backendName : String) : List RequestData :=
  [deleteRequestData (backendPath farmName backendName)]
    ++ (if Contains nodePortArray (AssignFarmNameNodePort farmName "nodePort") then
          [deleteRequestData (backendPath (AssignFarmNameNodePort farmName "nodePort") backendName)]
        else [])
    ++ ((externalIPsArray farmName).getD []).map
          (fun farmExternalIPs => deleteRequestData (backendPath farmExternalIPs backendName))

/-- The delete requests that the processing of one old address sends: none without a
target reference; under the farms of all old port names when the new object has no
port; otherwise, when the target name is not among the new target names, under the
farms of all new port names. -/
def addressRequests (nodePortArray : List String)
    (externalIPsArray : String → Option (List String)) (oldEP newEP : Endpoints)
    (address : EndpointAddress) : List RequestData :=
  match address.TargetRef with
  | none => []
  | some ref =>
    if (getNewServiceSlice newEP).length < 1 then
      (getOldServiceSlice oldEP).flatMap (fun serviceName =>
        actionRequests nodePortArray externalIPsArray
          (AssignFarmNameService oldEP.Name serviceName) ref.Name)
    else if find (getNewBackendsSlice newEP) ref.Name then []
    else
      (getNewServiceSlice newEP).flatMap (fun serviceName =>
        actionRequests nodePortArray externalIPsArray
          (AssignFarmNameService oldEP.Name serviceName) ref.Name)

/-- The delete requests of a whole update, in order of issue. -/
def updateDeletes (nodePortArray : List String)
    (externalIPsArray : String → Option (List String)) (oldEP newEP : Endpoints) :
    List RequestData :=
  oldEP.Subsets.flatMap (fun endpoint =>
    endpoint.Addresses.flatMap (addressRequests nodePortArray externalIPsArray oldEP newEP))

/-! ## Predicates used in the statements -/

/-- The retraction commands of a DSR record: one per recorded handle, in order. -/
def retractCommands (d : dsrStruct) : List (String × String) :=
  d.dockerUid.map (fun uid => (uid, retractCommand d.virtualAddr))

/-- The twin farm names that the processing of one service port appends to
`nodePortArray` (none or one). -/
def twinNames (service : Service) (port : ServicePort) : List String :=
  if hasTwin service port then [twinFarmName service.Name port] else []

/-- The retraction commands that the processing of a base farm issues when the mode is
not dsr: those of its record, unless the service is of type NodePort or there is no
record. -/
def baseRetractions (service : Service) (serviceDsr : String → Option dsrStruct)
    (farmName : String) : List (String × String) :=
  if service.SpecType = "NodePort" then []
  else ((serviceDsr farmName).map retractCommands).getD []

/-- The body keeps the property of the process state in every outcome. -/
def Keeps (J : Proc → Prop) {α : Type} (m : M α) : Prop := ∀ st, J st → J (m st).proc

/-- The process state agrees with `st0` on the parts that neither the DSR code nor the
backend synthesis writes. -/
def SinkView (st0 : Proc) (st : Proc) : Prop :=
  st.requests = st0.requests ∧ st.nodePortArray = st0.nodePortArray ∧
    st.externalIPsArray = st0.externalIPsArray ∧ st.maxConnsMap = st0.maxConnsMap

/-- What an emitted farm entry looks like: it belongs to the entries of one subset,
address and port, built with some connection ceiling. -/
def EmittedFor (nodePortArray : List String) (E : Endpoints) (f : Farm) : Prop :=
  ∃ sub ∈ E.Subsets, ∃ addr ∈ sub.Addresses, ∃ port ∈ sub.Ports, ∃ maxconns,
    f ∈ portFarms nodePortArray (AssignFarmNameService E.Name (endpointPortName port))
      [createBackend (addressBackendName E.Name addr) addr.IP "up" (Sprint port.Port) maxconns]

/-- What a step of the service loop does to the registry when the mode is not dsr:
`s1` is reached from `s` by appending `cmds` to the commands, `twins` to the node-port
list, and erasing the DSR records of the keys in `erased`. -/
def SnatStep (s s1 : Proc) (cmds : List (String × String)) (twins : List String)
    (erased : String → Bool) : Prop :=
  s1.execs = s.execs ++ cmds ∧ s1.nodePortArray = s.nodePortArray ++ twins ∧
    (∀ k, s1.serviceDsr k = if erased k then none else s.serviceDsr k) ∧
    s1.requests = s.requests ∧ s1.maxConnsMap = s.maxConnsMap

/-- Whether the processing of one service port, the mode not being dsr, erases the DSR
record of the key: the record of the base farm unless the type is NodePort, and the record
of the twin farm when the port has one. -/
def stepErased (service : Service) (port : ServicePort) (k : String) : Bool :=
  decide (k = baseFarmName service.Name port ∧ service.SpecType ≠ "NodePort")
    || (hasTwin service port && decide (k = twinFarmName service.Name port))

/-- The retraction commands that the service loop issues over the ports, the mode not
being dsr, starting from the DSR registry `serviceDsr`. -/
def loopRetractions (service : Service) :
    (String → Option dsrStruct) → List ServicePort → List (String × String)
  | _, [] => []
  | serviceDsr, port :: ports =>
    baseRetractions service serviceDsr (baseFarmName service.Name port)
      ++ loopRetractions service
          (fun k => if stepErased service port k then none else serviceDsr k) ports

/-- The farm names that the service loop emits for one port: the base farm, then the
twin farm if the port has one. -/
def portFarmNames (service : Service) (port : ServicePort) : List String :=
  [baseFarmName service.Name port] ++ twinNames service port

/-- The container handle that addInterfaceDsr derives for a backend: the piece after
`docker://` of the identifier of the first container of the pod; `none` where the code
panics. -/
def podHandle (w : Env) (backendName : String) : Option String :=
  match (w.PodsGet backendName).ContainerStatuses.head? with
  | none => none
  | some dockerUid => (SplitAfter dockerUid "docker://").get? 1

/-- The handles that the processing of one endpoint port adds to the record of `farm`:
the handle of the backend when the port is filed under that farm. -/
def portHandles (w : Env) (objName backendName farm : String) (port : EndpointPort) :
    List String :=
  if AssignFarmNameService objName (endpointPortName port) = farm then
    (podHandle w backendName).toList
  else []

/-- The handles that one call of GetJSONnftlbFromEndpoints adds to the record of `farm`:
one per subset, address and port filed under that farm, in the order of the loops. -/
def aliasHandles (w : Env) (E : Endpoints) (farm : String) : List String :=
  E.Subsets.flatMap (fun sub =>
    sub.Addresses.flatMap (fun addr =>
      sub.Ports.flatMap (portHandles w E.Name (addressBackendName E.Name addr) farm)))

/-- A DSR record with more handles appended. -/
def withHandles (hs : List String) (d : dsrStruct) : dsrStruct :=
  { d with dockerUid := d.dockerUid ++ hs }

/-- A sequence of endpoints notifications: GetJSONnftlbFromEndpoints is called on each
object in turn, each call in its own environment. -/
def endpointsCalls (calls : List (Env × Endpoints)) : M Unit :=
  rangeFold (fun (_ : Unit) (call : Env × Endpoints) => do
    let _ ← GetJSONnftlbFromEndpoints call.1 call.2
    pure ()) () calls

/-- A port name that Kubernetes admits: a DNS label, made of lower-case letters, digits
and hyphens. -/
def validPortName (name : String) : Prop :=
  ∀ c ∈ name.data, c.isLower = true ∨ c.isDigit = true ∨ c = '-'

/-- The requests handed to the sink since the state `st0` all satisfy `good`. -/
def IssuedOnly (good : RequestData → Prop) (st0 st : Proc) : Prop :=
  ∃ issued, st.requests = st0.requests ++ issued ∧ ∀ r ∈ issued, good r

/-- A delete request that was built for a backend name outside `names`. -/
def DeletesOutside (names : List String) (r : RequestData) : Prop :=
  r.Method = "DELETE" →
    ∃ farmName backendName,
      r = deleteRequestData (backendPath farmName backendName) ∧ backendName ∉ names

/-- The target names of an endpoints object that are not target names of another one,
one entry per occurrence among the addresses. -/
def removedBackends (oldEP newEP : Endpoints) : List String :=
  (getNewBackendsSlice oldEP).filter (fun b => !find (getNewBackendsSlice newEP) b)

/-- The (farm name, backend names) pairs of a synthesis result, `none` after a panic. -/
def emittedPairs (r : Result JSONnftlb) : Option (List (String × List String)) :=
  r.value.map (fun js => js.Farms.map (fun f => (f.Name, f.Backends.map (fun b => b.Name))))

/-- The names of the farms of a synthesis result, `none` after a panic. -/
def farmNames (r : Result JSONnftlb) : Option (List String) :=
  r.value.map (fun js => js.Farms.map (fun f => f.Name))

/-! ## Concrete inputs -/

/-- An environment in which every collaborator answers: the pod `name` has one container
with the identifier `docker://name`, every command and every request succeeds. -/
def calmEnv : Env :=
  { PodsList := [],
    PodsGet := fun name =>
      { Name := name, Labels := [], ContainerStatuses := ["docker://" ++ name] },
    dockerExec := fun _ _ => true,
    Send := fun _ => some "",
    BadNames := [],
    InterfaceBridge := "",
    ParseIP := fun _ => some true,
    DecodePrettyJSON := fun _ => "" }

/-- An address with a target reference. -/
def podAddress (ip name : String) : EndpointAddress :=
  { IP := ip, TargetRef := some { Name := name } }

/-- The endpoints object `web` with the pods a and b behind the port http. -/
def webOldAB : Endpoints :=
  { Name := "web",
    Subsets := [{ Addresses := [podAddress "10.0.0.1" "pod-a", podAddress "10.0.0.2" "pod-b"],
                  Ports := [{ Name := "http", Port := 80 }] }] }

/-- The endpoints object `web` after pod b left and pod c came up serving http on
another port: two subsets that both name the port http. -/
def webNewTwoSubsets : Endpoints :=
  { Name := "web",
    Subsets := [{ Addresses := [podAddress "10.0.0.1" "pod-a"],
                  Ports := [{ Name := "http", Port := 80 }] },
                { Addresses := [podAddress "10.0.0.3" "pod-c"],
                  Ports := [{ Name := "http", Port := 8080 }] }] }

/-- The endpoints object `web` with only pod a behind the port http. -/
def webNewA : Endpoints :=
  { Name := "web",
    Subsets := [{ Addresses := [podAddress "10.0.0.1" "pod-a"],
                  Ports := [{ Name := "http", Port := 80 }] }] }

/-- The endpoints object `web` with no subset left. -/
def webNone : Endpoints := { Name := "web", Subsets := [] }

/-- The endpoints object `web` with one address that has no target reference. -/
def webNoTarget : Endpoints :=
  { Name := "web",
    Subsets := [{ Addresses := [{ IP := "10.0.0.1", TargetRef := none }],
                  Ports := [{ Name := "http", Port := 80 }] }] }

/-- The endpoints object `web` with pod a behind a port that is now named https. -/
def webNewHttps : Endpoints :=
  { Name := "web",
    Subsets := [{ Addresses := [podAddress "10.0.0.1" "pod-a"],
                  Ports := [{ Name := "https", Port := 443 }] }] }

/-- The service `web` (ClusterIP 10.0.0.5, port http 80) carrying one annotation whose
key ends in a digit. -/
def webRevisionService : Service :=
  { Name := "web", Labels := [], Annotations := some [("example.com/revision-2", "x")],
    Ports := [{ Name := "http", Protocol := "TCP", Port := 80, NodePort := 0 }],
    ClusterIP := "10.0.0.5", SpecType := "ClusterIP", SessionAffinity := "None",
    SessionAffinityConfig := none }

/-- The service `web` of type NodePort with a single port that has no name. -/
def webNodePortUnnamed : Service :=
  { Name := "web", Labels := [], Annotations := none,
    Ports := [{ Name := "", Protocol := "TCP", Port := 80, NodePort := 30080 }],
    ClusterIP := "10.0.0.5", SpecType := "NodePort", SessionAffinity := "None",
    SessionAffinityConfig := none }

/-- The endpoints object `web` with pod a behind a port that has no name. -/
def webUnnamedA : Endpoints :=
  { Name := "web",
    Subsets := [{ Addresses := [podAddress "10.0.0.1" "pod-a"],
                  Ports := [{ Name := "", Port := 80 }] }] }

/-- The service `web` of type NodePort with the named port http. -/
def webNodePortHttp : Service :=
  { Name := "web", Labels := [], Annotations := none,
    Ports := [{ Name := "http", Protocol := "TCP", Port := 80, NodePort := 30080 }],
    ClusterIP := "10.0.0.5", SpecType := "NodePort", SessionAffinity := "None",
    SessionAffinityConfig := none }

/-- The NodePort service `web` with two ports, named `a--nodePort` and `a`: the base farm
of the first port carries the name of the twin farm of the second. -/
def webCollidingPorts : Service :=
  { Name := "web", Labels := [], Annotations := none,
    Ports := [{ Name := "a--nodePort", Protocol := "TCP", Port := 80, NodePort := 30080 },
              { Name := "a", Protocol := "TCP", Port := 81, NodePort := 30081 }],
    ClusterIP := "10.0.0.5", SpecType := "NodePort", SessionAffinity := "None",
    SessionAffinityConfig := none }

/-- The ClusterIP service `web` with the port http and no annotation. -/
def webClusterHttp : Service :=
  { Name := "web", Labels := [], Annotations := none,
    Ports := [{ Name := "http", Protocol := "TCP", Port := 80, NodePort := 0 }],
    ClusterIP := "10.0.0.5", SpecType := "ClusterIP", SessionAffinity := "None",
    SessionAffinityConfig := none }

/-- A registry whose only content is a DSR record for `farmName`: the address 10.0.0.5
aliased on the given handles. -/
def dsrOnly (farmName : String) (handles : List String) : Proc :=
  Proc.empty.setDsr farmName { virtualAddr := "10.0.0.5", dockerUid := handles }

/-- The ClusterIP service `api` (port http 80) whose annotation asks for a ceiling of 100
connections per backend. -/
def apiCeilingService : Service :=
  { Name := "api", Labels := [],
    Annotations := some [("service.kubernetes.io/kube-nftlb-load-balancer-maxconns", "100")],
    Ports := [{ Name := "http", Protocol := "TCP", Port := 80, NodePort := 0 }],
    ClusterIP := "10.0.0.6", SpecType := "ClusterIP", SessionAffinity := "None",
    SessionAffinityConfig := none }


/-- The service `web` (ClusterIP 10.0.0.5, port http 80) labelled app=web, whose annotation
asks for the DSR mode. -/
def webDsrService : Service :=
  { Name := "web", Labels := [("app", "web")],
    Annotations := some [("service.kubernetes.io/kube-nftlb-load-balancer-mode", "dsr")],
    Ports := [{ Name := "http", Protocol := "TCP", Port := 80, NodePort := 0 }],
    ClusterIP := "10.0.0.5", SpecType := "ClusterIP", SessionAffinity := "None",
    SessionAffinityConfig := none }

/-- The pod `name` labelled app=`app`, with one container. -/
def appPod (name app : String) : Pod :=
  { Name := name, Labels := [("app", app)], ContainerStatuses := ["docker://" ++ name] }

/-- The environment `calmEnv` in which the pod lookup returns the given pods. -/
def podsEnv (pods : List Pod) : Env :=
  { calmEnv with PodsList := pods }

/-- The registry right after line 73 created the empty record of `farmName`. -/
def freshRecord (farmName : String) : Proc :=
  Proc.empty.setDsr farmName { virtualAddr := "", dockerUid := [] }

/-! ## The farms of a service -/

/-- The value of `iface` after the DSR bookkeeping of a farm (lines 71 to 84 and 95 to
106): the bridge interface in DSR mode, the value it had otherwise. -/
def stepIface (w : Env) (mode iface : String) : String :=
  if mode == "dsr" then w.InterfaceBridge else iface

/-- The farms that one iteration of the loop of GetJSONnftlbFromService appends for a port
(lines 85 to 87 and 107 to 109), `iface` being the value the iteration starts with: the
base farm, then the twin farm when the port has one. -/
def builtFarms (w : Env) (service : Service) (persistence persistenceTTL : String)
    (a : AnnotationVars) (family iface : String) (port : ServicePort) : List Farm :=
  [createFarm (baseFarmName service.Name port) family service.ClusterIP (Sprint port.Port)
      a.mode (ToLower port.Protocol) a.scheduler a.sched_param a.helper a.log a.logPrefix
      "up" "on" persistence persistenceTTL (stepIface w a.mode iface) []]
    ++ (if hasTwin service port then
          [createFarm (twinFarmName service.Name port) family "" (Sprint port.NodePort)
            a.mode (ToLower port.Protocol) a.scheduler a.sched_param a.helper a.log
            a.logPrefix "up" "on" persistence persistenceTTL (stepIface w a.mode iface) []]
        else [])

/-- The values of getAnnotations for a single annotation asking for the hash scheduler on
the field `field`. -/
def hashVars (field : String) : AnnotationVars :=
  { annotationDefaults with sched_param := field, scheduler := "hash" }

/-- The ClusterIP service `web` (10.0.0.5, port http 80) whose only annotation asks for
the scheduler hash-srcip. -/
def webHashService : Service :=
  { Name := "web", Labels := [],
    Annotations := some [("service.kubernetes.io/kube-nftlb-load-balancer-scheduler",
      "hash-srcip")],
    Ports := [{ Name := "http", Protocol := "TCP", Port := 80, NodePort := 0 }],
    ClusterIP := "10.0.0.5", SpecType := "ClusterIP", SessionAffinity := "None",
    SessionAffinityConfig := none }

/-- The name, address, port and state of a backend. -/
def backendView (b : Backend) : String × String × String × String :=
  (b.Name, b.IPAddr, b.Port, b.State)

/-- The name of a farm entry and the views of its backends. -/
def entryView (f : Farm) : String × List (String × String × String × String) :=
  (f.Name, f.Backends.map backendView)

/-- The connection ceilings that the backends of each entry of a synthesis result carry,
`none` after a panic. -/
def entryCeilings (r : Result JSONnftlb) : Option (List (String × List String)) :=
  r.value.map (fun js =>
    js.Farms.map (fun f => (f.Name, f.Backends.map (fun b => b.BackendMaxConns))))

/-- A registry whose only content is the ceiling 100 for the farm web--a and the ceiling 0
for the farm web--b. -/
def ceilingRegistry : Proc :=
  { Proc.empty with
    maxConnsMap := fun k =>
      if k = "web--a" then some "100" else if k = "web--b" then some "0" else none }

/-- The endpoints object `web` with pod a behind the ports a and b. -/
def webPortsAB : Endpoints :=
  { Name := "web",
    Subsets := [{ Addresses := [podAddress "10.0.0.1" "pod-a"],
                  Ports := [{ Name := "a", Port := 80 }, { Name := "b", Port := 81 }] }] }

/-- The ClusterIP service `web` (10.0.0.5, port http 80) with the given annotations. -/
def webAnnotated (entries : List (String × String)) : Service :=
  { Name := "web", Labels := [], Annotations := some entries,
    Ports := [{ Name := "http", Protocol := "TCP", Port := 80, NodePort := 0 }],
    ClusterIP := "10.0.0.5", SpecType := "ClusterIP", SessionAffinity := "None",
    SessionAffinityConfig := none }

/-- The key of the scheduler annotation. -/
def schedulerKey : String := "service.kubernetes.io/kube-nftlb-load-balancer-scheduler"

/-- The scheduler and the scheduler parameter that getAnnotations returns, `none` when it
panics. -/
def schedulerOf (service : Service) : Option (String × String) :=
  (getAnnotations service).map (fun a => (a.scheduler, a.sched_param))

/-- The key of the mode annotation with the given spelling of its last word. -/
def modeKey (word : String) : String :=
  "service.kubernetes.io/kube-nftlb-load-balancer-" ++ word

/-- The mode that getAnnotations returns, `none` when it panics. -/
def modeOf (service : Service) : Option String :=
  (getAnnotations service).map (fun a => a.mode)

/-- The six values that getAnnotations returns, `none` when it panics. -/
def sixValues (service : Service) :
    Option (String × String × String × String × String × String) :=
  (getAnnotations service).map (fun a =>
    (a.mode, a.scheduler, a.sched_param, a.helper, a.log, a.logPrefix))

/-- A registry whose only content is the backend count `n` of the object `objName`. -/
def countOnly (objName : String) (n : Int) : Proc :=
  { Proc.empty with backendIDs := fun k => if k = objName then some n else none }

/-- The state after `n` calls of GetJSONnftlbFromService on the service. -/
def afterCalls (w : Env) (service : Service) : Nat → Proc → Proc
  | 0, st => st
  | n + 1, st => afterCalls w service n (GetJSONnftlbFromService w service st).proc


/-- The endpoints object `web` with one subset that has an address and no port. -/
def webNoPorts : Endpoints :=
  { Name := "web",
    Subsets := [{ Addresses := [podAddress "10.0.0.1" "pod-a"], Ports := [] }] }

/-! ## Persistence as described -/

/-- Whether `[a-z]+$` finds the word persistence at the end of the key. -/
def isPersistenceKey (key : String) : Bool :=
  FindStringSubmatch .lowerAtEnd key == some "persistence"

/-- Whether the value is one of the six recognised field names. -/
def isFieldName (value : String) : Bool :=
  value == "srcip" || value == "dstip" || value == "srcport" || value == "dstport"
    || value == "srcmac" || value == "dstmac"

/-- The persistence derived from the session affinity of the service. -/
def affinityPersistence (service : Service) : String :=
  if service.SessionAffinity == "ClientIP" then "srcip"
  else if service.SessionAffinity == "None" then "none"
  else ""

/-- The decimal text of the session-affinity timeout when one is set, the empty text
otherwise. -/
def affinityTTL (service : Service) : String :=
  match service.SessionAffinityConfig with
  | none => ""
  | some cfg =>
    match cfg.ClientIP with
    | none => ""
    | some clientIP =>
      match clientIP.TimeoutSeconds with
      | none => ""
      | some seconds => Sprint seconds

/-- The persistence and its TTL as the description gives them: the value of the
persistence annotation when it is one of the six field names, the persistence derived from
the session affinity otherwise; the TTL of the session affinity. -/
def describedPersistence (service : Service) : String × String :=
  let annotated :=
    ((service.Annotations.getD []).find? (fun kv => isPersistenceKey kv.1)).map (fun kv => kv.2)
  let persistence :=
    match annotated with
    | some value => if isFieldName value then value else affinityPersistence service
    | none => affinityPersistence service
  (persistence, affinityTTL service)

/-- The key of the persistence annotation. -/
def persistenceKey : String := "service.kubernetes.io/kube-nftlb-load-balancer-persistence"

/-- The service `web` with client-IP affinity (timeout 10800 seconds), a persistence
annotation asking for dstip and another annotation. -/
def webPersistenceService : Service :=
  { Name := "web", Labels := [],
    Annotations := some [(modeKey "helper", "ftp"), (persistenceKey, "dstip")],
    Ports := [{ Name := "http", Protocol := "TCP", Port := 80, NodePort := 0 }],
    ClusterIP := "10.0.0.5", SpecType := "ClusterIP", SessionAffinity := "ClientIP",
    SessionAffinityConfig := some { ClientIP := some { TimeoutSeconds := some 10800 } } }

/-! ## Farm identities -/

/-- The role of a farm: the base farm of a port or its node-port twin. -/
inductive Role where
  | base
  | twin
deriving DecidableEq, Repr

/-- The name GetJSONnftlbFromService gives to the farm of a port in a role (lines 62 to
66 and line 91). -/
def emittedName (serviceName : String) (port : ServicePort) : Role → String
  | .base => baseFarmName serviceName port
  | .twin => twinFarmName serviceName port

/-- The name of the port, an empty name read as `default`. -/
def portNameOrDefault (port : ServicePort) : String :=
  if port.Name == "" then "default" else port.Name

/-- Whether two hyphens follow each other in the text. -/
def hasDoubleHyphen : List Char → Bool
  | [] => false
  | [_] => false
  | c :: d :: cs => (c == '-' && d == '-') || hasDoubleHyphen (d :: cs)

/-- A plain port name: made of lower-case letters, digits and hyphens, not starting with
a hyphen and without two hyphens in a row (the empty name included). -/
def portNameOk (name : String) : Bool :=
  name.data.all (fun c => c.isLower || c.isDigit || c == '-')
    && !(name.data.head? == some '-') && !hasDoubleHyphen name.data

/-- The ClusterIP service `serviceName` with the single port `portName`. -/
def plainService (serviceName portName : String) : Service :=
  { Name := serviceName, Labels := [], Annotations := none,
    Ports := [{ Name := portName, Protocol := "TCP", Port := 80, NodePort := 0 }],
    ClusterIP := "10.0.0.5", SpecType := "ClusterIP", SessionAffinity := "None",
    SessionAffinityConfig := none }
/-! ## Running bodies -/

@[simp] theorem M.bind_eq {α β : Type} (m : M α) (f : α → M β) : (m >>= f) = M.bind m f := rfl

@[simp] theorem M.pure_eq {α : Type} (a : α) : (pure a : M α) = M.pure a := rfl

@[simp] theorem M.pure_run {α : Type} (a : α) (st : Proc) : M.pure a st = .ok a st := rfl

@[simp] theorem pureM_apply {α : Type} (a : α) (st : Proc) :
    (pure a : M α) st = .ok a st := rfl

@[simp] theorem throwPanic_apply {α : Type} (st : Proc) :
    (throwPanic : M α) st = .panic st := rfl

@[simp] theorem getProc_apply (st : Proc) : getProc st = .ok st st := rfl

@[simp] theorem modifyProc_apply (f : Proc → Proc) (st : Proc) :
    modifyProc f st = .ok () (f st) := rfl

@[simp] theorem orPanic_some {α : Type} (a : α) (st : Proc) :
    orPanic (some a) st = .ok a st := rfl

@[simp] theorem orPanic_none {α : Type} (st : Proc) :
    (orPanic none : M α) st = .panic st := rfl

theorem M.bind_ok {α β : Type} {m : M α} {f : α → M β} {st st1 : Proc} {a : α}
    (h : m st = .ok a st1) : M.bind m f st = f a st1 := by
  simp [M.bind, h]

theorem M.bind_panic {α β : Type} {m : M α} {f : α → M β} {st st1 : Proc}
    (h : m st = .panic st1) : M.bind m f st = .panic st1 := by
  simp [M.bind, h]

@[simp] theorem M.ite_apply {α : Type} (c : Prop) [Decidable c] (x y : M α) (st : Proc) :
    (if c then x else y) st = if c then x st else y st := by
  split <;> rfl

@[simp] theorem rangeFold_nil {β γ : Type} (body : γ → β → M γ) (acc : γ) (st : Proc) :
    rangeFold body acc [] st = .ok acc st := rfl

theorem rangeFold_cons {β γ : Type} (body : γ → β → M γ) (acc : γ) (x : β) (xs : List β)
    (st : Proc) :
    rangeFold body acc (x :: xs) st =
      match body acc x st with
      | .ok acc1 st1 => rangeFold body acc1 xs st1
      | .panic st1 => .panic st1 := rfl

/-- A property of the process state that every iteration keeps, whether it returns or
panics, holds when the loop stops. -/
theorem rangeFold_proc {β γ : Type} (J : Proc → Prop) (body : γ → β → M γ)
    (xs : List β) (hbody : ∀ acc x st, x ∈ xs → J st → J (body acc x st).proc)
    (acc : γ) (st : Proc) (h0 : J st) : J (rangeFold body acc xs st).proc := by
  induction xs generalizing acc st with
  | nil => simpa [Result.proc] using h0
  | cons x xs ih =>
    have hx := hbody acc x st (List.mem_cons_self x xs) h0
    rw [rangeFold_cons]
    cases hb : body acc x st with
    | ok acc1 st1 =>
      rw [hb] at hx
      exact ih (fun acc x st hm => hbody acc x st (List.mem_cons_of_mem _ hm)) acc1 st1 hx
    | panic st1 =>
      rw [hb] at hx
      simpa [Result.proc] using hx

/-- Total correctness of a loop: when every iteration returns and keeps the invariant,
the loop returns and the invariant holds at the end. -/
theorem rangeFold_returns {β γ : Type} (I : γ → Proc → Prop) (body : γ → β → M γ)
    (xs : List β)
    (hbody : ∀ acc x st, x ∈ xs → I acc st → ∃ acc1 st1, body acc x st = .ok acc1 st1 ∧ I acc1 st1)
    (acc : γ) (st : Proc) (h0 : I acc st) :
    ∃ acc1 st1, rangeFold body acc xs st = .ok acc1 st1 ∧ I acc1 st1 := by
  induction xs generalizing acc st with
  | nil => exact ⟨acc, st, rfl, h0⟩
  | cons x xs ih =>
    obtain ⟨acc1, st1, hb, h1⟩ := hbody acc x st (List.mem_cons_self x xs) h0
    rw [rangeFold_cons, hb]
    exact ih (fun acc x st hm => hbody acc x st (List.mem_cons_of_mem _ hm)) acc1 st1 h1

/-- Partial correctness of a loop with the list of items already visited: what every
returning iteration keeps holds of a returning loop. -/
theorem rangeFold_visited {β γ : Type} (I : List β → γ → Proc → Prop) (body : γ → β → M γ)
    (xs : List β)
    (hbody : ∀ done x acc st acc1 st1, x ∈ xs → I done acc st →
      body acc x st = .ok acc1 st1 → I (done ++ [x]) acc1 st1)
    (done : List β) (acc : γ) (st : Proc) (h0 : I done acc st) (acc2 : γ) (st2 : Proc)
    (hr : rangeFold body acc xs st = .ok acc2 st2) : I (done ++ xs) acc2 st2 := by
  induction xs generalizing done acc st with
  | nil =>
    simp at hr
    obtain ⟨rfl, rfl⟩ := hr
    simpa using h0
  | cons x xs ih =>
    rw [rangeFold_cons] at hr
    cases hb : body acc x st with
    | ok acc1 st1 =>
      rw [hb] at hr
      have h1 := hbody done x acc st acc1 st1 (List.mem_cons_self x xs) h0 hb
      have := ih (fun done x acc st acc1 st1 hm => hbody done x acc st acc1 st1
        (List.mem_cons_of_mem _ hm)) (done ++ [x]) acc1 st1 h1 hr
      simpa using this
    | panic st1 =>
      rw [hb] at hr
      cases hr

theorem Contains_iff (sl : List String) (str : String) : Contains sl str = true ↔ str ∈ sl := by
  induction sl with
  | nil => simp [Contains]
  | cons v sl ih =>
    simp only [Contains, List.mem_cons]
    by_cases h : v = str
    · simp [h]
    · have h2 : ¬ str = v := fun e => h e.symm
      simp [h, h2, ih]

theorem find_iff (slice : List String) (val : String) : find slice val = true ↔ val ∈ slice := by
  induction slice with
  | nil => simp [find]
  | cons v sl ih =>
    simp only [find, List.mem_cons]
    by_cases h : v = val
    · simp [h]
    · have h2 : ¬ val = v := fun e => h e.symm
      simp [h, h2, ih]



theorem Keeps.pure (J : Proc → Prop) {α : Type} (a : α) : Keeps J (M.pure a) :=
  fun _ h => h

theorem Keeps.throwPanic (J : Proc → Prop) {α : Type} : Keeps J (throwPanic : M α) :=
  fun _ h => h

theorem Keeps.getProc (J : Proc → Prop) : Keeps J getProc := fun _ h => h

theorem Keeps.orPanic (J : Proc → Prop) {α : Type} (o : Option α) : Keeps J (orPanic o) := by
  cases o
  · exact Keeps.throwPanic J
  · exact Keeps.pure J _

theorem Keeps.modifyProc (J : Proc → Prop) (f : Proc → Proc) (h : ∀ st, J st → J (f st)) :
    Keeps J (modifyProc f) := fun st hs => h st hs

theorem Keeps.bind (J : Proc → Prop) {α β : Type} {m : M α} {f : α → M β}
    (hm : Keeps J m) (hf : ∀ a, Keeps J (f a)) : Keeps J (M.bind m f) := by
  intro st hs
  have h1 := hm st hs
  unfold M.bind
  cases hr : m st with
  | ok a st1 =>
    rw [hr] at h1
    exact hf a st1 h1
  | panic st1 =>
    rw [hr] at h1
    exact h1

theorem Keeps.ite (J : Proc → Prop) {α : Type} (c : Prop) [Decidable c] {x y : M α}
    (hx : Keeps J x) (hy : Keeps J y) : Keeps J (if c then x else y) := by
  split
  · exact hx
  · exact hy

theorem Keeps.rangeFold (J : Proc → Prop) {β γ : Type} {body : γ → β → M γ}
    (hbody : ∀ acc x, Keeps J (body acc x)) (acc : γ) (xs : List β) :
    Keeps J (rangeFold body acc xs) :=
  fun st hs => rangeFold_proc J body xs (fun acc x st _ h => hbody acc x st h) acc st hs


theorem dockerRun_keeps (st0 : Proc) (w : Env) (c cmd : String) :
    Keeps (SinkView st0) (dockerRun w c cmd) := by
  intro st hs
  unfold dockerRun
  split <;> simpa [Result.proc, SinkView] using hs

theorem addInterfaceDsr_keeps (st0 : Proc) (w : Env) (f b v : String) :
    Keeps (SinkView st0) (addInterfaceDsr w f b v) := by
  unfold addInterfaceDsr
  refine Keeps.bind _ (Keeps.orPanic _ _) (fun _ => ?_)
  refine Keeps.bind _ (Keeps.orPanic _ _) (fun _ => ?_)
  refine Keeps.bind _ (dockerRun_keeps _ _ _ _) (fun _ => ?_)
  refine Keeps.bind _ (Keeps.getProc _) (fun _ => ?_)
  refine Keeps.bind _ (Keeps.orPanic _ _) (fun _ => ?_)
  exact Keeps.modifyProc _ _ (fun st hs => by simpa [SinkView] using hs)

theorem endpointDsrStep_keeps (st0 : Proc) (w : Env) (f b : String) :
    Keeps (SinkView st0) (endpointDsrStep w f b) := by
  unfold endpointDsrStep
  refine Keeps.bind _ (Keeps.getProc _) (fun st1 => ?_)
  split
  · exact addInterfaceDsr_keeps _ _ _ _ _
  · exact Keeps.pure _ _

theorem endpointPortStep_keeps (st0 : Proc) (w : Env) (o b ip : String) (vars : EndpointsVars)
    (port : EndpointPort) : Keeps (SinkView st0) (endpointPortStep w o b ip vars port) := by
  unfold endpointPortStep
  refine Keeps.bind _ (Keeps.getProc _) (fun st1 => ?_)
  refine Keeps.bind _ (endpointDsrStep_keeps _ _ _ _) (fun _ => ?_)
  refine Keeps.bind _ (Keeps.getProc _) (fun _ => ?_)
  exact Keeps.pure _ _

theorem GetJSONnftlbFromEndpoints_keeps (st0 : Proc) (w : Env) (E : Endpoints) :
    Keeps (SinkView st0) (GetJSONnftlbFromEndpoints w E) := by
  unfold GetJSONnftlbFromEndpoints
  refine Keeps.bind _ ?_ (fun _ => ?_)
  · exact Keeps.modifyProc _ _ (fun st hs => by simpa [SinkView] using hs)
  · refine Keeps.bind _ ?_ (fun _ => Keeps.pure _ _)
    refine Keeps.rangeFold _ (fun acc sub => ?_) _ _
    refine Keeps.rangeFold _ (fun acc addr => ?_) _ _
    exact Keeps.rangeFold _ (fun acc port => endpointPortStep_keeps _ _ _ _ _ _ _) _ _


/-! ## The requests of an update -/

@[simp] theorem Proc.addRequests_nil (st : Proc) : st.addRequests [] = st := by
  simp [Proc.addRequests]

@[simp] theorem Proc.addRequests_add (st : Proc) (a b : List RequestData) :
    (st.addRequests a).addRequests b = st.addRequests (a ++ b) := by
  simp [Proc.addRequests, List.append_assoc]

@[simp] theorem Proc.addRequests_requests (st : Proc) (a : List RequestData) :
    (st.addRequests a).requests = st.requests ++ a := rfl

@[simp] theorem Proc.addRequests_nodePortArray (st : Proc) (a : List RequestData) :
    (st.addRequests a).nodePortArray = st.nodePortArray := rfl

@[simp] theorem Proc.addRequests_externalIPsArray (st : Proc) (a : List RequestData) :
    (st.addRequests a).externalIPsArray = st.externalIPsArray := rfl

theorem flatMap_single {α β : Type} (f : α → β) (xs : List α) :
    xs.flatMap (fun x => [f x]) = xs.map f := by
  induction xs with
  | nil => rfl
  | cons x xs ih => simp [List.flatMap_cons, ih]

theorem sendRequest_ok (w : Env) (hsend : ∀ r, (w.Send r).isSome = true) (r : RequestData)
    (st : Proc) : ∃ response, sendRequest w r st = .ok response (st.addRequests [r]) := by
  unfold sendRequest
  have h := hsend r
  cases hr : w.Send r with
  | none => rw [hr] at h; cases h
  | some response => exact ⟨response, rfl⟩

/-- A loop whose body only appends requests, computed from the parts of the state the
body does not change, appends them item by item. -/
theorem rangeFold_requests {β : Type} (body : Unit → β → M Unit)
    (g : List String → (String → Option (List String)) → β → List RequestData)
    (hbody : ∀ x st, body () x st =
      .ok () (st.addRequests (g st.nodePortArray st.externalIPsArray x)))
    (xs : List β) (st : Proc) :
    rangeFold body () xs st =
      .ok () (st.addRequests (xs.flatMap (g st.nodePortArray st.externalIPsArray))) := by
  induction xs generalizing st with
  | nil => simp
  | cons x xs ih =>
    rw [rangeFold_cons, hbody x st]
    simp only []
    rw [ih]
    simp [List.flatMap_cons]

theorem deleteTwinBackend_ok (w : Env) (hsend : ∀ r, (w.Send r).isSome = true)
    (farmName backendName : String) (st : Proc) :
    deleteTwinBackend w farmName backendName st =
      .ok () (st.addRequests
        (if Contains st.nodePortArray (AssignFarmNameNodePort farmName "nodePort") then
          [deleteRequestData (backendPath (AssignFarmNameNodePort farmName "nodePort") backendName)]
        else [])) := by
  unfold deleteTwinBackend
  show M.bind getProc _ st = _
  rw [M.bind_ok (getProc_apply st)]
  by_cases h : Contains st.nodePortArray (AssignFarmNameNodePort farmName "nodePort") = true
  · obtain ⟨resp, hr⟩ := sendRequest_ok w hsend
      (deleteRequestData (backendPath (AssignFarmNameNodePort farmName "nodePort") backendName)) st
    simp only [h, if_true]
    show M.bind (deleteNftlbRequest w _) _ st = _
    unfold deleteNftlbRequest
    rw [M.bind_ok hr]
    rfl
  · simp [h]

theorem deleteExternalBackends_ok (w : Env) (hsend : ∀ r, (w.Send r).isSome = true)
    (farmName backendName : String) (st : Proc) :
    deleteExternalBackends w farmName backendName st =
      .ok () (st.addRequests (((st.externalIPsArray farmName).getD []).map
          (fun e => deleteRequestData (backendPath e backendName)))) := by
  unfold deleteExternalBackends
  show M.bind getProc _ st = _
  rw [M.bind_ok (getProc_apply st)]
  cases hx : st.externalIPsArray farmName with
  | none => simp
  | some farms =>
    simp only []
    rw [rangeFold_requests _ (fun _ _ e => [deleteRequestData (backendPath e backendName)])]
    · simp [flatMap_single]
    · intro x st2
      obtain ⟨resp, hr⟩ := sendRequest_ok w hsend (deleteRequestData (backendPath x backendName)) st2
      show M.bind (deleteNftlbRequest w _) _ st2 = _
      unfold deleteNftlbRequest
      rw [M.bind_ok hr]
      rfl

theorem actionDeleteNftlbRequest_ok (w : Env) (hsend : ∀ r, (w.Send r).isSome = true)
    (farmName backendName : String) (st : Proc) :
    actionDeleteNftlbRequest w farmName backendName st =
      .ok () (st.addRequests
        (actionRequests st.nodePortArray st.externalIPsArray farmName backendName)) := by
  unfold actionDeleteNftlbRequest
  obtain ⟨resp, hr⟩ := sendRequest_ok w hsend (deleteRequestData (backendPath farmName backendName)) st
  show M.bind (deleteNftlbRequest w _) _ st = _
  unfold deleteNftlbRequest
  rw [M.bind_ok hr]
  show M.bind (deleteTwinBackend w farmName backendName) _ _ = _
  rw [M.bind_ok (deleteTwinBackend_ok w hsend farmName backendName _)]
  rw [deleteExternalBackends_ok w hsend]
  simp [actionRequests]

theorem updateAddressStep_ok (w : Env) (hsend : ∀ r, (w.Send r).isSome = true)
    (oldEP newEP : Endpoints) (address : EndpointAddress) (st : Proc) :
    updateAddressStep w oldEP.Name (getNewBackendsSlice newEP) (getNewServiceSlice newEP)
        (getOldServiceSlice oldEP) () address st =
      .ok () (st.addRequests
        (addressRequests st.nodePortArray st.externalIPsArray oldEP newEP address)) := by
  unfold updateAddressStep addressRequests
  cases hx : address.TargetRef with
  | none => simp
  | some ref =>
    simp only []
    by_cases h1 : (getNewServiceSlice newEP).length < 1
    · simp only [h1, if_true]
      exact rangeFold_requests _ (fun np ext serviceName =>
        actionRequests np ext (AssignFarmNameService oldEP.Name serviceName) ref.Name)
        (fun x st2 => actionDeleteNftlbRequest_ok w hsend _ _ st2) _ st
    · simp only [h1, if_false]
      by_cases h2 : find (getNewBackendsSlice newEP) ref.Name = true
      · simp [h2]
      · simp only [h2]
        exact rangeFold_requests _ (fun np ext serviceName =>
          actionRequests np ext (AssignFarmNameService oldEP.Name serviceName) ref.Name)
          (fun x st2 => actionDeleteNftlbRequest_ok w hsend _ _ st2) _ st

/-- The exact trace of an update whose sink accepts every request and whose synthesis
for the new object returns: the POST of the new declaration, then the deletes. -/
theorem UpdateNftlbBackends_trace (w : Env) (oldEP newEP : Endpoints) (st st1 : Proc)
    (js : JSONnftlb) (hbad : Contains w.BadNames newEP.Name = false)
    (hsend : ∀ r, (w.Send r).isSome = true)
    (hnew : GetJSONnftlbFromEndpoints w newEP st = .ok js st1) :
    UpdateNftlbBackends w oldEP newEP st =
      .ok () (st1.addRequests ([postRequestData (w.DecodePrettyJSON js)] ++
        updateDeletes st.nodePortArray st.externalIPsArray oldEP newEP)) := by
  have hview : SinkView st st1 := by
    have := GetJSONnftlbFromEndpoints_keeps st w newEP st ⟨rfl, rfl, rfl, rfl⟩
    rw [hnew] at this
    exact this
  obtain ⟨hreq, hnp, hext, _⟩ := hview
  unfold UpdateNftlbBackends
  simp only [hbad, Bool.not_false, if_true]
  show M.bind (GetJSONnftlbFromEndpoints w newEP) _ st = _
  rw [M.bind_ok hnew]
  obtain ⟨resp, hr⟩ := sendRequest_ok w hsend (postRequestData (w.DecodePrettyJSON js)) st1
  show M.bind (updateNftlbRequest w _) _ st1 = _
  unfold updateNftlbRequest
  rw [M.bind_ok hr]
  rw [rangeFold_requests _ (fun np ext (endpoint : EndpointSubset) =>
    endpoint.Addresses.flatMap (addressRequests np ext oldEP newEP))]
  · simp [updateDeletes, hnp, hext]
  · intro endpoint st2
    exact rangeFold_requests _ (fun np ext address => addressRequests np ext oldEP newEP address)
      (fun x st3 => updateAddressStep_ok w hsend oldEP newEP x st3) _ st2


/-! ## The farms that GetJSONnftlbFromEndpoints emits -/

theorem CreateFarmID_ok (objName : String) (st : Proc) :
    ∃ st0, CreateFarmID objName st = .ok () st0 ∧ st0.nodePortArray = st.nodePortArray ∧
      st0.serviceDsr = st.serviceDsr ∧ st0.maxConnsMap = st.maxConnsMap ∧
      st0.externalIPsArray = st.externalIPsArray ∧ st0.execs = st.execs ∧
      st0.requests = st.requests :=
  ⟨_, rfl, rfl, rfl, rfl, rfl, rfl, rfl⟩

theorem endpointPortStep_farms (w : Env) (o b ip : String) (vars vars1 : EndpointsVars)
    (port : EndpointPort) (st st1 : Proc)
    (h : endpointPortStep w o b ip vars port st = .ok vars1 st1) :
    st1.nodePortArray = st.nodePortArray ∧
      vars1.farmsSlice = vars.farmsSlice ++
        portFarms st.nodePortArray (AssignFarmNameService o (endpointPortName port))
          [createBackend b ip "up" (Sprint port.Port) vars1.maxconns] := by
  have hk := endpointPortStep_keeps st w o b ip vars port st ⟨rfl, rfl, rfl, rfl⟩
  rw [h] at hk
  have hnp : st1.nodePortArray = st.nodePortArray := hk.2.1
  refine ⟨hnp, ?_⟩
  unfold endpointPortStep at h
  change M.bind getProc _ st = _ at h
  rw [M.bind_ok (getProc_apply st)] at h
  change M.bind (endpointDsrStep w _ b) _ st = _ at h
  cases hd : endpointDsrStep w (AssignFarmNameService o (endpointPortName port)) b st with
  | panic st2 =>
    rw [M.bind_panic hd] at h
    cases h
  | ok u st2 =>
    rw [M.bind_ok hd] at h
    change M.bind getProc _ st2 = _ at h
    rw [M.bind_ok (getProc_apply st2)] at h
    simp only [pureM_apply, Result.ok.injEq] at h
    obtain ⟨hv, hs⟩ := h
    subst hs
    rw [← hv, hnp]


theorem GetJSONnftlbFromEndpoints_farms (w : Env) (E : Endpoints) (st st1 : Proc)
    (js : JSONnftlb) (h : GetJSONnftlbFromEndpoints w E st = .ok js st1) :
    ∀ f ∈ js.Farms, EmittedFor st.nodePortArray E f := by
  unfold GetJSONnftlbFromEndpoints at h
  change M.bind (CreateFarmID E.Name) _ st = _ at h
  obtain ⟨st0, hc, hnp0, _⟩ := CreateFarmID_ok E.Name st
  rw [M.bind_ok hc] at h
  change M.bind (rangeFold _ _ _) _ _ = _ at h
  cases hl : rangeFold (endpointSubsetStep w E.Name) { farmsSlice := [], maxconns := "0" }
      E.Subsets st0 with
  | panic st2 =>
    rw [M.bind_panic hl] at h
    cases h
  | ok vars st2 =>
    rw [M.bind_ok hl] at h
    simp only [pureM_apply, Result.ok.injEq] at h
    obtain ⟨hjs, _⟩ := h
    subst hjs
    have key := rangeFold_visited
      (fun (_ : List EndpointSubset) (v : EndpointsVars) (s : Proc) =>
        s.nodePortArray = st.nodePortArray ∧ ∀ f ∈ v.farmsSlice, EmittedFor st.nodePortArray E f)
      (endpointSubsetStep w E.Name) E.Subsets ?_ [] _ st0 ⟨hnp0, by simp⟩ vars st2 hl
    · exact key.2
    · intro _ sub acc s acc1 s1 hsub hI hstep
      unfold endpointSubsetStep at hstep
      have key2 := rangeFold_visited
        (fun (_ : List EndpointAddress) (v : EndpointsVars) (s : Proc) =>
          s.nodePortArray = st.nodePortArray ∧
            ∀ f ∈ v.farmsSlice, EmittedFor st.nodePortArray E f)
        (endpointAddressStep w E.Name sub.Ports) sub.Addresses ?_ [] acc s hI acc1 s1 hstep
      · exact key2
      · intro _ addr acc s acc1 s1 haddr hI hstep
        unfold endpointAddressStep at hstep
        have key3 := rangeFold_visited
          (fun (_ : List EndpointPort) (v : EndpointsVars) (s : Proc) =>
            s.nodePortArray = st.nodePortArray ∧
              ∀ f ∈ v.farmsSlice, EmittedFor st.nodePortArray E f)
          (endpointPortStep w E.Name (addressBackendName E.Name addr) addr.IP) sub.Ports ?_
          [] acc s hI acc1 s1 hstep
        · exact key3
        · intro _ port acc s acc1 s1 hport hI hstep
          obtain ⟨h1, h2⟩ := endpointPortStep_farms _ _ _ _ _ _ _ _ _ hstep
          refine ⟨h1.trans hI.1, ?_⟩
          intro f hf
          rw [h2, List.mem_append] at hf
          rcases hf with hf | hf
          · exact hI.2 f hf
          · rw [hI.1] at hf
            exact ⟨sub, hsub, addr, haddr, port, hport, _, hf⟩

theorem mem_portFarms (nodePortArray : List String) (farmName : String)
    (backends : List Backend) (f : Farm) (hf : f ∈ portFarms nodePortArray farmName backends) :
    f.Backends = backends ∧
      (f.Name = farmName ∨
        (f.Name = AssignFarmNameNodePort farmName "nodePort" ∧
          AssignFarmNameNodePort farmName "nodePort" ∈ nodePortArray)) := by
  unfold portFarms at hf
  simp only [List.mem_append, List.mem_singleton] at hf
  rcases hf with (hf | hf) | hf
  · subst hf
    exact ⟨rfl, Or.inl rfl⟩
  · split at hf
    · simp only [List.mem_singleton] at hf
      subst hf
      exact ⟨rfl, Or.inl rfl⟩
    · cases hf
  · split at hf
    · rename_i hc
      simp only [List.mem_singleton] at hf
      subst hf
      exact ⟨rfl, Or.inr ⟨rfl, (Contains_iff _ _).1 hc⟩⟩
    · cases hf


/-! ## The service loop when the mode is not dsr -/

theorem rangeFold_dockerRun (w : Env) (cmd : String) (uids : List String) (st : Proc)
    (hok : ∀ uid ∈ uids, w.dockerExec uid cmd = true) :
    rangeFold (fun (_ : Unit) (uid : String) => dockerRun w uid cmd) () uids st =
      .ok () (st.addExecs (uids.map (fun uid => (uid, cmd)))) := by
  induction uids generalizing st with
  | nil => simp [Proc.addExecs]
  | cons uid uids ih =>
    rw [rangeFold_cons]
    have h1 : dockerRun w uid cmd st = .ok () (st.addExecs [(uid, cmd)]) := by
      unfold dockerRun
      rw [if_pos (hok uid (List.mem_cons_self _ _))]
    rw [h1]
    simp only []
    rw [ih _ (fun u hu => hok u (List.mem_cons_of_mem _ hu))]
    simp [Proc.addExecs, List.append_assoc]

theorem deleteInterfaceDsr_ok (w : Env) (farmName : String) (st : Proc) (d : dsrStruct)
    (hrec : st.serviceDsr farmName = some d)
    (hok : ∀ uid ∈ d.dockerUid, w.dockerExec uid (retractCommand d.virtualAddr) = true) :
    deleteInterfaceDsr w farmName st =
      .ok () ((st.addExecs (retractCommands d)).eraseDsr farmName) := by
  unfold deleteInterfaceDsr
  show M.bind getProc _ st = _
  rw [M.bind_ok (getProc_apply st)]
  show M.bind (orPanic (st.serviceDsr farmName)) _ st = _
  rw [hrec, M.bind_ok (orPanic_some d st)]
  show M.bind (rangeFold _ () d.dockerUid) _ st = _
  rw [M.bind_ok (rangeFold_dockerRun w _ d.dockerUid st hok)]
  rfl

theorem retractBaseRecord_ok (w : Env) (S : Service) (farmName : String) (s : Proc)
    (hdock : S.SpecType ≠ "NodePort" → ∀ d, s.serviceDsr farmName = some d →
      ∀ uid ∈ d.dockerUid, w.dockerExec uid (retractCommand d.virtualAddr) = true) :
    ∃ s1, retractBaseRecord w S farmName s = .ok () s1 ∧
      SnatStep s s1 (baseRetractions S s.serviceDsr farmName) []
        (fun k => decide (k = farmName ∧ S.SpecType ≠ "NodePort")) := by
  unfold retractBaseRecord
  show ∃ s1, M.bind getProc _ s = _ ∧ _
  rw [M.bind_ok (getProc_apply s)]
  cases hrec : s.serviceDsr farmName with
  | none =>
    refine ⟨s, by simp, ?_⟩
    refine ⟨by simp [baseRetractions, hrec], by simp, ?_, rfl, rfl⟩
    intro k
    by_cases hk : k = farmName
    · subst hk; simp [hrec]
    · simp [hk]
  | some d =>
    by_cases ht : S.SpecType = "NodePort"
    · refine ⟨s, by simp [ht], ?_⟩
      refine ⟨by simp [baseRetractions, ht], by simp, ?_, rfl, rfl⟩
      intro k
      simp [ht]
    · have hne : (S.SpecType != "NodePort") = true := by simpa using ht
      refine ⟨(s.addExecs (retractCommands d)).eraseDsr farmName, ?_, ?_⟩
      · simp only [Option.isSome_some, if_true, hne]
        exact deleteInterfaceDsr_ok w farmName s d hrec (hdock ht d hrec)
      · refine ⟨by simp [baseRetractions, ht, hrec, Proc.eraseDsr, Proc.addExecs], by
          simp [Proc.eraseDsr, Proc.addExecs], ?_, rfl, rfl⟩
        intro k
        by_cases hk : k = farmName
        · simp [hk, ht, Proc.eraseDsr]
        · simp [hk, Proc.eraseDsr, Proc.addExecs]

theorem dropTwinRecord_ok (farmName : String) (s : Proc) :
    ∃ s1, dropTwinRecord farmName s = .ok () s1 ∧
      SnatStep s s1 [] [] (fun k => decide (k = farmName)) := by
  unfold dropTwinRecord
  show ∃ s1, M.bind getProc _ s = _ ∧ _
  rw [M.bind_ok (getProc_apply s)]
  cases hrec : s.serviceDsr farmName with
  | none =>
    refine ⟨s, by simp, by simp, by simp, ?_, rfl, rfl⟩
    intro k
    by_cases hk : k = farmName
    · subst hk; simp [hrec]
    · simp [hk]
  | some d =>
    refine ⟨s.eraseDsr farmName, by simp [DeleteServiceDsr], by simp [Proc.eraseDsr],
      by simp [Proc.eraseDsr], ?_, rfl, rfl⟩
    intro k
    by_cases hk : k = farmName
    · simp [hk, Proc.eraseDsr]
    · simp [hk, Proc.eraseDsr]


theorem baseDsrStep_snat (w : Env) (S : Service) (mode farmName virtualAddr iface : String)
    (s : Proc) (hmode : mode ≠ "dsr")
    (hdock : S.SpecType ≠ "NodePort" → ∀ d, s.serviceDsr farmName = some d →
      ∀ uid ∈ d.dockerUid, w.dockerExec uid (retractCommand d.virtualAddr) = true) :
    ∃ s1, baseDsrStep w S mode farmName virtualAddr iface s = .ok iface s1 ∧
      SnatStep s s1 (baseRetractions S s.serviceDsr farmName) []
        (fun k => decide (k = farmName ∧ S.SpecType ≠ "NodePort")) := by
  obtain ⟨s1, h1, h2⟩ := retractBaseRecord_ok w S farmName s hdock
  refine ⟨s1, ?_, h2⟩
  unfold baseDsrStep
  have hm : (mode == "dsr") = false := by simpa using hmode
  simp only [hm]
  show M.bind (retractBaseRecord w S farmName) _ s = _
  rw [M.bind_ok h1]
  rfl

theorem twinDsrStep_snat (w : Env) (S : Service) (mode farmName virtualAddr iface : String)
    (s : Proc) (hmode : mode ≠ "dsr") :
    ∃ s1, twinDsrStep w S mode farmName virtualAddr iface s = .ok iface s1 ∧
      SnatStep s s1 [] [] (fun k => decide (k = farmName)) := by
  obtain ⟨s1, h1, h2⟩ := dropTwinRecord_ok farmName s
  refine ⟨s1, ?_, h2⟩
  unfold twinDsrStep
  have hm : (mode == "dsr") = false := by simpa using hmode
  simp only [hm]
  show M.bind (dropTwinRecord farmName) _ s = _
  rw [M.bind_ok h1]
  rfl

/-- One port of the service loop when the mode is not dsr: the step returns, appends the
base farm and the twin farm (if any), registers the twin, retracts the aliases of the
base record unless the type is NodePort, and drops the records of the base farm (type not
NodePort) and of the twin. -/
theorem servicePortStep_snat (w : Env) (S : Service) (persistence persistenceTTL : String)
    (a : AnnotationVars) (family : String) (vars : ServiceVars) (port : ServicePort)
    (s : Proc) (hmode : a.mode ≠ "dsr")
    (hdock : S.SpecType ≠ "NodePort" → ∀ d,
      s.serviceDsr (baseFarmName S.Name port) = some d →
      ∀ uid ∈ d.dockerUid, w.dockerExec uid (retractCommand d.virtualAddr) = true) :
    ∃ vars1 s1,
      servicePortStep w S persistence persistenceTTL a family vars port s = .ok vars1 s1 ∧
      vars1.farmsSlice.map (fun f => f.Name) =
        vars.farmsSlice.map (fun f => f.Name) ++ portFarmNames S port ∧
      SnatStep s s1 (baseRetractions S s.serviceDsr (baseFarmName S.Name port))
        (twinNames S port) (stepErased S port) := by
  obtain ⟨sB, hB, hBs⟩ := baseDsrStep_snat w S a.mode (baseFarmName S.Name port) S.ClusterIP
    vars.iface s hmode hdock
  unfold servicePortStep
  show ∃ vars1 s1, M.bind (baseDsrStep w S a.mode _ _ _) _ s = _ ∧ _
  rw [M.bind_ok hB]
  by_cases ht : hasTwin S port = true
  · obtain ⟨sT, hT, hTs⟩ := twinDsrStep_snat w S a.mode (twinFarmName S.Name port) ""
      vars.iface sB hmode
    simp only [ht, if_true]
    refine ⟨?vars1, ?s1, ?heq, ?hn, ?hs⟩
    case heq =>
      show M.bind (twinDsrStep w S a.mode _ _ _) _ sB = _
      rw [M.bind_ok hT]
      show M.bind (modifyProc _) _ sT = _
      rw [M.bind_ok (modifyProc_apply _ sT)]
      exact pureM_apply _ _
    case hn => simp [portFarmNames, twinNames, ht, createFarm]
    case hs =>
      obtain ⟨e1, n1, d1, r1, m1⟩ := hBs
      obtain ⟨e2, n2, d2, r2, m2⟩ := hTs
      refine ⟨?_, ?_, ?_, ?_, ?_⟩
      · show sT.execs = _
        rw [e2, e1]; simp
      · show sT.nodePortArray ++ [_] = _
        rw [n2, n1]; simp [twinNames, ht]
      · intro k
        show sT.serviceDsr k = _
        rw [d2 k, d1 k]
        by_cases hk : k = twinFarmName S.Name port
        · simp [hk, stepErased, ht]
        · simp [hk, stepErased]
      · show sT.requests = _
        rw [r2, r1]
      · show sT.maxConnsMap = _
        rw [m2, m1]
  · have hf : hasTwin S port = false := by simpa using ht
    simp only [hf]
    refine ⟨_, sB, rfl, ?_, ?_⟩
    · simp [portFarmNames, twinNames, hf, createFarm]
    · obtain ⟨e1, n1, d1, r1, m1⟩ := hBs
      refine ⟨e1, by simp [n1, twinNames, hf], ?_, r1, m1⟩
      intro k
      rw [d1 k]
      simp [stepErased, hf]


/-- The service loop when the mode is not dsr: it returns; the farm names, the node-port
list, the commands and the DSR registry at the end are those computed port by port. -/
theorem serviceLoop_snat (w : Env) (S : Service) (persistence persistenceTTL : String)
    (a : AnnotationVars) (family : String) (hmode : a.mode ≠ "dsr") (ports : List ServicePort)
    (vars : ServiceVars) (s : Proc)
    (hdock : S.SpecType ≠ "NodePort" → ∀ port ∈ ports, ∀ d,
      s.serviceDsr (baseFarmName S.Name port) = some d →
      ∀ uid ∈ d.dockerUid, w.dockerExec uid (retractCommand d.virtualAddr) = true) :
    ∃ vars1 s1,
      rangeFold (servicePortStep w S persistence persistenceTTL a family) vars ports s
        = .ok vars1 s1 ∧
      vars1.farmsSlice.map (fun f => f.Name) =
        vars.farmsSlice.map (fun f => f.Name) ++ ports.flatMap (portFarmNames S) ∧
      SnatStep s s1 (loopRetractions S s.serviceDsr ports) (ports.flatMap (twinNames S))
        (fun k => ports.any (fun port => stepErased S port k)) := by
  induction ports generalizing vars s with
  | nil =>
    refine ⟨vars, s, rfl, by simp, ?_⟩
    exact ⟨by simp [loopRetractions], by simp, fun k => by simp, rfl, rfl⟩
  | cons port ports ih =>
    obtain ⟨v1, s1, h1, hn1, hs1⟩ := servicePortStep_snat w S persistence persistenceTTL a
      family vars port s hmode (fun ht d hd => hdock ht port (List.mem_cons_self _ _) d hd)
    obtain ⟨e1, n1, d1, r1, m1⟩ := hs1
    have hfun : s1.serviceDsr = fun k => if stepErased S port k then none else s.serviceDsr k :=
      funext d1
    have hdock1 : S.SpecType ≠ "NodePort" → ∀ q ∈ ports, ∀ d,
        s1.serviceDsr (baseFarmName S.Name q) = some d →
        ∀ uid ∈ d.dockerUid, w.dockerExec uid (retractCommand d.virtualAddr) = true := by
      intro ht q hq d hd
      rw [d1] at hd
      split at hd
      · cases hd
      · exact hdock ht q (List.mem_cons_of_mem _ hq) d hd
    obtain ⟨v2, s2, h2, hn2, hs2⟩ := ih v1 s1 hdock1
    obtain ⟨e2, n2, d2, r2, m2⟩ := hs2
    refine ⟨v2, s2, ?_, ?_, ?_, ?_, ?_, ?_, ?_⟩
    · rw [rangeFold_cons, h1]
      exact h2
    · rw [hn2, hn1]
      simp [List.flatMap_cons, List.append_assoc]
    · rw [e2, e1, hfun]
      simp [loopRetractions, List.append_assoc]
    · rw [n2, n1]
      simp [List.flatMap_cons, List.append_assoc]
    · intro k
      rw [d2 k, d1 k]
      by_cases hk : stepErased S port k = true
      · simp [hk]
      · simp [hk]
    · rw [r2, r1]
    · rw [m2, m1]

theorem persistenceLoop_maxConnsLoop (entries : List (String × String)) (p v x : String)
    (h : persistenceLoop p entries = some x) : ∃ y, maxConnsLoop v entries = some y := by
  induction entries generalizing p v with
  | nil => exact ⟨v, rfl⟩
  | cons e entries ih =>
    obtain ⟨key, value⟩ := e
    unfold persistenceLoop at h
    unfold maxConnsLoop
    cases hk : FindStringSubmatch .lowerAtEnd key with
    | none =>
      rw [hk] at h
      cases h
    | some field0 =>
      rw [hk] at h
      simp only []
      simp only [] at h
      split
      · split at h
        · split at h
          · exact ih _ _ h
          · exact ih _ _ h
        · exact ih _ _ h
      · split at h
        · split at h
          · exact ih _ _ h
          · exact ih _ _ h
        · exact ih _ _ h

theorem findMaxConns_ok (S : Service) (st : Proc) (pp : String × String)
    (hp : getPersistence S = some pp) :
    ∃ s0, findMaxConns S st = .ok () s0 ∧ s0.serviceDsr = st.serviceDsr ∧
      s0.nodePortArray = st.nodePortArray ∧ s0.execs = st.execs ∧
      s0.requests = st.requests := by
  unfold findMaxConns
  cases hann : S.Annotations with
  | none => exact ⟨st, rfl, rfl, rfl, rfl, rfl⟩
  | some entries =>
    have hloop : ∃ x, persistenceLoop "" entries = some x := by
      unfold getPersistence at hp
      rw [hann] at hp
      cases hl : persistenceLoop "" entries with
      | none =>
        simp [hl] at hp
      | some x => exact ⟨x, rfl⟩
    obtain ⟨x, hx⟩ := hloop
    obtain ⟨y, hy⟩ := persistenceLoop_maxConnsLoop entries "" "0" x hx
    simp only [hy]
    exact ⟨_, rfl, rfl, rfl, rfl, rfl⟩

/-- GetJSONnftlbFromService on a service whose annotations are read without a panic and
whose mode is not dsr: the call returns, provided the retraction commands it has to issue
succeed; the farm names, the node-port list, the commands and the DSR registry at the end
are those computed port by port. -/
theorem GetJSONnftlbFromService_snat (w : Env) (S : Service) (st : Proc)
    (pp : String × String) (a : AnnotationVars) (hp : getPersistence S = some pp)
    (ha : getAnnotations S = some a) (hmode : a.mode ≠ "dsr")
    (hdock : S.SpecType ≠ "NodePort" → ∀ port ∈ S.Ports, ∀ d,
      st.serviceDsr (baseFarmName S.Name port) = some d →
      ∀ uid ∈ d.dockerUid, w.dockerExec uid (retractCommand d.virtualAddr) = true) :
    ∃ js s1,
      GetJSONnftlbFromService w S st = .ok js s1 ∧
      js.Farms.map (fun f => f.Name) = S.Ports.flatMap (portFarmNames S) ∧
      s1.execs = st.execs ++ loopRetractions S st.serviceDsr S.Ports ∧
      s1.nodePortArray = st.nodePortArray ++ S.Ports.flatMap (twinNames S) ∧
      (∀ k, s1.serviceDsr k =
        if S.Ports.any (fun port => stepErased S port k) then none else st.serviceDsr k) ∧
      s1.requests = st.requests := by
  obtain ⟨s0, h0, hd0, hn0, he0, hr0⟩ := findMaxConns_ok S st pp hp
  obtain ⟨vars1, s1, hl, hnames, hs⟩ := serviceLoop_snat w S pp.1 pp.2 a (findFamily w S) hmode
    S.Ports { farmsSlice := [], iface := "" } s0 (by rw [hd0]; exact hdock)
  obtain ⟨e1, n1, d1, r1, _⟩ := hs
  refine ⟨{ Farms := vars1.farmsSlice }, s1, ?_, ?_, ?_, ?_, ?_, ?_⟩
  · unfold GetJSONnftlbFromService
    show M.bind (orPanic (getPersistence S)) _ st = _
    rw [hp, M.bind_ok (orPanic_some pp st)]
    show M.bind (orPanic (getAnnotations S)) _ st = _
    rw [ha, M.bind_ok (orPanic_some a st)]
    show M.bind (findMaxConns S) _ st = _
    rw [M.bind_ok h0]
    show M.bind (rangeFold _ _ S.Ports) _ s0 = _
    rw [M.bind_ok hl]
    rfl
  · simpa using hnames
  · rw [e1, he0, hd0]
  · rw [n1, hn0]
  · intro k
    rw [d1 k, hd0]
  · rw [r1, hr0]


/-! ## The farm names of a service, in any mode -/

/-- For a named port the twin name is the node-port transform of the base name. -/
theorem twinFarmName_named (serviceName : String) (port : ServicePort) (hname : port.Name ≠ "") :
    twinFarmName serviceName port =
      AssignFarmNameNodePort (baseFarmName serviceName port) "nodePort" := by
  have hne : (port.Name == "") = false := by simpa using hname
  simp [twinFarmName, baseFarmName, AssignFarmNameService, hne]

theorem servicePortStep_names (w : Env) (S : Service) (persistence persistenceTTL : String)
    (a : AnnotationVars) (family : String) (vars vars1 : ServiceVars) (port : ServicePort)
    (s s1 : Proc)
    (h : servicePortStep w S persistence persistenceTTL a family vars port s = .ok vars1 s1) :
    vars1.farmsSlice.map (fun f => f.Name) =
      vars.farmsSlice.map (fun f => f.Name) ++ portFarmNames S port := by
  unfold servicePortStep at h
  change M.bind (baseDsrStep w S a.mode _ _ _) _ s = _ at h
  cases hB : baseDsrStep w S a.mode (baseFarmName S.Name port) S.ClusterIP vars.iface s with
  | panic sB =>
    rw [M.bind_panic hB] at h
    cases h
  | ok iface sB =>
    rw [M.bind_ok hB] at h
    by_cases ht : hasTwin S port = true
    · simp only [ht, if_true] at h
      change M.bind (twinDsrStep w S a.mode _ _ _) _ sB = _ at h
      cases hT : twinDsrStep w S a.mode (twinFarmName S.Name port) "" iface sB with
      | panic sT =>
        rw [M.bind_panic hT] at h
        cases h
      | ok iface2 sT =>
        rw [M.bind_ok hT] at h
        change M.bind (modifyProc _) _ sT = _ at h
        rw [M.bind_ok (modifyProc_apply _ sT)] at h
        simp only [pureM_apply, Result.ok.injEq] at h
        rw [← h.1]
        simp [portFarmNames, twinNames, ht, createFarm]
    · have hf : hasTwin S port = false := by simpa using ht
      simp only [hf] at h
      simp only [Bool.false_eq_true, if_false, pureM_apply, Result.ok.injEq] at h
      rw [← h.1]
      simp [portFarmNames, twinNames, hf, createFarm]

/-- Whenever GetJSONnftlbFromService returns, in any mode, registry and environment, the
names of the farms are, port by port in declaration order, the base farm name and then
the twin farm name if the port has a twin. -/
theorem GetJSONnftlbFromService_names (w : Env) (S : Service) (st st1 : Proc) (js : JSONnftlb)
    (h : GetJSONnftlbFromService w S st = .ok js st1) :
    js.Farms.map (fun f => f.Name) = S.Ports.flatMap (portFarmNames S) := by
  unfold GetJSONnftlbFromService at h
  change M.bind (orPanic (getPersistence S)) _ st = _ at h
  cases hp : getPersistence S with
  | none =>
    rw [hp, M.bind_panic (orPanic_none st)] at h
    cases h
  | some pp =>
    rw [hp, M.bind_ok (orPanic_some pp st)] at h
    change M.bind (orPanic (getAnnotations S)) _ st = _ at h
    cases ha : getAnnotations S with
    | none =>
      rw [ha, M.bind_panic (orPanic_none st)] at h
      cases h
    | some a =>
      rw [ha, M.bind_ok (orPanic_some a st)] at h
      change M.bind (findMaxConns S) _ st = _ at h
      cases hm : findMaxConns S st with
      | panic s0 =>
        rw [M.bind_panic hm] at h
        cases h
      | ok u s0 =>
        rw [M.bind_ok hm] at h
        change M.bind (rangeFold _ _ S.Ports) _ s0 = _ at h
        cases hl : rangeFold (servicePortStep w S pp.1 pp.2 a (findFamily w S))
            { farmsSlice := [], iface := "" } S.Ports s0 with
        | panic s2 =>
          rw [M.bind_panic hl] at h
          cases h
        | ok vars s2 =>
          rw [M.bind_ok hl] at h
          simp only [pureM_apply, Result.ok.injEq] at h
          rw [← h.1]
          have key := rangeFold_visited
            (fun (done : List ServicePort) (v : ServiceVars) (_ : Proc) =>
              v.farmsSlice.map (fun f => f.Name) = done.flatMap (portFarmNames S))
            (servicePortStep w S pp.1 pp.2 a (findFamily w S)) S.Ports
            (fun done x acc s acc1 s1 _ hI hstep => by
              have hI2 : acc.farmsSlice.map (fun f => f.Name) =
                  done.flatMap (portFarmNames S) := hI
              show acc1.farmsSlice.map (fun f => f.Name) =
                (done ++ [x]).flatMap (portFarmNames S)
              rw [servicePortStep_names w S _ _ a _ acc acc1 x s s1 hstep, hI2]
              simp [List.flatMap_append])
            [] { farmsSlice := [], iface := "" } s0 rfl vars s2 hl
          simpa using key

/-- Two returning calls of GetJSONnftlbFromService on the same service give the same
sequence of farm names, whatever the registries and the environments are. -/
theorem GetJSONnftlbFromService_names_deterministic (w1 w2 : Env) (S : Service)
    (st1 st2 st3 st4 : Proc) (js1 js2 : JSONnftlb)
    (h1 : GetJSONnftlbFromService w1 S st1 = .ok js1 st2)
    (h2 : GetJSONnftlbFromService w2 S st3 = .ok js2 st4) :
    js1.Farms.map (fun f => f.Name) = js2.Farms.map (fun f => f.Name) := by
  rw [GetJSONnftlbFromService_names w1 S st1 st2 js1 h1,
    GetJSONnftlbFromService_names w2 S st3 st4 js2 h2]


/-! ## Claims on farm names -/

/-- C1 (failing input): for the service `web` with the annotation key
`example.com/revision-2`, GetJSONnftlbFromService does not return, whatever the registry
and the environment are: `getPersistence` indexes the nil match of `[a-z]+$` on the key
and panics before any farm is built. -/
theorem C1_panics_on_annotation_key (w : Env) (st : Proc) :
    getPersistence webRevisionService = none ∧
      (GetJSONnftlbFromService w webRevisionService st).returned = false ∧
      farmNames (GetJSONnftlbFromService w webRevisionService st) = none := by
  have hp : getPersistence webRevisionService = none := by decide
  have hrun : GetJSONnftlbFromService w webRevisionService st = .panic st := by
    unfold GetJSONnftlbFromService
    show M.bind (orPanic (getPersistence webRevisionService)) _ st = _
    rw [hp]
    rfl
  refine ⟨hp, ?_, ?_⟩
  · rw [hrun]; rfl
  · rw [hrun]; rfl

/-- C2 (failing input): for the NodePort service `web` whose port has no name, the base
farm is named `web--default` and the twin emitted right after it is named
`web----nodePort`, which is not AssignFarmNameNodePort of the base farm name. -/
theorem C2_twin_name_of_unnamed_port :
    farmNames (GetJSONnftlbFromService calmEnv webNodePortUnnamed Proc.empty)
        = some ["web--default", "web----nodePort"] ∧
      AssignFarmNameNodePort "web--default" "nodePort" = "web--default--nodePort" ∧
      "web----nodePort" ≠ AssignFarmNameNodePort "web--default" "nodePort" := by
  decide

/-- C3 (failing input): starting from an empty registry, after the NodePort service `web`
with an unnamed port was processed (twin declared as `web----nodePort`), the endpoints
object `web` with pod a behind the unnamed port yields the single entry under
`web--default`: no entry under the declared twin name. -/
theorem C3_no_entry_under_declared_twin :
    farmNames (GetJSONnftlbFromService calmEnv webNodePortUnnamed Proc.empty)
        = some ["web--default", "web----nodePort"] ∧
      (GetJSONnftlbFromService calmEnv webNodePortUnnamed Proc.empty).proc.nodePortArray
        = ["web----nodePort"] ∧
      emittedPairs (GetJSONnftlbFromEndpoints calmEnv webUnnamedA
          (GetJSONnftlbFromService calmEnv webNodePortUnnamed Proc.empty).proc)
        = some [("web--default", ["pod-a"])] := by
  decide


/-! ## Claim on declared farms and synthesized backends -/

theorem endpointPortStep_without_dsr (w : Env) (o b ip : String) (vars : EndpointsVars)
    (port : EndpointPort) (s : Proc) (hno : ∀ k, s.serviceDsr k = none) :
    ∃ vars1, endpointPortStep w o b ip vars port s = .ok vars1 s := by
  unfold endpointPortStep
  show ∃ vars1, M.bind getProc _ s = _
  rw [M.bind_ok (getProc_apply s)]
  have hd : endpointDsrStep w (AssignFarmNameService o (endpointPortName port)) b s = .ok () s := by
    unfold endpointDsrStep
    show M.bind getProc _ s = _
    rw [M.bind_ok (getProc_apply s), hno]
    rfl
  show ∃ vars1, M.bind (endpointDsrStep w _ b) _ s = _
  rw [M.bind_ok hd]
  exact ⟨_, rfl⟩

theorem GetJSONnftlbFromEndpoints_without_dsr (w : Env) (E : Endpoints) (st : Proc)
    (hno : ∀ k, st.serviceDsr k = none) :
    ∃ je st2, GetJSONnftlbFromEndpoints w E st = .ok je st2 := by
  unfold GetJSONnftlbFromEndpoints
  obtain ⟨st0, hc, _, hd0, _⟩ := CreateFarmID_ok E.Name st
  show ∃ je st2, M.bind (CreateFarmID E.Name) _ st = _
  rw [M.bind_ok hc]
  have hno0 : ∀ k, st0.serviceDsr k = none := by
    intro k
    rw [hd0]
    exact hno k
  obtain ⟨vars, s1, hl, _⟩ := rangeFold_returns
    (fun (_ : EndpointsVars) (s : Proc) => ∀ k, s.serviceDsr k = none)
    (endpointSubsetStep w E.Name) E.Subsets
    (fun acc sub s _ hs =>
      rangeFold_returns (fun (_ : EndpointsVars) (s : Proc) => ∀ k, s.serviceDsr k = none)
        (endpointAddressStep w E.Name sub.Ports) sub.Addresses
        (fun acc addr s _ hs =>
          rangeFold_returns (fun (_ : EndpointsVars) (s : Proc) => ∀ k, s.serviceDsr k = none)
            (endpointPortStep w E.Name (addressBackendName E.Name addr) addr.IP) sub.Ports
            (fun acc port s _ hs => by
              obtain ⟨v1, h1⟩ := endpointPortStep_without_dsr w E.Name
                (addressBackendName E.Name addr) addr.IP acc port s hs
              exact ⟨v1, s, h1, hs⟩)
            acc s hs)
        acc s hs)
    { farmsSlice := [], maxconns := "0" } st0 hno0
  show ∃ je st2, M.bind (rangeFold _ _ E.Subsets) _ st0 = _
  rw [M.bind_ok hl]
  exact ⟨_, _, rfl⟩

theorem GetJSONnftlbFromService_reads (w : Env) (S : Service) (st st1 : Proc) (js : JSONnftlb)
    (h : GetJSONnftlbFromService w S st = .ok js st1) :
    ∃ pp, getPersistence S = some pp := by
  cases hp : getPersistence S with
  | some pp => exact ⟨pp, rfl⟩
  | none =>
    unfold GetJSONnftlbFromService at h
    change M.bind (orPanic (getPersistence S)) _ st = _ at h
    rw [hp, M.bind_panic (orPanic_none st)] at h
    cases h

/-- C4: starting from an empty registry, let GetJSONnftlbFromService return for a service
S whose mode is not dsr, and let E be an endpoints object of the same name whose port names
(an empty name read as default) all occur among the port names of S (read the same way).
Then GetJSONnftlbFromEndpoints(E), run on the registry the first call left, returns, and
every farm name in its result is the name of a farm that GetJSONnftlbFromService(S)
returned. -/
theorem C4_backends_attach_to_declared_farms (w1 w2 : Env) (S : Service) (E : Endpoints)
    (js : JSONnftlb) (st1 : Proc) (a : AnnotationVars)
    (hS : GetJSONnftlbFromService w1 S Proc.empty = .ok js st1)
    (ha : getAnnotations S = some a) (hmode : a.mode ≠ "dsr") (hname : E.Name = S.Name)
    (hports : ∀ sub ∈ E.Subsets, ∀ p ∈ sub.Ports, ∃ q ∈ S.Ports,
      endpointPortName p = if q.Name = "" then "default" else q.Name) :
    ∃ je st2, GetJSONnftlbFromEndpoints w2 E st1 = .ok je st2 ∧
      ∀ f ∈ je.Farms, ∃ g ∈ js.Farms, g.Name = f.Name := by
  obtain ⟨pp, hp⟩ := GetJSONnftlbFromService_reads w1 S Proc.empty st1 js hS
  obtain ⟨js1, s1, hrun, hnames, _, hnp, hdsr, _⟩ :=
    GetJSONnftlbFromService_snat w1 S Proc.empty pp a hp ha hmode
      (fun _ port _ d hd => by cases hd)
  rw [hS] at hrun
  simp only [Result.ok.injEq] at hrun
  obtain ⟨hjs, hst⟩ := hrun
  subst hjs
  subst hst
  have hno : ∀ k, st1.serviceDsr k = none := by
    intro k
    rw [hdsr k]
    split <;> rfl
  obtain ⟨je, st2, hE⟩ := GetJSONnftlbFromEndpoints_without_dsr w2 E st1 hno
  refine ⟨je, st2, hE, ?_⟩
  intro f hf
  obtain ⟨sub, hsub, addr, _, port, hport, mc, hmem⟩ :=
    GetJSONnftlbFromEndpoints_farms w2 E st1 st2 je hE f hf
  have hin : ∀ n, n ∈ S.Ports.flatMap (portFarmNames S) → ∃ g ∈ js.Farms, g.Name = n := by
    intro n hn
    rw [← hnames, List.mem_map] at hn
    exact hn
  rcases (mem_portFarms _ _ _ f hmem).2 with hbase | ⟨htwin, hreg⟩
  · obtain ⟨q, hq, hqn⟩ := hports sub hsub port hport
    apply hin
    rw [hbase, List.mem_flatMap]
    refine ⟨q, hq, ?_⟩
    simp only [portFarmNames, List.mem_append, List.mem_singleton]
    left
    rw [hname, hqn]
    unfold baseFarmName
    by_cases hq0 : q.Name = ""
    · simp [hq0]
    · simp [hq0]
  · apply hin
    rw [htwin]
    rw [hnp] at hreg
    simp only [Proc.empty, List.nil_append, List.mem_flatMap] at hreg
    obtain ⟨q, hq, hqt⟩ := hreg
    rw [List.mem_flatMap]
    refine ⟨q, hq, ?_⟩
    simp only [portFarmNames, List.mem_append]
    right
    exact hqt

/-- C4 (witness): the NodePort service `web` with the port http, then the endpoints object
`web` with the pods a and b behind http. -/
theorem C4_backends_attach_to_declared_farms_witness :
    ∃ js st1 a,
      GetJSONnftlbFromService calmEnv webNodePortHttp Proc.empty = .ok js st1 ∧
      getAnnotations webNodePortHttp = some a ∧ a.mode ≠ "dsr" ∧
      webOldAB.Name = webNodePortHttp.Name ∧
      ∃ je st2, GetJSONnftlbFromEndpoints calmEnv webOldAB st1 = .ok je st2 ∧
        ∀ f ∈ je.Farms, ∃ g ∈ js.Farms, g.Name = f.Name :=
  ⟨_, _, _, rfl, rfl, by decide, rfl,
   C4_backends_attach_to_declared_farms calmEnv calmEnv webNodePortHttp webOldAB _ _ _
     rfl rfl (by decide) rfl (by decide)⟩


/-! ## Claims on UpdateNftlbBackends -/

theorem getNewServiceSlice_ne_nil (E : Endpoints) (h : getNewServiceSlice E ≠ []) :
    ¬ (getNewServiceSlice E).length < 1 := by
  cases hl : getNewServiceSlice E with
  | nil => exact absurd hl h
  | cons a l => simp

theorem mem_actionRequests_base (np : List String) (ext : String → Option (List String))
    (farmName backendName : String) :
    deleteRequestData (backendPath farmName backendName) ∈ actionRequests np ext farmName backendName := by
  simp [actionRequests]

theorem mem_actionRequests_twin (np : List String) (ext : String → Option (List String))
    (farmName backendName : String)
    (h : Contains np (AssignFarmNameNodePort farmName "nodePort") = true) :
    deleteRequestData (backendPath (AssignFarmNameNodePort farmName "nodePort") backendName)
      ∈ actionRequests np ext farmName backendName := by
  simp [actionRequests, h]

theorem actionRequests_shape (np : List String) (ext : String → Option (List String))
    (farmName backendName : String) (r : RequestData)
    (hr : r ∈ actionRequests np ext farmName backendName) :
    ∃ f, r = deleteRequestData (backendPath f backendName) := by
  unfold actionRequests at hr
  simp only [List.mem_append, List.mem_singleton, List.mem_map] at hr
  rcases hr with (hr | hr) | hr
  · exact ⟨_, hr⟩
  · split at hr
    · simp only [List.mem_singleton] at hr
      exact ⟨_, hr⟩
    · cases hr
  · obtain ⟨e, _, he⟩ := hr
    exact ⟨e, he.symm⟩

theorem mem_getNewBackendsSlice (E : Endpoints) (b : String) :
    b ∈ getNewBackendsSlice E ↔
      ∃ sub ∈ E.Subsets, ∃ addr ∈ sub.Addresses, ∃ ref, addr.TargetRef = some ref ∧ ref.Name = b := by
  unfold getNewBackendsSlice
  simp only [List.mem_flatMap, List.mem_filterMap, Option.map_eq_some']

theorem addressRequests_removed (np : List String) (ext : String → Option (List String))
    (oldEP newEP : Endpoints) (hport : getNewServiceSlice newEP ≠ []) (a : EndpointAddress) :
    addressRequests np ext oldEP newEP a =
      (((a.TargetRef.map (fun ref => ref.Name)).toList).filter
          (fun b => !find (getNewBackendsSlice newEP) b)).flatMap (fun b =>
        (getNewServiceSlice newEP).flatMap (fun p =>
          actionRequests np ext (AssignFarmNameService oldEP.Name p) b)) := by
  have hlen := getNewServiceSlice_ne_nil newEP hport
  unfold addressRequests
  cases hx : a.TargetRef with
  | none => rfl
  | some ref =>
    simp only [hlen, if_false, Option.map_some', Option.toList_some]
    by_cases hf : find (getNewBackendsSlice newEP) ref.Name = true
    · simp [hf]
    · simp [hf]

theorem flatMap_filterMap_filter {α β γ : Type} (t : α → Option β) (p : β → Bool)
    (g : β → List γ) (xs : List α) :
    xs.flatMap (fun a => (((t a).toList).filter p).flatMap g) =
      ((xs.filterMap t).filter p).flatMap g := by
  induction xs with
  | nil => rfl
  | cons a xs ih =>
    rw [List.flatMap_cons, ih]
    cases ha : t a with
    | none => simp [List.filterMap_cons, ha]
    | some b =>
      by_cases hp : p b = true
      · simp [List.filterMap_cons, ha, hp]
      · simp [List.filterMap_cons, ha, hp]

/-- With a port left in the new object, the deletes of an update are those of the removed
backends, occurrence by occurrence, under the farms of the new port entries. -/
theorem updateDeletes_removed (np : List String) (ext : String → Option (List String))
    (oldEP newEP : Endpoints) (hport : getNewServiceSlice newEP ≠ []) :
    updateDeletes np ext oldEP newEP =
      (removedBackends oldEP newEP).flatMap (fun b =>
        (getNewServiceSlice newEP).flatMap (fun p =>
          actionRequests np ext (AssignFarmNameService oldEP.Name p) b)) := by
  unfold updateDeletes removedBackends
  have hfun : (fun a => addressRequests np ext oldEP newEP a) = fun a =>
      (((a.TargetRef.map (fun ref => ref.Name)).toList).filter
          (fun b => !find (getNewBackendsSlice newEP) b)).flatMap (fun b =>
        (getNewServiceSlice newEP).flatMap (fun p =>
          actionRequests np ext (AssignFarmNameService oldEP.Name p) b)) :=
    funext (addressRequests_removed np ext oldEP newEP hport)
  show (oldEP.Subsets.flatMap (fun (endpoint : EndpointSubset) =>
    endpoint.Addresses.flatMap (fun a => addressRequests np ext oldEP newEP a))) = _
  rw [hfun]
  show _ = List.flatMap (List.filter _ (oldEP.Subsets.flatMap (fun (endpoint : EndpointSubset) =>
    endpoint.Addresses.filterMap (fun address => address.TargetRef.map (fun ref => ref.Name))))) _
  generalize oldEP.Subsets = subs
  induction subs with
  | nil => rfl
  | cons sub subs ih =>
    simp only [List.flatMap_cons, List.filter_append, List.flatMap_append]
    rw [ih, flatMap_filterMap_filter]

theorem mem_removedBackends (oldEP newEP : Endpoints) (b : String) :
    b ∈ removedBackends oldEP newEP ↔
      b ∈ getNewBackendsSlice oldEP ∧ b ∉ getNewBackendsSlice newEP := by
  unfold removedBackends
  rw [List.mem_filter]
  constructor
  · rintro ⟨h1, h2⟩
    refine ⟨h1, fun hm => ?_⟩
    have := (find_iff _ _).2 hm
    simp [this] at h2
  · rintro ⟨h1, h2⟩
    refine ⟨h1, ?_⟩
    have : find (getNewBackendsSlice newEP) b ≠ true := fun hf => h2 ((find_iff _ _).1 hf)
    simpa using this


theorem getNewServiceSlice_ne_nil_iff (E : Endpoints) :
    getNewServiceSlice E ≠ [] ↔ ∃ sub ∈ E.Subsets, sub.Ports ≠ [] := by
  unfold getNewServiceSlice
  constructor
  · intro h
    by_contra hc
    apply h
    rw [List.flatMap_eq_nil_iff]
    intro sub hsub
    by_contra hne
    exact hc ⟨sub, hsub, fun hp => hne (by simp [hp])⟩
  · rintro ⟨sub, hsub, hp⟩ h
    rw [List.flatMap_eq_nil_iff] at h
    have := h sub hsub
    simp at this
    exact hp this

theorem IssuedOnly.refl (good : RequestData → Prop) (st : Proc) : IssuedOnly good st st :=
  ⟨[], by simp, by simp⟩

theorem IssuedOnly.of_requests_eq (good : RequestData → Prop) (st0 st st1 : Proc)
    (h : IssuedOnly good st0 st) (he : st1.requests = st.requests) : IssuedOnly good st0 st1 := by
  obtain ⟨issued, h1, h2⟩ := h
  exact ⟨issued, by rw [he, h1], h2⟩

theorem sendRequest_issued (good : RequestData → Prop) (st0 : Proc) (w : Env) (r : RequestData)
    (hr : good r) : Keeps (IssuedOnly good st0) (sendRequest w r) := by
  intro st hs
  obtain ⟨issued, h1, h2⟩ := hs
  have hstate : (sendRequest w r st).proc = st.addRequests [r] := by
    unfold sendRequest
    cases w.Send r <;> rfl
  rw [hstate]
  refine ⟨issued ++ [r], by simp [h1], ?_⟩
  intro x hx
  rw [List.mem_append, List.mem_singleton] at hx
  rcases hx with hx | hx
  · exact h2 x hx
  · rw [hx]; exact hr

theorem GetJSONnftlbFromEndpoints_issued (good : RequestData → Prop) (st0 : Proc) (w : Env)
    (E : Endpoints) : Keeps (IssuedOnly good st0) (GetJSONnftlbFromEndpoints w E) := by
  intro st hs
  have hk := GetJSONnftlbFromEndpoints_keeps st w E st ⟨rfl, rfl, rfl, rfl⟩
  exact IssuedOnly.of_requests_eq good st0 st _ hs hk.1

theorem actionDeleteNftlbRequest_issued (good : RequestData → Prop) (st0 : Proc) (w : Env)
    (farmName backendName : String)
    (hgood : ∀ f, good (deleteRequestData (backendPath f backendName))) :
    Keeps (IssuedOnly good st0) (actionDeleteNftlbRequest w farmName backendName) := by
  unfold actionDeleteNftlbRequest
  refine Keeps.bind _ (sendRequest_issued good st0 w _ (hgood _)) (fun _ => ?_)
  refine Keeps.bind _ ?_ (fun _ => ?_)
  · unfold deleteTwinBackend
    refine Keeps.bind _ (Keeps.getProc _) (fun _ => ?_)
    refine Keeps.ite _ _ ?_ (Keeps.pure _ _)
    exact Keeps.bind _ (sendRequest_issued good st0 w _ (hgood _)) (fun _ => Keeps.pure _ _)
  · unfold deleteExternalBackends
    refine Keeps.bind _ (Keeps.getProc _) (fun _ => ?_)
    split
    · refine Keeps.rangeFold _ (fun _ _ => ?_) _ _
      exact Keeps.bind _ (sendRequest_issued good st0 w _ (hgood _)) (fun _ => Keeps.pure _ _)
    · exact Keeps.pure _ _

theorem deleteRequestData_outside (names : List String) (f b : String) (hb : b ∉ names) :
    DeletesOutside names (deleteRequestData (backendPath f b)) :=
  fun _ => ⟨f, b, rfl, hb⟩

theorem updateAddressStep_issued (st0 : Proc) (w : Env) (oldEP newEP : Endpoints)
    (hport : getNewServiceSlice newEP ≠ []) (address : EndpointAddress) :
    Keeps (IssuedOnly (DeletesOutside (getNewBackendsSlice newEP)) st0)
      (updateAddressStep w oldEP.Name (getNewBackendsSlice newEP) (getNewServiceSlice newEP)
        (getOldServiceSlice oldEP) () address) := by
  have hlen := getNewServiceSlice_ne_nil newEP hport
  unfold updateAddressStep
  split
  · exact Keeps.pure _ _
  · rename_i ref _
    simp only [hlen, if_false]
    by_cases hf : find (getNewBackendsSlice newEP) ref.Name = true
    · simp only [hf, if_true]
      exact Keeps.pure _ _
    · simp only [hf]
      refine Keeps.rangeFold _ (fun _ serviceName => ?_) _ _
      refine actionDeleteNftlbRequest_issued _ st0 w _ _ (fun f => ?_)
      exact deleteRequestData_outside _ f _ (fun hm => hf ((find_iff _ _).2 hm))

/-- C8: when the new endpoints object declares at least one port, every request that
UpdateNftlbBackends hands to the sink, in a run that returns as in a run that panics, is
either not a DELETE or the DELETE of a path built for a backend name that is not a target
name of the new object: no backend still present in the new object is deleted. -/
theorem C8_no_delete_for_backend_still_present (w : Env) (oldEP newEP : Endpoints) (st : Proc)
    (hport : ∃ sub ∈ newEP.Subsets, sub.Ports ≠ []) :
    ∃ issued, (UpdateNftlbBackends w oldEP newEP st).proc.requests = st.requests ++ issued ∧
      ∀ r ∈ issued, r.Method = "DELETE" →
        ∃ farmName backendName,
          r = deleteRequestData (backendPath farmName backendName) ∧
            backendName ∉ getNewBackendsSlice newEP := by
  have hne := (getNewServiceSlice_ne_nil_iff newEP).2 hport
  have key : Keeps (IssuedOnly (DeletesOutside (getNewBackendsSlice newEP)) st)
      (UpdateNftlbBackends w oldEP newEP) := by
    unfold UpdateNftlbBackends
    refine Keeps.ite _ _ ?_ (Keeps.pure _ _)
    refine Keeps.bind _ (GetJSONnftlbFromEndpoints_issued _ _ _ _) (fun js => ?_)
    refine Keeps.bind _ ?_ (fun _ => ?_)
    · refine sendRequest_issued _ _ _ _ ?_
      intro hm
      have hpost : ("POST" : String) ≠ "DELETE" := by decide
      exact absurd hm hpost
    · refine Keeps.rangeFold _ (fun _ endpoint => ?_) _ _
      exact Keeps.rangeFold _ (fun _ address =>
        updateAddressStep_issued st w oldEP newEP hne address) _ _
  exact key st (IssuedOnly.refl _ st)

/-- C8 (witness): the update of `web` from the pods a and b to the pods a and c. -/
theorem C8_no_delete_for_backend_still_present_witness :
    (∃ sub ∈ webNewTwoSubsets.Subsets, sub.Ports ≠ []) ∧
    ∃ issued, (UpdateNftlbBackends calmEnv webOldAB webNewTwoSubsets Proc.empty).proc.requests
        = Proc.empty.requests ++ issued ∧
      ∀ r ∈ issued, r.Method = "DELETE" →
        ∃ farmName backendName,
          r = deleteRequestData (backendPath farmName backendName) ∧
            backendName ∉ getNewBackendsSlice webNewTwoSubsets :=
  ⟨by decide,
   C8_no_delete_for_backend_still_present calmEnv webOldAB webNewTwoSubsets Proc.empty (by decide)⟩


/-- C5 (counterexample): pod b leaves `web` while the new object has two subsets that
both name the port http; the backend is deleted twice under the same farm, not once. -/
theorem C5_counterexample_deleted_twice :
    (UpdateNftlbBackends calmEnv webOldAB webNewTwoSubsets Proc.empty).proc.requests =
      [postRequestData "",
       deleteRequestData "web--http/backends/pod-b",
       deleteRequestData "web--http/backends/pod-b"] := by
  decide

/-- C5 (amended): when the new endpoints object still declares a port (the object is not
on the list of names to skip, the sink accepts every request and the synthesis for the
new object returns), UpdateNftlbBackends returns and sends, after the POST, exactly these
DELETE requests in this order: for each occurrence of a target name among the old
addresses that is not a target name of the new object, and for each port entry of the new
object, one under the base farm, one under its node-port twin when the twin is
registered, and one under each externally published farm listed for the base farm. So
each removed backend is deleted under the base farm of every new port entry, and under its
twin when registered, once per occurrence and port entry; and every DELETE is for a
backend that is a target name of the old object and of no address of the new one. -/
theorem C5_delta_deletes_removed_backends (w : Env) (oldEP newEP : Endpoints) (st st1 : Proc)
    (js : JSONnftlb) (hbad : Contains w.BadNames newEP.Name = false)
    (hsend : ∀ r, (w.Send r).isSome = true)
    (hnew : GetJSONnftlbFromEndpoints w newEP st = .ok js st1)
    (hport : ∃ sub ∈ newEP.Subsets, sub.Ports ≠ []) :
    ∃ st2 deletes,
      UpdateNftlbBackends w oldEP newEP st = .ok () st2 ∧
      st2.requests = st.requests ++ [postRequestData (w.DecodePrettyJSON js)] ++ deletes ∧
      deletes = (removedBackends oldEP newEP).flatMap (fun b =>
        (getNewServiceSlice newEP).flatMap (fun p =>
          actionRequests st.nodePortArray st.externalIPsArray
            (AssignFarmNameService oldEP.Name p) b)) ∧
      (∀ b, b ∈ getNewBackendsSlice oldEP → b ∉ getNewBackendsSlice newEP →
        ∀ p ∈ getNewServiceSlice newEP,
          deleteRequestData (backendPath (AssignFarmNameService oldEP.Name p) b) ∈ deletes ∧
          (AssignFarmNameNodePort (AssignFarmNameService oldEP.Name p) "nodePort"
              ∈ st.nodePortArray →
            deleteRequestData (backendPath
              (AssignFarmNameNodePort (AssignFarmNameService oldEP.Name p) "nodePort") b)
              ∈ deletes)) ∧
      (∀ r ∈ deletes, ∃ farmName b, r = deleteRequestData (backendPath farmName b) ∧
        b ∈ getNewBackendsSlice oldEP ∧ b ∉ getNewBackendsSlice newEP) := by
  have hne := (getNewServiceSlice_ne_nil_iff newEP).2 hport
  have hview : SinkView st st1 := by
    have := GetJSONnftlbFromEndpoints_keeps st w newEP st ⟨rfl, rfl, rfl, rfl⟩
    rw [hnew] at this
    exact this
  refine ⟨_, _, UpdateNftlbBackends_trace w oldEP newEP st st1 js hbad hsend hnew, ?_,
    updateDeletes_removed _ _ oldEP newEP hne, ?_, ?_⟩
  · simp [hview.1, List.append_assoc]
  · intro b hb1 hb2 p hp
    rw [updateDeletes_removed _ _ oldEP newEP hne]
    have hrem := (mem_removedBackends oldEP newEP b).2 ⟨hb1, hb2⟩
    constructor
    · rw [List.mem_flatMap]
      refine ⟨b, hrem, ?_⟩
      rw [List.mem_flatMap]
      exact ⟨p, hp, mem_actionRequests_base _ _ _ _⟩
    · intro htwin
      rw [List.mem_flatMap]
      refine ⟨b, hrem, ?_⟩
      rw [List.mem_flatMap]
      exact ⟨p, hp, mem_actionRequests_twin _ _ _ _ ((Contains_iff _ _).2 htwin)⟩
  · intro r hr
    rw [updateDeletes_removed _ _ oldEP newEP hne, List.mem_flatMap] at hr
    obtain ⟨b, hb, hr⟩ := hr
    rw [List.mem_flatMap] at hr
    obtain ⟨p, _, hr⟩ := hr
    obtain ⟨f, hf⟩ := actionRequests_shape _ _ _ _ r hr
    have := (mem_removedBackends oldEP newEP b).1 hb
    exact ⟨f, b, hf, this.1, this.2⟩

/-- C5 (witness): pod b leaves `web`, pod a stays. -/
theorem C5_delta_deletes_removed_backends_witness :
    Contains calmEnv.BadNames webNewA.Name = false ∧
    (∃ sub ∈ webNewA.Subsets, sub.Ports ≠ []) ∧
    ∃ js st1, GetJSONnftlbFromEndpoints calmEnv webNewA Proc.empty = .ok js st1 ∧
    ∃ st2 deletes,
      UpdateNftlbBackends calmEnv webOldAB webNewA Proc.empty = .ok () st2 ∧
      st2.requests
        = Proc.empty.requests ++ [postRequestData (calmEnv.DecodePrettyJSON js)] ++ deletes ∧
      deletes = (removedBackends webOldAB webNewA).flatMap (fun b =>
        (getNewServiceSlice webNewA).flatMap (fun p =>
          actionRequests Proc.empty.nodePortArray Proc.empty.externalIPsArray
            (AssignFarmNameService webOldAB.Name p) b)) ∧
      (∀ b, b ∈ getNewBackendsSlice webOldAB → b ∉ getNewBackendsSlice webNewA →
        ∀ p ∈ getNewServiceSlice webNewA,
          deleteRequestData (backendPath (AssignFarmNameService webOldAB.Name p) b) ∈ deletes ∧
          (AssignFarmNameNodePort (AssignFarmNameService webOldAB.Name p) "nodePort"
              ∈ Proc.empty.nodePortArray →
            deleteRequestData (backendPath
              (AssignFarmNameNodePort (AssignFarmNameService webOldAB.Name p) "nodePort") b)
              ∈ deletes)) ∧
      (∀ r ∈ deletes, ∃ farmName b, r = deleteRequestData (backendPath farmName b) ∧
        b ∈ getNewBackendsSlice webOldAB ∧ b ∉ getNewBackendsSlice webNewA) :=
  ⟨by decide, by decide, _, _, rfl,
   C5_delta_deletes_removed_backends calmEnv webOldAB webNewA Proc.empty _ _
     (by decide) (fun _ => rfl) rfl (by decide)⟩

theorem GetJSONnftlbFromEndpoints_no_subsets (w : Env) (E : Endpoints) (st : Proc)
    (hnone : E.Subsets = []) :
    ∃ st1, GetJSONnftlbFromEndpoints w E st = .ok { Farms := [] } st1 := by
  unfold GetJSONnftlbFromEndpoints
  obtain ⟨st0, hc, _⟩ := CreateFarmID_ok E.Name st
  show ∃ st1, M.bind (CreateFarmID E.Name) _ st = _
  rw [M.bind_ok hc, hnone]
  exact ⟨st0, rfl⟩

/-- C6: when the new endpoints object has no subsets (the object is not on the list of
names to skip and the sink accepts every request), UpdateNftlbBackends returns and the
requests it sends contain, for every target name b among the old addresses and every port
name p of the old object (an empty name read as default, as getOldServiceSlice does), the
DELETE of AssignFarmNameService(objName, p)/backends/b, and also the DELETE under the
node-port twin of that farm when the twin is in the node-port list. -/
theorem C6_total_loss_deletes_every_old_backend (w : Env) (oldEP newEP : Endpoints)
    (st : Proc) (hbad : Contains w.BadNames newEP.Name = false)
    (hsend : ∀ r, (w.Send r).isSome = true) (hnone : newEP.Subsets = []) :
    ∃ st2 issued,
      UpdateNftlbBackends w oldEP newEP st = .ok () st2 ∧
      st2.requests = st.requests ++ issued ∧
      ∀ b ∈ getNewBackendsSlice oldEP, ∀ p ∈ getOldServiceSlice oldEP,
        deleteRequestData (backendPath (AssignFarmNameService oldEP.Name p) b) ∈ issued ∧
        (AssignFarmNameNodePort (AssignFarmNameService oldEP.Name p) "nodePort"
            ∈ st.nodePortArray →
          deleteRequestData (backendPath
            (AssignFarmNameNodePort (AssignFarmNameService oldEP.Name p) "nodePort") b)
            ∈ issued) := by
  obtain ⟨st1, hnew⟩ := GetJSONnftlbFromEndpoints_no_subsets w newEP st hnone
  have hview : SinkView st st1 := by
    have := GetJSONnftlbFromEndpoints_keeps st w newEP st ⟨rfl, rfl, rfl, rfl⟩
    rw [hnew] at this
    exact this
  have hslice : getNewServiceSlice newEP = [] := by
    unfold getNewServiceSlice
    rw [hnone]
    rfl
  refine ⟨_, [postRequestData (w.DecodePrettyJSON { Farms := [] })] ++
      updateDeletes st.nodePortArray st.externalIPsArray oldEP newEP,
    UpdateNftlbBackends_trace w oldEP newEP st st1 _ hbad hsend hnew, ?_, ?_⟩
  · simp only [Proc.addRequests_requests, hview.1]
  · intro b hb p hp
    obtain ⟨sub, hsub, addr, haddr, ref, href, hname⟩ := (mem_getNewBackendsSlice oldEP b).1 hb
    have hmem : ∀ r, r ∈ actionRequests st.nodePortArray st.externalIPsArray
        (AssignFarmNameService oldEP.Name p) b →
        r ∈ [postRequestData (w.DecodePrettyJSON { Farms := [] })] ++
          updateDeletes st.nodePortArray st.externalIPsArray oldEP newEP := by
      intro r hr
      rw [List.mem_append]
      right
      unfold updateDeletes
      rw [List.mem_flatMap]
      refine ⟨sub, hsub, ?_⟩
      rw [List.mem_flatMap]
      refine ⟨addr, haddr, ?_⟩
      unfold addressRequests
      rw [href]
      simp only [hslice, List.length_nil, Nat.lt_one_iff, if_true]
      rw [List.mem_flatMap]
      exact ⟨p, hp, by rw [hname]; exact hr⟩
    exact ⟨hmem _ (mem_actionRequests_base _ _ _ _),
      fun htwin => hmem _ (mem_actionRequests_twin _ _ _ _ ((Contains_iff _ _).2 htwin))⟩

/-- C6 (witness): `web` loses the pods a and b at once. -/
theorem C6_total_loss_deletes_every_old_backend_witness :
    Contains calmEnv.BadNames webNone.Name = false ∧ webNone.Subsets = [] ∧
    ∃ st2 issued,
      UpdateNftlbBackends calmEnv webOldAB webNone Proc.empty = .ok () st2 ∧
      st2.requests = Proc.empty.requests ++ issued ∧
      ∀ b ∈ getNewBackendsSlice webOldAB, ∀ p ∈ getOldServiceSlice webOldAB,
        deleteRequestData (backendPath (AssignFarmNameService webOldAB.Name p) b) ∈ issued ∧
        (AssignFarmNameNodePort (AssignFarmNameService webOldAB.Name p) "nodePort"
            ∈ Proc.empty.nodePortArray →
          deleteRequestData (backendPath
            (AssignFarmNameNodePort (AssignFarmNameService webOldAB.Name p) "nodePort") b)
            ∈ issued) :=
  ⟨by decide, rfl,
   C6_total_loss_deletes_every_old_backend calmEnv webOldAB webNone Proc.empty
     (by decide) (fun _ => rfl) rfl⟩


/-- C7 (counterexample): with an empty registry, (1) the old object `web` has one address
without target reference, so its backend is named `web`; the new object has no subsets;
the pair (web--http, web) is emitted for the old object and not for the new one, and the
update sends the POST only; (2) pod a stays while its port is renamed from http to https;
the pair (web--http, pod-a) is emitted for the old object and not for the new one, and
again no DELETE is sent. -/
theorem C7_counterexample_no_delete_sent :
    (emittedPairs (GetJSONnftlbFromEndpoints calmEnv webNoTarget Proc.empty)
        = some [("web--http", ["web"])] ∧
      emittedPairs (GetJSONnftlbFromEndpoints calmEnv webNone Proc.empty) = some [] ∧
      (UpdateNftlbBackends calmEnv webNoTarget webNone Proc.empty).proc.requests
        = [postRequestData ""]) ∧
    (emittedPairs (GetJSONnftlbFromEndpoints calmEnv webNewA Proc.empty)
        = some [("web--http", ["pod-a"])] ∧
      emittedPairs (GetJSONnftlbFromEndpoints calmEnv webNewHttps Proc.empty)
        = some [("web--https", ["pod-a"])] ∧
      (UpdateNftlbBackends calmEnv webNewA webNewHttps Proc.empty).proc.requests
        = [postRequestData ""]) := by
  decide

theorem mem_getOldServiceSlice (E : Endpoints) (sub : EndpointSubset) (port : EndpointPort)
    (hsub : sub ∈ E.Subsets) (hport : port ∈ sub.Ports) :
    endpointPortName port ∈ getOldServiceSlice E := by
  unfold getOldServiceSlice
  rw [List.mem_flatMap]
  exact ⟨sub, hsub, List.mem_map_of_mem _ hport⟩

/-- C7 (amended): with no node-port entry in the registry (the object is not on the list
of names to skip, the sink accepts every request and the synthesis for the new object
returns), every (farm name, backend name) pair that GetJSONnftlbFromEndpoints emits for
the old object gets the DELETE of farm/backends/backend from UpdateNftlbBackends, provided
that the backend name is the target name of an old address and of no new address, and that
the farm is the farm of a port name of the new object or the new object has no port at
all. Nothing is promised for a backend without target reference, nor for a backend whose
name still occurs in the new object. -/
theorem C7_removed_pairs_get_delete (w : Env) (oldEP newEP : Endpoints) (st st1 stOld : Proc)
    (js jsOld : JSONnftlb) (hbad : Contains w.BadNames newEP.Name = false)
    (hsend : ∀ r, (w.Send r).isSome = true) (hnp : st.nodePortArray = [])
    (hnew : GetJSONnftlbFromEndpoints w newEP st = .ok js st1)
    (hold : GetJSONnftlbFromEndpoints w oldEP st = .ok jsOld stOld) :
    ∃ st2 issued,
      UpdateNftlbBackends w oldEP newEP st = .ok () st2 ∧
      st2.requests = st.requests ++ issued ∧
      ∀ f ∈ jsOld.Farms, ∀ bk ∈ f.Backends,
        bk.Name ∈ getNewBackendsSlice oldEP → bk.Name ∉ getNewBackendsSlice newEP →
        (getNewServiceSlice newEP = [] ∨
          ∃ p ∈ getNewServiceSlice newEP, f.Name = AssignFarmNameService oldEP.Name p) →
        deleteRequestData (backendPath f.Name bk.Name) ∈ issued := by
  have hview : SinkView st st1 := by
    have := GetJSONnftlbFromEndpoints_keeps st w newEP st ⟨rfl, rfl, rfl, rfl⟩
    rw [hnew] at this
    exact this
  refine ⟨_, [postRequestData (w.DecodePrettyJSON js)] ++
      updateDeletes st.nodePortArray st.externalIPsArray oldEP newEP,
    UpdateNftlbBackends_trace w oldEP newEP st st1 js hbad hsend hnew, ?_, ?_⟩
  · simp only [Proc.addRequests_requests, hview.1]
  · intro f hf bk _ hbold hbnew hfarm
    obtain ⟨sub, hsub, addr, haddr, port, hport, mc, hmem⟩ :=
      GetJSONnftlbFromEndpoints_farms w oldEP st stOld jsOld hold f hf
    have hname : f.Name = AssignFarmNameService oldEP.Name (endpointPortName port) := by
      rcases (mem_portFarms _ _ _ f hmem).2 with h | ⟨_, h⟩
      · exact h
      · rw [hnp] at h
        cases h
    obtain ⟨sub2, hsub2, addr2, haddr2, ref, href, hrefname⟩ :=
      (mem_getNewBackendsSlice oldEP bk.Name).1 hbold
    rw [List.mem_append]
    right
    unfold updateDeletes
    rw [List.mem_flatMap]
    refine ⟨sub2, hsub2, ?_⟩
    rw [List.mem_flatMap]
    refine ⟨addr2, haddr2, ?_⟩
    unfold addressRequests
    rw [href]
    rcases hfarm with hnil | ⟨p, hp, hfp⟩
    · simp only [hnil, List.length_nil, Nat.lt_one_iff, if_true]
      rw [List.mem_flatMap]
      refine ⟨endpointPortName port, mem_getOldServiceSlice oldEP sub port hsub hport, ?_⟩
      rw [hrefname, ← hname]
      exact mem_actionRequests_base _ _ _ _
    · have hne : getNewServiceSlice newEP ≠ [] := by
        intro h
        rw [h] at hp
        cases hp
      have hlen := getNewServiceSlice_ne_nil newEP hne
      have hfind : ¬ find (getNewBackendsSlice newEP) ref.Name = true := by
        intro hc
        rw [hrefname] at hc
        exact hbnew ((find_iff _ _).1 hc)
      simp only []
      rw [if_neg hlen, if_neg hfind]
      rw [List.mem_flatMap]
      refine ⟨p, hp, ?_⟩
      rw [hrefname, ← hfp]
      exact mem_actionRequests_base _ _ _ _

/-- C7 (witness): pod b leaves `web`, pod a stays. -/
theorem C7_removed_pairs_get_delete_witness :
    Contains calmEnv.BadNames webNewA.Name = false ∧ Proc.empty.nodePortArray = [] ∧
    ∃ js st1 jsOld stOld,
      GetJSONnftlbFromEndpoints calmEnv webNewA Proc.empty = .ok js st1 ∧
      GetJSONnftlbFromEndpoints calmEnv webOldAB Proc.empty = .ok jsOld stOld ∧
      ∃ st2 issued,
        UpdateNftlbBackends calmEnv webOldAB webNewA Proc.empty = .ok () st2 ∧
        st2.requests = Proc.empty.requests ++ issued ∧
        ∀ f ∈ jsOld.Farms, ∀ bk ∈ f.Backends,
          bk.Name ∈ getNewBackendsSlice webOldAB → bk.Name ∉ getNewBackendsSlice webNewA →
          (getNewServiceSlice webNewA = [] ∨
            ∃ p ∈ getNewServiceSlice webNewA, f.Name = AssignFarmNameService webOldAB.Name p) →
          deleteRequestData (backendPath f.Name bk.Name) ∈ issued :=
  ⟨by decide, rfl, _, _, _, _, rfl, rfl,
   C7_removed_pairs_get_delete calmEnv webOldAB webNewA Proc.empty _ _ _ _
     (by decide) (fun _ => rfl) rfl rfl rfl⟩


/-! ## Claim on the handles of a DSR record -/

@[simp] theorem withHandles_nil (d : dsrStruct) : withHandles [] d = d := by
  simp [withHandles]

@[simp] theorem withHandles_withHandles (a b : List String) (d : dsrStruct) :
    withHandles b (withHandles a d) = withHandles (a ++ b) d := by
  simp [withHandles, List.append_assoc]

/-- A loop whose iterations only append handles to the records appends, to each record,
the handles of all iterations in order. -/
theorem rangeFold_handles {β γ : Type} (body : γ → β → M γ) (g : β → String → List String)
    (hbody : ∀ acc x s acc1 s1, body acc x s = .ok acc1 s1 →
      ∀ k, s1.serviceDsr k = (s.serviceDsr k).map (withHandles (g x k)))
    (xs : List β) (acc : γ) (s : Proc) (acc1 : γ) (s1 : Proc)
    (h : rangeFold body acc xs s = .ok acc1 s1) :
    ∀ k, s1.serviceDsr k = (s.serviceDsr k).map (withHandles (xs.flatMap (fun x => g x k))) := by
  induction xs generalizing acc s with
  | nil =>
    simp only [rangeFold_nil, Result.ok.injEq] at h
    obtain ⟨_, rfl⟩ := h
    intro k
    cases s.serviceDsr k <;> simp
  | cons x xs ih =>
    rw [rangeFold_cons] at h
    cases hb : body acc x s with
    | panic s2 =>
      rw [hb] at h
      cases h
    | ok acc2 s2 =>
      rw [hb] at h
      intro k
      rw [ih acc2 s2 h k, hbody acc x s acc2 s2 hb k]
      cases s.serviceDsr k <;> simp [List.flatMap_cons]

theorem dockerRun_serviceDsr (w : Env) (c cmd : String) (s s1 : Proc)
    (h : dockerRun w c cmd s = .ok () s1) : s1.serviceDsr = s.serviceDsr := by
  unfold dockerRun at h
  split at h
  · simp only [Result.ok.injEq, true_and] at h
    rw [← h]
    rfl
  · cases h

theorem addInterfaceDsr_handles (w : Env) (farmName backendName virtualAddr : String)
    (s s1 : Proc) (h : addInterfaceDsr w farmName backendName virtualAddr s = .ok () s1) :
    ∃ uid1 d, podHandle w backendName = some uid1 ∧ s.serviceDsr farmName = some d ∧
      ∀ k, s1.serviceDsr k =
        if k = farmName then some (withHandles [uid1] d) else s.serviceDsr k := by
  unfold addInterfaceDsr at h
  change M.bind (orPanic (w.PodsGet backendName).ContainerStatuses.head?) _ s = _ at h
  cases hh : (w.PodsGet backendName).ContainerStatuses.head? with
  | none =>
    rw [hh, M.bind_panic (orPanic_none s)] at h
    cases h
  | some dockerUid =>
    rw [hh, M.bind_ok (orPanic_some dockerUid s)] at h
    change M.bind (orPanic ((SplitAfter dockerUid "docker://").get? 1)) _ s = _ at h
    cases hu : (SplitAfter dockerUid "docker://").get? 1 with
    | none =>
      rw [hu, M.bind_panic (orPanic_none s)] at h
      cases h
    | some uid1 =>
      rw [hu, M.bind_ok (orPanic_some uid1 s)] at h
      change M.bind (dockerRun w uid1 (aliasCommand virtualAddr)) _ s = _ at h
      cases hd : dockerRun w uid1 (aliasCommand virtualAddr) s with
      | panic s2 =>
        rw [M.bind_panic hd] at h
        cases h
      | ok u s2 =>
        rw [M.bind_ok hd] at h
        have hs2 := dockerRun_serviceDsr w uid1 _ s s2 hd
        change M.bind getProc _ s2 = _ at h
        rw [M.bind_ok (getProc_apply s2)] at h
        change M.bind (orPanic (s2.serviceDsr farmName)) _ s2 = _ at h
        cases hr : s2.serviceDsr farmName with
        | none =>
          rw [hr, M.bind_panic (orPanic_none s2)] at h
          cases h
        | some d =>
          rw [hr, M.bind_ok (orPanic_some d s2)] at h
          simp only [modifyProc_apply, Result.ok.injEq, true_and] at h
          refine ⟨uid1, d, ?_, by rw [← hs2]; exact hr, ?_⟩
          · unfold podHandle
            rw [hh]
            exact hu
          · intro k
            rw [← h, ← hs2]
            rfl

theorem endpointPortStep_handles (w : Env) (o b ip : String) (vars vars1 : EndpointsVars)
    (port : EndpointPort) (s s1 : Proc)
    (h : endpointPortStep w o b ip vars port s = .ok vars1 s1) :
    ∀ k, s1.serviceDsr k = (s.serviceDsr k).map (withHandles (portHandles w o b k port)) := by
  unfold endpointPortStep at h
  change M.bind getProc _ s = _ at h
  rw [M.bind_ok (getProc_apply s)] at h
  change M.bind (endpointDsrStep w _ b) _ s = _ at h
  cases hd : endpointDsrStep w (AssignFarmNameService o (endpointPortName port)) b s with
  | panic s2 =>
    rw [M.bind_panic hd] at h
    cases h
  | ok u s2 =>
    rw [M.bind_ok hd] at h
    change M.bind getProc _ s2 = _ at h
    rw [M.bind_ok (getProc_apply s2)] at h
    simp only [pureM_apply, Result.ok.injEq] at h
    obtain ⟨_, hs⟩ := h
    subst hs
    unfold endpointDsrStep at hd
    change M.bind getProc _ s = _ at hd
    rw [M.bind_ok (getProc_apply s)] at hd
    intro k
    cases hrec : s.serviceDsr (AssignFarmNameService o (endpointPortName port)) with
    | none =>
      rw [hrec] at hd
      simp only [pureM_apply, Result.ok.injEq, true_and] at hd
      subst hd
      unfold portHandles
      by_cases hk : AssignFarmNameService o (endpointPortName port) = k
      · rw [← hk, hrec]
        rfl
      · rw [if_neg hk]
        cases s.serviceDsr k <;> simp
    | some d =>
      rw [hrec] at hd
      obtain ⟨uid1, d1, hpod, hd1, hall⟩ := addInterfaceDsr_handles w _ b _ s s2 hd
      rw [hrec] at hd1
      cases hd1
      rw [hall k]
      unfold portHandles
      by_cases hk : k = AssignFarmNameService o (endpointPortName port)
      · rw [if_pos hk, if_pos hk.symm, hk, hrec, hpod]
        rfl
      · have hk2 : ¬ AssignFarmNameService o (endpointPortName port) = k := fun e => hk e.symm
        rw [if_neg hk, if_neg hk2]
        cases s.serviceDsr k <;> simp

theorem GetJSONnftlbFromEndpoints_handles (w : Env) (E : Endpoints) (s s1 : Proc)
    (js : JSONnftlb) (h : GetJSONnftlbFromEndpoints w E s = .ok js s1) :
    ∀ k, s1.serviceDsr k = (s.serviceDsr k).map (withHandles (aliasHandles w E k)) := by
  unfold GetJSONnftlbFromEndpoints at h
  change M.bind (CreateFarmID E.Name) _ s = _ at h
  obtain ⟨s0, hc, _, hd0, _⟩ := CreateFarmID_ok E.Name s
  rw [M.bind_ok hc] at h
  change M.bind (rangeFold _ _ E.Subsets) _ s0 = _ at h
  cases hl : rangeFold (endpointSubsetStep w E.Name) { farmsSlice := [], maxconns := "0" }
      E.Subsets s0 with
  | panic s2 =>
    rw [M.bind_panic hl] at h
    cases h
  | ok vars s2 =>
    rw [M.bind_ok hl] at h
    simp only [pureM_apply, Result.ok.injEq] at h
    obtain ⟨_, hs⟩ := h
    subst hs
    intro k
    have key := rangeFold_handles (endpointSubsetStep w E.Name)
      (fun (sub : EndpointSubset) k => sub.Addresses.flatMap (fun addr =>
        sub.Ports.flatMap (portHandles w E.Name (addressBackendName E.Name addr) k)))
      (fun acc sub t acc1 t1 ht =>
        rangeFold_handles (endpointAddressStep w E.Name sub.Ports)
          (fun (addr : EndpointAddress) k =>
            sub.Ports.flatMap (portHandles w E.Name (addressBackendName E.Name addr) k))
          (fun acc addr t acc1 t1 ht =>
            rangeFold_handles
              (endpointPortStep w E.Name (addressBackendName E.Name addr) addr.IP)
              (fun (port : EndpointPort) k =>
                portHandles w E.Name (addressBackendName E.Name addr) k port)
              (fun acc port t acc1 t1 ht =>
                endpointPortStep_handles w _ _ _ acc acc1 port t t1 ht)
              sub.Ports acc t acc1 t1 ht)
          sub.Addresses acc t acc1 t1 ht)
      E.Subsets _ s0 vars s2 hl k
    rw [key, hd0]
    rfl

/-- C9 (counterexample): the farm `web--http` has a DSR record with no handle; two
endpoints notifications arrive, first with the pods a and b, then with pod a only. All
calls return, and the record then holds the handles of a, b and a again: the handle of the
removed pod b is still there and the handle of pod a is there twice, where the claim
expects the single handle of pod a. -/
theorem C9_counterexample_handles_pile_up :
    (endpointsCalls [(calmEnv, webOldAB), (calmEnv, webNewA)]
        (dsrOnly "web--http" [])).returned = true ∧
      ((endpointsCalls [(calmEnv, webOldAB), (calmEnv, webNewA)]
        (dsrOnly "web--http" [])).proc.serviceDsr "web--http").map (fun d => d.dockerUid)
        = some ["pod-a", "pod-b", "pod-a"] ∧
      podHandle calmEnv "pod-a" = some "pod-a" ∧
      ["pod-a", "pod-b", "pod-a"] ≠ ["pod-a"] := by
  decide

/-- C9 (amended): for every sequence of GetJSONnftlbFromEndpoints calls that all return,
and every farm that has a DSR record before the first call, the farm still has its record
after the last call, with the same virtual address, and its handle list is the list
recorded before the first call followed, call after call in order, by one handle for every
subset, address and port of the call's endpoints object that is filed under the farm.
Handles are only ever appended: the handle of a backend that left stays, and a backend
that is notified again gets its handle once more. -/
theorem C9_handles_are_appended_per_call (calls : List (Env × Endpoints)) (st st1 : Proc)
    (farm : String) (d : dsrStruct) (hrec : st.serviceDsr farm = some d)
    (hrun : endpointsCalls calls st = .ok () st1) :
    st1.serviceDsr farm =
      some { virtualAddr := d.virtualAddr,
             dockerUid :=
               d.dockerUid ++ calls.flatMap (fun call => aliasHandles call.1 call.2 farm) } := by
  unfold endpointsCalls at hrun
  have key := rangeFold_handles
    (fun (_ : Unit) (call : Env × Endpoints) => do
      let _ ← GetJSONnftlbFromEndpoints call.1 call.2
      pure ())
    (fun (call : Env × Endpoints) k => aliasHandles call.1 call.2 k)
    (fun acc call t acc1 t1 ht => by
      change M.bind (GetJSONnftlbFromEndpoints call.1 call.2) _ t = _ at ht
      cases hg : GetJSONnftlbFromEndpoints call.1 call.2 t with
      | panic t2 =>
        rw [M.bind_panic hg] at ht
        cases ht
      | ok js t2 =>
        rw [M.bind_ok hg] at ht
        simp only [pureM_apply, Result.ok.injEq, true_and] at ht
        subst ht
        exact GetJSONnftlbFromEndpoints_handles call.1 call.2 t t2 js hg)
    calls () st () st1 hrun farm
  rw [key, hrec]
  rfl

/-- C9 (witness): the two notifications of the counterexample. -/
theorem C9_handles_are_appended_per_call_witness :
    (dsrOnly "web--http" []).serviceDsr "web--http"
        = some { virtualAddr := "10.0.0.5", dockerUid := [] } ∧
    ∃ st1, endpointsCalls [(calmEnv, webOldAB), (calmEnv, webNewA)] (dsrOnly "web--http" [])
        = .ok () st1 ∧
      st1.serviceDsr "web--http" =
        some { virtualAddr := "10.0.0.5",
               dockerUid := [] ++ [(calmEnv, webOldAB), (calmEnv, webNewA)].flatMap
                 (fun call => aliasHandles call.1 call.2 "web--http") } :=
  ⟨rfl, _, rfl,
   C9_handles_are_appended_per_call [(calmEnv, webOldAB), (calmEnv, webNewA)]
     (dsrOnly "web--http" []) _ "web--http" { virtualAddr := "10.0.0.5", dockerUid := [] }
     rfl rfl⟩


/-! ## Claim on leaving the dsr mode -/

theorem loopRetractions_nodePort (S : Service) (hT : S.SpecType = "NodePort")
    (m : String → Option dsrStruct) (ports : List ServicePort) :
    loopRetractions S m ports = [] := by
  induction ports generalizing m with
  | nil => rfl
  | cons p ports ih => simp [loopRetractions, baseRetractions, hT, ih]

theorem mem_baseRetractions (S : Service) (m : String → Option dsrStruct) (farmName : String)
    (c : String × String) (hc : c ∈ baseRetractions S m farmName) :
    ∃ d, m farmName = some d ∧ c ∈ retractCommands d := by
  unfold baseRetractions at hc
  split at hc
  · cases hc
  · cases hm : m farmName with
    | none => simp [hm] at hc
    | some d =>
      rw [hm] at hc
      exact ⟨d, rfl, by simpa using hc⟩

theorem mem_loopRetractions (S : Service) (m : String → Option dsrStruct)
    (ports : List ServicePort) (c : String × String) (hc : c ∈ loopRetractions S m ports) :
    ∃ q ∈ ports, ∃ d, m (baseFarmName S.Name q) = some d ∧ c ∈ retractCommands d := by
  induction ports generalizing m with
  | nil => cases hc
  | cons p ports ih =>
    simp only [loopRetractions, List.mem_append] at hc
    rcases hc with hc | hc
    · obtain ⟨d, hd, hcd⟩ := mem_baseRetractions S m _ c hc
      exact ⟨p, List.mem_cons_self _ _, d, hd, hcd⟩
    · obtain ⟨q, hq, d, hd, hcd⟩ := ih _ hc
      refine ⟨q, List.mem_cons_of_mem _ hq, d, ?_, hcd⟩
      split at hd
      · cases hd
      · exact hd

theorem loopRetractions_covers (S : Service) (hT : S.SpecType ≠ "NodePort")
    (farmName : String) (d : dsrStruct) (ports : List ServicePort)
    (m : String → Option dsrStruct) (hrec : m farmName = some d)
    (hbase : ∃ p ∈ ports, baseFarmName S.Name p = farmName)
    (hF : ∀ q ∈ ports, hasTwin S q = true → twinFarmName S.Name q ≠ farmName) :
    ∀ c ∈ retractCommands d, c ∈ loopRetractions S m ports := by
  induction ports generalizing m with
  | nil =>
    obtain ⟨p, hp, _⟩ := hbase
    cases hp
  | cons q ports ih =>
    intro c hc
    simp only [loopRetractions, List.mem_append]
    by_cases hq : baseFarmName S.Name q = farmName
    · left
      simp [baseRetractions, hT, hq, hrec, hc]
    · right
      have hkeep : (fun k => if stepErased S q k then none else m k) farmName = some d := by
        have hne : ¬ farmName = baseFarmName S.Name q := fun e => hq e.symm
        have htw : ¬ (hasTwin S q = true ∧ farmName = twinFarmName S.Name q) :=
          fun h => hF q (List.mem_cons_self _ _) h.1 h.2.symm
        have : stepErased S q farmName = false := by
          unfold stepErased
          simp only [Bool.or_eq_false_iff, decide_eq_false_iff_not, Bool.and_eq_false_iff]
          refine ⟨fun h => hne h.1, ?_⟩
          by_cases ht : hasTwin S q = true
          · right
            exact fun e => htw ⟨ht, e⟩
          · left
            simpa using ht
        simp [this, hrec]
      obtain ⟨p, hp, hpb⟩ := hbase
      have hp2 : p ∈ ports := by
        rcases List.mem_cons.1 hp with h | h
        · rw [h] at hpb
          exact absurd hpb hq
        · exact h
      exact ih _ hkeep ⟨p, hp2, hpb⟩ (fun r hr => hF r (List.mem_cons_of_mem _ hr)) c hc

theorem any_stepErased_base (S : Service) (hT : S.SpecType ≠ "NodePort") (p : ServicePort)
    (ports : List ServicePort) (hp : p ∈ ports) :
    ports.any (fun port => stepErased S port (baseFarmName S.Name p)) = true := by
  rw [List.any_eq_true]
  exact ⟨p, hp, by simp [stepErased, hT]⟩

theorem any_stepErased_nodePort (S : Service) (hT : S.SpecType = "NodePort") (farmName : String)
    (ports : List ServicePort)
    (hF : ∀ q ∈ ports, hasTwin S q = true → twinFarmName S.Name q ≠ farmName) :
    ports.any (fun port => stepErased S port farmName) = false := by
  rw [List.any_eq_false]
  intro q hq hc
  unfold stepErased at hc
  simp only [hT, ne_eq, not_true_eq_false, and_false, decide_False, Bool.false_or,
    Bool.and_eq_true, decide_eq_true_eq] at hc
  exact hF q hq hc.1 hc.2.symm

/-- A twin farm name is never the base farm name of a port whose name is a DNS label: the
twin name ends in `nodePort`, with an upper-case letter. -/
theorem twinFarmName_ne_baseFarmName (serviceName : String) (q port : ServicePort)
    (hvalid : validPortName port.Name) :
    twinFarmName serviceName q ≠ baseFarmName serviceName port := by
  intro h
  have hP : ∀ p : String, twinFarmName serviceName q = AssignFarmNameService serviceName p →
      'P' ∈ p.data := by
    intro p hp
    have hd := congrArg String.data hp
    simp only [twinFarmName, AssignFarmNameNodePort, AssignFarmNameService,
      String.data_append, List.append_assoc] at hd
    have := List.append_cancel_left hd
    have := List.append_cancel_left this
    rw [← this]
    simp
  unfold baseFarmName at h
  by_cases hn : port.Name = ""
  · simp only [hn, beq_self_eq_true, if_true] at h
    have := hP "default" h
    revert this
    decide
  · have hne : (port.Name == "") = false := by simpa using hn
    simp only [hne] at h
    have hmem := hP port.Name h
    have hc := hvalid 'P' hmem
    revert hc
    decide

/-- Outside the port names that Kubernetes admits: the NodePort service `web` with the
ports `a--nodePort` and `a`, no annotation (mode snat), and a registry holding a DSR record
with one handle for `web--a--nodePort`, the base farm of the first port and also the twin
farm of the second. The call returns, issues no command, and the record is gone: it was
dropped as the twin of the port `a`. A port name has no upper-case letter, so this input
is not one the program receives. -/
theorem colliding_port_names_drop_record :
    baseFarmName "web" { Name := "a--nodePort", Protocol := "TCP", Port := 80, NodePort := 30080 }
        = "web--a--nodePort" ∧
      (dsrOnly "web--a--nodePort" ["c1"]).serviceDsr "web--a--nodePort"
        = some { virtualAddr := "10.0.0.5", dockerUid := ["c1"] } ∧
      (getAnnotations webCollidingPorts).map (fun a => a.mode) = some "snat" ∧
      (GetJSONnftlbFromService calmEnv webCollidingPorts
          (dsrOnly "web--a--nodePort" ["c1"])).returned = true ∧
      (GetJSONnftlbFromService calmEnv webCollidingPorts
          (dsrOnly "web--a--nodePort" ["c1"])).proc.serviceDsr "web--a--nodePort" = none ∧
      (GetJSONnftlbFromService calmEnv webCollidingPorts
          (dsrOnly "web--a--nodePort" ["c1"])).proc.execs = [] := by
  decide

/-- Leaving the DSR mode, for a record whose farm name is not also the twin farm name of a
port of the service: a service of type NodePort keeps the record, its handles and issues no
command; a service of another type, the retraction commands succeeding, has the record
removed and one retraction issued per recorded handle. -/
theorem leaving_dsr_of_distinct_names (w : Env) (S : Service) (st : Proc)
    (pp : String × String) (a : AnnotationVars) (port : ServicePort) (d : dsrStruct)
    (hp : getPersistence S = some pp) (ha : getAnnotations S = some a)
    (hmode : a.mode ≠ "dsr") (hport : port ∈ S.Ports)
    (hrec : st.serviceDsr (baseFarmName S.Name port) = some d)
    (hF : ∀ q ∈ S.Ports, hasTwin S q = true →
      twinFarmName S.Name q ≠ baseFarmName S.Name port) :
    (S.SpecType = "NodePort" →
      ∃ js s1, GetJSONnftlbFromService w S st = .ok js s1 ∧
        s1.serviceDsr (baseFarmName S.Name port) = some d ∧ s1.execs = st.execs) ∧
    (S.SpecType ≠ "NodePort" →
      (∀ q ∈ S.Ports, ∀ d1, st.serviceDsr (baseFarmName S.Name q) = some d1 →
        ∀ uid ∈ d1.dockerUid, w.dockerExec uid (retractCommand d1.virtualAddr) = true) →
      ∃ js s1 issued, GetJSONnftlbFromService w S st = .ok js s1 ∧
        s1.serviceDsr (baseFarmName S.Name port) = none ∧
        s1.execs = st.execs ++ issued ∧
        (∀ uid ∈ d.dockerUid, (uid, retractCommand d.virtualAddr) ∈ issued) ∧
        (∀ c ∈ issued, ∃ q ∈ S.Ports, ∃ d1,
          st.serviceDsr (baseFarmName S.Name q) = some d1 ∧ c ∈ retractCommands d1) ∧
        (S.Ports = [port] → issued = retractCommands d)) := by
  constructor
  · intro hT
    obtain ⟨js, s1, hrun, _, hexec, _, hdsr, _⟩ :=
      GetJSONnftlbFromService_snat w S st pp a hp ha hmode (fun hne => absurd hT hne)
    refine ⟨js, s1, hrun, ?_, ?_⟩
    · rw [hdsr, any_stepErased_nodePort S hT _ S.Ports hF]
      simpa using hrec
    · rw [hexec, loopRetractions_nodePort S hT]
      simp
  · intro hT hdock
    obtain ⟨js, s1, hrun, _, hexec, _, hdsr, _⟩ :=
      GetJSONnftlbFromService_snat w S st pp a hp ha hmode (fun _ => hdock)
    refine ⟨js, s1, loopRetractions S st.serviceDsr S.Ports, hrun, ?_, hexec, ?_, ?_, ?_⟩
    · rw [hdsr, any_stepErased_base S hT port S.Ports hport]
      rfl
    · intro uid huid
      apply loopRetractions_covers S hT _ d S.Ports st.serviceDsr hrec ⟨port, hport, rfl⟩ hF
      unfold retractCommands
      exact List.mem_map_of_mem _ huid
    · exact fun c hc => mem_loopRetractions S st.serviceDsr S.Ports c hc
    · intro hone
      rw [hone]
      simp [loopRetractions, baseRetractions, hT, hrec]

/-- C10: let GetJSONnftlbFromService process a service whose mode is not dsr (its
annotations being read without a panic), and let the base farm of one of its ports, whose
name is a DNS label as Kubernetes admits them, have a DSR record. If the service type is
NodePort, the call returns, the record and its handles are unchanged and no command is
issued. Otherwise, the retraction commands succeeding, the call returns, the record is
removed, the commands issued contain `ip ad del <virtual address>/32 dev lo` for each
recorded handle, every command issued is such a retraction for a record of a base farm of
the service, and for a service with this single port the commands issued are exactly one
retraction per recorded handle. -/
theorem C10_leaving_dsr_keeps_or_retracts (w : Env) (S : Service) (st : Proc)
    (pp : String × String) (a : AnnotationVars) (port : ServicePort) (d : dsrStruct)
    (hp : getPersistence S = some pp) (ha : getAnnotations S = some a)
    (hmode : a.mode ≠ "dsr") (hport : port ∈ S.Ports)
    (hvalid : validPortName port.Name)
    (hrec : st.serviceDsr (baseFarmName S.Name port) = some d) :
    (S.SpecType = "NodePort" →
      ∃ js s1, GetJSONnftlbFromService w S st = .ok js s1 ∧
        s1.serviceDsr (baseFarmName S.Name port) = some d ∧ s1.execs = st.execs) ∧
    (S.SpecType ≠ "NodePort" →
      (∀ q ∈ S.Ports, ∀ d1, st.serviceDsr (baseFarmName S.Name q) = some d1 →
        ∀ uid ∈ d1.dockerUid, w.dockerExec uid (retractCommand d1.virtualAddr) = true) →
      ∃ js s1 issued, GetJSONnftlbFromService w S st = .ok js s1 ∧
        s1.serviceDsr (baseFarmName S.Name port) = none ∧
        s1.execs = st.execs ++ issued ∧
        (∀ uid ∈ d.dockerUid, (uid, retractCommand d.virtualAddr) ∈ issued) ∧
        (∀ c ∈ issued, ∃ q ∈ S.Ports, ∃ d1,
          st.serviceDsr (baseFarmName S.Name q) = some d1 ∧ c ∈ retractCommands d1) ∧
        (S.Ports = [port] → issued = retractCommands d)) :=
  leaving_dsr_of_distinct_names w S st pp a port d hp ha hmode hport hrec
    (fun q _ _ => twinFarmName_ne_baseFarmName S.Name q port hvalid)

/-- C10 (witness): the ClusterIP service `web` with the port http, no annotation, and a
registry holding a DSR record with two handles for `web--http`; and the NodePort service
`web` with the port http and the same registry. -/
theorem C10_leaving_dsr_keeps_or_retracts_witness :
    getPersistence webClusterHttp = some ("none", "") ∧
    (∃ a, getAnnotations webClusterHttp = some a ∧ a.mode ≠ "dsr") ∧
    validPortName "http" ∧
    (dsrOnly "web--http" ["c1", "c2"]).serviceDsr
        (baseFarmName webClusterHttp.Name
          { Name := "http", Protocol := "TCP", Port := 80, NodePort := 0 })
      = some { virtualAddr := "10.0.0.5", dockerUid := ["c1", "c2"] } ∧
    webClusterHttp.SpecType ≠ "NodePort" ∧
    (∃ js s1 issued,
      GetJSONnftlbFromService calmEnv webClusterHttp (dsrOnly "web--http" ["c1", "c2"])
        = .ok js s1 ∧
      s1.serviceDsr "web--http" = none ∧
      s1.execs = (dsrOnly "web--http" ["c1", "c2"]).execs ++ issued ∧
      issued = [("c1", "ip ad del 10.0.0.5/32 dev lo"), ("c2", "ip ad del 10.0.0.5/32 dev lo")]) ∧
    (∃ js s1,
      GetJSONnftlbFromService calmEnv webNodePortHttp (dsrOnly "web--http" ["c1", "c2"])
        = .ok js s1 ∧
      s1.serviceDsr "web--http" = some { virtualAddr := "10.0.0.5", dockerUid := ["c1", "c2"] } ∧
      s1.execs = (dsrOnly "web--http" ["c1", "c2"]).execs) :=
  ⟨by decide, ⟨_, rfl, by decide⟩, by unfold validPortName; decide, by decide, by decide,
   match (C10_leaving_dsr_keeps_or_retracts calmEnv webClusterHttp
      (dsrOnly "web--http" ["c1", "c2"]) ("none", "") annotationDefaults
      { Name := "http", Protocol := "TCP", Port := 80, NodePort := 0 }
      { virtualAddr := "10.0.0.5", dockerUid := ["c1", "c2"] }
      (by decide) rfl (by decide) (by decide) (by unfold validPortName; decide)
      (by decide)).2 (by decide) (fun _ _ _ _ _ _ => rfl) with
   | ⟨js, s1, issued, h1, h2, h3, _, _, h6⟩ =>
     ⟨js, s1, issued, h1, h2, h3, by rw [h6 rfl]; decide⟩,
   (C10_leaving_dsr_keeps_or_retracts calmEnv webNodePortHttp
      (dsrOnly "web--http" ["c1", "c2"]) ("none", "") annotationDefaults
      { Name := "http", Protocol := "TCP", Port := 80, NodePort := 30080 }
      { virtualAddr := "10.0.0.5", dockerUid := ["c1", "c2"] }
      (by decide) rfl (by decide) (by decide) (by unfold validPortName; decide)
      (by decide)).1 (by decide)⟩

/-! ## DeleteNftlbFarm -/

/-- A returning sequence returned in both of its parts. -/
theorem M.bind_inv {α β : Type} {m : M α} {f : α → M β} {st st2 : Proc} {b : β}
    (h : M.bind m f st = .ok b st2) : ∃ a st1, m st = .ok a st1 ∧ f a st1 = .ok b st2 := by
  unfold M.bind at h
  cases hr : m st with
  | ok a st1 =>
    rw [hr] at h
    exact ⟨a, st1, rfl, h⟩
  | panic st1 =>
    rw [hr] at h
    cases h

theorem sendRequest_keeps (J : Proc → Prop) (w : Env) (r : RequestData)
    (hreq : ∀ st rs, J st → J (st.addRequests rs)) : Keeps J (sendRequest w r) := by
  intro st hs
  unfold sendRequest
  cases w.Send r <;> exact hreq st [r] hs

theorem deleteServiceDsr_keeps (J : Proc → Prop) (farmName : String)
    (herase : ∀ st k, J st → J (st.eraseDsr k)) : Keeps J (deleteServiceDsr farmName) := by
  unfold deleteServiceDsr
  refine Keeps.bind _ (Keeps.getProc _) (fun s => ?_)
  refine Keeps.ite _ _ ?_ (Keeps.pure _ _)
  exact Keeps.modifyProc _ _ (fun st h => herase st farmName h)

theorem dropNodePort_keeps (J : Proc → Prop) (farmName : String)
    (hnp : ∀ (st : Proc) np, J st → J { st with nodePortArray := np }) :
    Keeps J (dropNodePort farmName) := by
  intro st hs
  unfold dropNodePort
  simp only []
  split
  · exact hnp st _ hs
  · exact hs

/-- A property of the state that the four kinds of writes of DeleteNftlbFarm preserve holds
after one port in every outcome. -/
theorem deleteFarmPortStep_keeps (J : Proc → Prop) (w : Env) (S : Service) (port : ServicePort)
    (hreq : ∀ st rs, J st → J (st.addRequests rs))
    (herase : ∀ st k, J st → J (st.eraseDsr k))
    (hnp : ∀ (st : Proc) np, J st → J { st with nodePortArray := np })
    (hmax : ∀ (st : Proc), J st → J { st with maxConnsMap := fun _ => none }) :
    Keeps J (deleteFarmPortStep w S () port) := by
  unfold deleteFarmPortStep
  refine Keeps.bind _ (sendRequest_keeps J w _ hreq) (fun _ => ?_)
  refine Keeps.bind _ (Keeps.modifyProc _ _ hmax) (fun _ => ?_)
  refine Keeps.bind _ (deleteServiceDsr_keeps J _ herase) (fun _ => ?_)
  split
  · refine Keeps.bind _ (dropNodePort_keeps J _ hnp) (fun _ => ?_)
    refine Keeps.bind _ (sendRequest_keeps J w _ hreq) (fun _ => ?_)
    exact deleteServiceDsr_keeps J _ herase
  · exact Keeps.pure _ _

theorem DeleteNftlbFarm_keeps (J : Proc → Prop) (w : Env) (S : Service)
    (hreq : ∀ st rs, J st → J (st.addRequests rs))
    (herase : ∀ st k, J st → J (st.eraseDsr k))
    (hnp : ∀ (st : Proc) np, J st → J { st with nodePortArray := np })
    (hmax : ∀ (st : Proc), J st → J { st with maxConnsMap := fun _ => none }) :
    Keeps J (DeleteNftlbFarm w S) := by
  unfold DeleteNftlbFarm
  exact Keeps.rangeFold J (fun _ port => deleteFarmPortStep_keeps J w S port hreq herase hnp hmax)
    _ _

/-- The function deleteServiceDsr returns, and the farm has no record afterwards. -/
theorem deleteServiceDsr_ok (farmName : String) (st : Proc) :
    ∃ st1, deleteServiceDsr farmName st = .ok () st1 ∧ st1.serviceDsr farmName = none ∧
      st1.maxConnsMap = st.maxConnsMap := by
  unfold deleteServiceDsr
  show ∃ st1, M.bind getProc _ st = _ ∧ _
  rw [M.bind_ok (getProc_apply st)]
  cases hrec : st.serviceDsr farmName with
  | none => exact ⟨st, rfl, hrec, rfl⟩
  | some d => exact ⟨st.eraseDsr farmName, rfl, by simp [Proc.eraseDsr], rfl⟩

/-- The base name that DeleteNftlbFarm builds is the base name of the synthesis. -/
theorem deleteFarmPortStep_name (serviceName : String) (port : ServicePort) :
    AssignFarmNameService serviceName (if port.Name == "" then "default" else port.Name) =
      baseFarmName serviceName port := by
  unfold baseFarmName
  split <;> rfl

/-- One returning port of DeleteNftlbFarm leaves no record under the base name, nor under
the twin name built from the base name when the service type asks for a twin. -/
theorem deleteFarmPortStep_erases (w : Env) (S : Service) (port : ServicePort) (s s1 : Proc)
    (h : deleteFarmPortStep w S () port s = .ok () s1) :
    s1.serviceDsr (baseFarmName S.Name port) = none ∧
      ((S.SpecType = "NodePort" ∨ S.SpecType = "LoadBalancer") →
        s1.serviceDsr (AssignFarmNameNodePort (baseFarmName S.Name port) "nodePort") = none) := by
  unfold deleteFarmPortStep at h
  simp only [deleteFarmPortStep_name] at h
  change M.bind (deleteNftlbRequest w _) _ s = _ at h
  obtain ⟨_, sA, _, h⟩ := M.bind_inv h
  change M.bind DeleteMaxConnsMap _ sA = _ at h
  obtain ⟨_, sB, _, h⟩ := M.bind_inv h
  change M.bind (deleteServiceDsr _) _ sB = _ at h
  obtain ⟨_, sC, hC, h⟩ := M.bind_inv h
  obtain ⟨sC1, hC1, hnone, _⟩ := deleteServiceDsr_ok (baseFarmName S.Name port) sB
  rw [hC1] at hC
  cases hC
  by_cases ht : (S.SpecType == "NodePort" || S.SpecType == "LoadBalancer") = true
  · rw [if_pos ht] at h
    change M.bind (dropNodePort _) _ sC = _ at h
    obtain ⟨_, sD, hD, h⟩ := M.bind_inv h
    have hnD := dropNodePort_keeps (fun s => s.serviceDsr (baseFarmName S.Name port) = none)
      (AssignFarmNameNodePort (baseFarmName S.Name port) "nodePort") (fun _ _ hs => hs) sC hnone
    rw [hD] at hnD
    change M.bind (deleteNftlbRequest w _) _ sD = _ at h
    obtain ⟨_, sE, hE, h⟩ := M.bind_inv h
    have hnE := sendRequest_keeps (fun s => s.serviceDsr (baseFarmName S.Name port) = none) w
      (deleteRequestData (AssignFarmNameNodePort (baseFarmName S.Name port) "nodePort"))
      (fun _ _ hs => hs) sD hnD
    unfold deleteNftlbRequest at hE
    rw [hE] at hnE
    obtain ⟨sF, hF, hnoneF, _⟩ := deleteServiceDsr_ok
      (AssignFarmNameNodePort (baseFarmName S.Name port) "nodePort") sE
    have hnF := deleteServiceDsr_keeps (fun s => s.serviceDsr (baseFarmName S.Name port) = none)
      (AssignFarmNameNodePort (baseFarmName S.Name port) "nodePort")
      (fun st k hs => by
        show (if _ = k then none else st.serviceDsr _) = none
        split
        · rfl
        · exact hs) sE hnE
    rw [hF] at hnF h
    cases h
    exact ⟨hnF, fun _ => hnoneF⟩
  · rw [if_neg ht] at h
    cases h
    refine ⟨hnone, fun hty => ?_⟩
    exfalso
    apply ht
    rcases hty with hty | hty <;> simp [hty]

/-- One port of DeleteNftlbFarm returns when the sink accepts the request and the service
type asks for no twin. -/
theorem deleteFarmPortStep_returns (w : Env) (S : Service) (port : ServicePort) (s : Proc)
    (hsend : ∀ r, (w.Send r).isSome = true)
    (hnp : S.SpecType ≠ "NodePort") (hlb : S.SpecType ≠ "LoadBalancer") :
    ∃ s1, deleteFarmPortStep w S () port s = .ok () s1 := by
  unfold deleteFarmPortStep
  simp only [deleteFarmPortStep_name]
  obtain ⟨response, hA⟩ := sendRequest_ok w hsend (deleteRequestData (baseFarmName S.Name port)) s
  show ∃ s1, M.bind (deleteNftlbRequest w _) _ s = _
  unfold deleteNftlbRequest
  rw [M.bind_ok hA]
  show ∃ s1, M.bind DeleteMaxConnsMap _ _ = _
  unfold DeleteMaxConnsMap
  rw [M.bind_ok (modifyProc_apply _ _)]
  obtain ⟨sC, hC, _, _⟩ := deleteServiceDsr_ok (baseFarmName S.Name port)
    ((fun st : Proc => { st with maxConnsMap := fun _ => none })
      (s.addRequests [deleteRequestData (baseFarmName S.Name port)]))
  show ∃ s1, M.bind (deleteServiceDsr _) _ _ = _
  rw [M.bind_ok hC]
  have ht : (S.SpecType == "NodePort" || S.SpecType == "LoadBalancer") = false := by
    simp [hnp, hlb]
  rw [ht]
  exact ⟨sC, rfl⟩

/-- C11, failing input: the ClusterIP service web has the farm web--http, whose DSR record
holds the handle c1 for the address 10.0.0.5. DeleteNftlbFarm returns and has removed the
record, but it issued no command at all: the alias on c1 was not retracted, while
deleteInterfaceDsr on the same registry issues the retraction. -/
theorem C11_no_retraction_on_delete :
    (dsrOnly "web--http" ["c1"]).serviceDsr "web--http"
        = some { virtualAddr := "10.0.0.5", dockerUid := ["c1"] } ∧
      (DeleteNftlbFarm calmEnv webClusterHttp (dsrOnly "web--http" ["c1"])).returned = true ∧
      (DeleteNftlbFarm calmEnv webClusterHttp (dsrOnly "web--http" ["c1"])).proc.serviceDsr
        "web--http" = none ∧
      (DeleteNftlbFarm calmEnv webClusterHttp (dsrOnly "web--http" ["c1"])).proc.execs = [] ∧
      ("c1", retractCommand "10.0.0.5") ∉
        (DeleteNftlbFarm calmEnv webClusterHttp (dsrOnly "web--http" ["c1"])).proc.execs ∧
      (deleteInterfaceDsr calmEnv "web--http" (dsrOnly "web--http" ["c1"])).proc.execs
        = [("c1", retractCommand "10.0.0.5")] := by
  decide

/-- DeleteNftlbFarm issues no command in any outcome, so the aliases recorded for the farms
of the service are not retracted. When it returns, the DSR registry holds no record under
the base farm name of any port of the service nor, for a service of type NodePort or
LoadBalancer, under the twin name built from that base name. It returns for every service
of another type when the sink accepts the requests. -/
theorem DeleteNftlbFarm_erases_records (w : Env) (S : Service) (st : Proc) :
    (DeleteNftlbFarm w S st).proc.execs = st.execs ∧
      (∀ st1, DeleteNftlbFarm w S st = .ok () st1 → ∀ port ∈ S.Ports,
        st1.serviceDsr (baseFarmName S.Name port) = none ∧
          ((S.SpecType = "NodePort" ∨ S.SpecType = "LoadBalancer") →
            st1.serviceDsr (AssignFarmNameNodePort (baseFarmName S.Name port) "nodePort")
              = none)) ∧
      ((∀ r, (w.Send r).isSome = true) → S.SpecType ≠ "NodePort" →
        S.SpecType ≠ "LoadBalancer" → (DeleteNftlbFarm w S st).returned = true) := by
  refine ⟨?_, ?_, ?_⟩
  · exact DeleteNftlbFarm_keeps (fun s => s.execs = st.execs) w S (fun _ _ h => h)
      (fun _ _ h => h) (fun _ _ h => h) (fun _ h => h) st rfl
  · intro st1 h
    unfold DeleteNftlbFarm at h
    have hI := rangeFold_visited
      (fun (done : List ServicePort) (_ : Unit) (s : Proc) => ∀ port ∈ done,
        s.serviceDsr (baseFarmName S.Name port) = none ∧
          ((S.SpecType = "NodePort" ∨ S.SpecType = "LoadBalancer") →
            s.serviceDsr (AssignFarmNameNodePort (baseFarmName S.Name port) "nodePort") = none))
      (deleteFarmPortStep w S) S.Ports
      (fun done x acc s acc1 s1 _ hI hstep => by
        have hkeep : ∀ k, s.serviceDsr k = none → s1.serviceDsr k = none := by
          intro k hk
          have := deleteFarmPortStep_keeps (fun s => s.serviceDsr k = none) w S x
            (fun _ _ hs => hs)
            (fun st k2 hs => by
              show (if _ = k2 then none else st.serviceDsr _) = none
              split
              · rfl
              · exact hs)
            (fun _ _ hs => hs) (fun _ hs => hs) s hk
          rw [hstep] at this
          exact this
        intro port hport
        rw [List.mem_append, List.mem_singleton] at hport
        rcases hport with hport | hport
        · exact ⟨hkeep _ (hI port hport).1, fun hty => hkeep _ ((hI port hport).2 hty)⟩
        · rw [hport]
          exact deleteFarmPortStep_erases w S x s s1 hstep)
      [] () st (fun _ hp => by cases hp) () st1 h
    simpa using hI
  · intro hsend hnp hlb
    unfold DeleteNftlbFarm
    obtain ⟨acc1, s1, hr, _⟩ := rangeFold_returns (fun (_ : Unit) (_ : Proc) => True)
      (deleteFarmPortStep w S) S.Ports
      (fun acc x s _ _ => by
        obtain ⟨s1, h1⟩ := deleteFarmPortStep_returns w S x s hsend hnp hlb
        exact ⟨(), s1, h1, trivial⟩) () st trivial
    rw [hr]
    rfl

/-- C18, counterexample: the service api registered a ceiling of 100 for its farm api--http;
DeleteNftlbFarm applied to the other service web removes that ceiling. -/
theorem C18_counterexample_ceiling_of_other_service_lost :
    webClusterHttp.Name ≠ apiCeilingService.Name ∧
      (GetJSONnftlbFromService calmEnv apiCeilingService Proc.empty).proc.maxConnsMap
        "api--http" = some "100" ∧
      (DeleteNftlbFarm calmEnv webClusterHttp
        (GetJSONnftlbFromService calmEnv apiCeilingService Proc.empty).proc).returned = true ∧
      (DeleteNftlbFarm calmEnv webClusterHttp
        (GetJSONnftlbFromService calmEnv apiCeilingService Proc.empty).proc).proc.maxConnsMap
        "api--http" = none := by
  decide

/-- C18 (amended): DeleteNftlbFarm applied to a service without ports leaves the registry of
connection ceilings as it is; applied to a service with at least one port, once the sink
accepted the request for the first port, it leaves no registered ceiling at all, whatever
the outcome: the ceilings of the farms of every other service are removed as well. -/
theorem C18_delete_clears_every_ceiling (w : Env) (S : Service) (st : Proc) :
    (S.Ports = [] → DeleteNftlbFarm w S st = .ok () st) ∧
      (∀ port rest, S.Ports = port :: rest →
        (w.Send (deleteRequestData (baseFarmName S.Name port))).isSome = true →
        ∀ k, (DeleteNftlbFarm w S st).proc.maxConnsMap k = none) := by
  refine ⟨?_, ?_⟩
  · intro h
    unfold DeleteNftlbFarm
    rw [h]
    rfl
  · intro port rest hports hsend k
    have hJ : ∀ (w : Env) (x : ServicePort),
        Keeps (fun s => s.maxConnsMap k = none) (deleteFarmPortStep w S () x) :=
      fun w x => deleteFarmPortStep_keeps (fun s => s.maxConnsMap k = none) w S x
        (fun _ _ hs => hs) (fun _ _ hs => hs) (fun _ _ hs => hs) (fun _ _ => rfl)
    unfold DeleteNftlbFarm
    rw [hports, rangeFold_cons]
    have hfirst : (deleteFarmPortStep w S () port st).proc.maxConnsMap k = none := by
      unfold deleteFarmPortStep
      simp only [deleteFarmPortStep_name]
      cases hr : w.Send (deleteRequestData (baseFarmName S.Name port)) with
      | none => rw [hr] at hsend; cases hsend
      | some response =>
        have hA : deleteNftlbRequest w (baseFarmName S.Name port) st =
            .ok response (st.addRequests [deleteRequestData (baseFarmName S.Name port)]) := by
          unfold deleteNftlbRequest sendRequest
          simp only [hr]
        show (M.bind (deleteNftlbRequest w _) _ st).proc.maxConnsMap k = none
        rw [M.bind_ok hA]
        show (M.bind DeleteMaxConnsMap _ _).proc.maxConnsMap k = none
        unfold DeleteMaxConnsMap
        rw [M.bind_ok (modifyProc_apply _ _)]
        refine Keeps.bind (fun s => s.maxConnsMap k = none)
          (deleteServiceDsr_keeps _ _ (fun _ _ hs => hs)) (fun _ => ?_) _ rfl
        split
        · refine Keeps.bind _ (dropNodePort_keeps _ _ (fun _ _ hs => hs)) (fun _ => ?_)
          refine Keeps.bind _ (sendRequest_keeps _ w _ (fun _ _ hs => hs)) (fun _ => ?_)
          exact deleteServiceDsr_keeps _ _ (fun _ _ hs => hs)
        · exact Keeps.pure _ _
    cases hb : deleteFarmPortStep w S () port st with
    | ok acc1 st1 =>
      rw [hb] at hfirst
      exact Keeps.rangeFold (fun s => s.maxConnsMap k = none) (fun _ x => hJ w x) acc1 rest
        st1 hfirst
    | panic st1 =>
      rw [hb] at hfirst
      exact hfirst

theorem C18_delete_clears_every_ceiling_witness :
    (DeleteNftlbFarm calmEnv webClusterHttp
      (GetJSONnftlbFromService calmEnv apiCeilingService Proc.empty).proc).proc.maxConnsMap
      "api--http" = none :=
  (C18_delete_clears_every_ceiling calmEnv webClusterHttp
    (GetJSONnftlbFromService calmEnv apiCeilingService Proc.empty).proc).2
    _ [] rfl rfl "api--http"

/-! ## createInterfaceDsr and the pod list -/

/-- C12, failing inputs: the service web is labelled app=web and its farm web--http is seen
in DSR mode for the first time. When the lookup returns pod-a (app=web) followed by pod-b
(app=db), the alias is applied to pod-b as well, by createInterfaceDsr alone and by the whole
GetJSONnftlbFromService; when it returns pod-b followed by pod-a, no alias is applied,
although pod-a carries the label; when it returns no pod, createInterfaceDsr panics. -/
theorem C12_alias_follows_first_pod_only :
    (createInterfaceDsr (podsEnv [appPod "pod-a" "web", appPod "pod-b" "db"]) "web--http"
        webDsrService (freshRecord "web--http")).proc.execs
        = [("pod-a", aliasCommand "10.0.0.5"), ("pod-b", aliasCommand "10.0.0.5")] ∧
      (GetJSONnftlbFromService (podsEnv [appPod "pod-a" "web", appPod "pod-b" "db"])
        webDsrService Proc.empty).proc.execs
        = [("pod-a", aliasCommand "10.0.0.5"), ("pod-b", aliasCommand "10.0.0.5")] ∧
      (createInterfaceDsr (podsEnv [appPod "pod-b" "db", appPod "pod-a" "web"]) "web--http"
        webDsrService (freshRecord "web--http")).proc.execs = [] ∧
      (createInterfaceDsr (podsEnv []) "web--http" webDsrService
        (freshRecord "web--http")).returned = false ∧
      (GetJSONnftlbFromService (podsEnv []) webDsrService Proc.empty).returned = false := by
  decide

/-! ## The order of the requests of one update -/

/-- Whatever the old address is, what its iteration hands to the sink are DELETE
requests. -/
theorem updateAddressStep_deletes (st0 : Proc) (w : Env) (objName : String)
    (newBackends newServices oldServices : List String) (address : EndpointAddress) :
    Keeps (IssuedOnly (fun r => r.Method = "DELETE") st0)
      (updateAddressStep w objName newBackends newServices oldServices () address) := by
  unfold updateAddressStep
  split
  · exact Keeps.pure _ _
  · split
    · exact Keeps.rangeFold _
        (fun _ _ => actionDeleteNftlbRequest_issued (fun r => r.Method = "DELETE") st0 w _ _
          (fun _ => rfl)) _ _
    · split
      · exact Keeps.pure _ _
      · exact Keeps.rangeFold _
          (fun _ _ => actionDeleteNftlbRequest_issued (fun r => r.Method = "DELETE") st0 w _ _
          (fun _ => rfl)) _ _

/-- C13: in every outcome of one UpdateNftlbBackends call the requests handed to the sink
are either none at all, or a POST followed by DELETE requests only: the POST comes first,
there is exactly one, and every DELETE comes after it. When the name of the object is not a
bad name and the synthesis for the new object returns the declaration `js`, the POST is
issued and its body is the text of `js`. -/
theorem C13_post_first_then_deletes (w : Env) (oldEP newEP : Endpoints) (st : Proc) :
    (∃ issued, (UpdateNftlbBackends w oldEP newEP st).proc.requests = st.requests ++ issued ∧
      (issued = [] ∨ ∃ js rest, issued = postRequestData (w.DecodePrettyJSON js) :: rest ∧
        ∀ r ∈ rest, r.Method = "DELETE")) ∧
      (∀ js st1, Contains w.BadNames newEP.Name = false →
        GetJSONnftlbFromEndpoints w newEP st = .ok js st1 →
        ∃ rest, (UpdateNftlbBackends w oldEP newEP st).proc.requests =
            st.requests ++ postRequestData (w.DecodePrettyJSON js) :: rest ∧
          ∀ r ∈ rest, r.Method = "DELETE") := by
  have hview := GetJSONnftlbFromEndpoints_keeps st w newEP st ⟨rfl, rfl, rfl, rfl⟩
  have key : ∀ js st1, Contains w.BadNames newEP.Name = false →
      GetJSONnftlbFromEndpoints w newEP st = .ok js st1 →
      ∃ rest, (UpdateNftlbBackends w oldEP newEP st).proc.requests =
          st.requests ++ postRequestData (w.DecodePrettyJSON js) :: rest ∧
        ∀ r ∈ rest, r.Method = "DELETE" := by
    intro js st1 hbad hnew
    rw [hnew] at hview
    have hreq : st1.requests = st.requests := hview.1
    unfold UpdateNftlbBackends
    simp only [hbad, Bool.not_false, if_true]
    show ∃ rest, (M.bind (GetJSONnftlbFromEndpoints w newEP) _ st).proc.requests = _ ∧ _
    rw [M.bind_ok hnew]
    show ∃ rest, (M.bind (updateNftlbRequest w _) _ st1).proc.requests = _ ∧ _
    cases hs : w.Send (postRequestData (w.DecodePrettyJSON js)) with
    | none =>
      have hp : updateNftlbRequest w (w.DecodePrettyJSON js) st1 =
          .panic (st1.addRequests [postRequestData (w.DecodePrettyJSON js)]) := by
        unfold updateNftlbRequest sendRequest
        simp only [hs]
      rw [M.bind_panic hp]
      exact ⟨[], by simp [Result.proc, Proc.addRequests, hreq], by simp⟩
    | some response =>
      have hp : updateNftlbRequest w (w.DecodePrettyJSON js) st1 =
          .ok response (st1.addRequests [postRequestData (w.DecodePrettyJSON js)]) := by
        unfold updateNftlbRequest sendRequest
        simp only [hs]
      rw [M.bind_ok hp]
      have hloop : Keeps (IssuedOnly (fun r => r.Method = "DELETE")
          (st1.addRequests [postRequestData (w.DecodePrettyJSON js)]))
          (rangeFold (fun (_ : Unit) (endpoint : EndpointSubset) =>
            rangeFold (updateAddressStep w oldEP.Name (getNewBackendsSlice newEP)
              (getNewServiceSlice newEP) (getOldServiceSlice oldEP)) () endpoint.Addresses)
            () oldEP.Subsets) :=
        Keeps.rangeFold _ (fun _ endpoint =>
          Keeps.rangeFold _ (fun _ address => updateAddressStep_deletes _ w _ _ _ _ address)
            _ _) _ _
      obtain ⟨rest, h1, h2⟩ := hloop _ (IssuedOnly.refl _ _)
      refine ⟨rest, ?_, h2⟩
      rw [h1]
      simp [Proc.addRequests, hreq]
  refine ⟨?_, key⟩
  cases hbad : Contains w.BadNames newEP.Name with
  | true =>
    refine ⟨[], ?_, Or.inl rfl⟩
    unfold UpdateNftlbBackends
    simp [hbad, Result.proc]
  | false =>
    cases hnew : GetJSONnftlbFromEndpoints w newEP st with
    | ok js st1 =>
      obtain ⟨rest, h1, h2⟩ := key js st1 hbad hnew
      exact ⟨_, h1, Or.inr ⟨js, rest, rfl, h2⟩⟩
    | panic st1 =>
      rw [hnew] at hview
      have hreq : st1.requests = st.requests := hview.1
      refine ⟨[], ?_, Or.inl rfl⟩
      unfold UpdateNftlbBackends
      simp only [hbad, Bool.not_false, if_true]
      show (M.bind (GetJSONnftlbFromEndpoints w newEP) _ st).proc.requests = _
      rw [M.bind_panic hnew]
      simp [Result.proc, hreq]

theorem C13_post_first_then_deletes_witness :
    ∃ rest, (UpdateNftlbBackends calmEnv webOldAB webNewA Proc.empty).proc.requests =
        Proc.empty.requests ++ postRequestData (calmEnv.DecodePrettyJSON
          { Farms := [backendsFarm "web--http"
            [createBackend "pod-a" "10.0.0.1" "up" "80" ""]] }) :: rest ∧
      ∀ r ∈ rest, r.Method = "DELETE" :=
  (C13_post_first_then_deletes calmEnv webOldAB webNewA Proc.empty).2
    { Farms := [backendsFarm "web--http" [createBackend "pod-a" "10.0.0.1" "up" "80" ""]] }
    (GetJSONnftlbFromEndpoints calmEnv webNewA Proc.empty).proc (by decide) rfl

/-! ## The farms of a service, field by field -/

theorem stepIface_idem (w : Env) (mode iface : String) :
    stepIface w mode (stepIface w mode iface) = stepIface w mode iface := by
  unfold stepIface
  split <;> rfl

theorem baseDsrStep_value (w : Env) (S : Service) (mode farmName virtualAddr iface i : String)
    (s s1 : Proc) (h : baseDsrStep w S mode farmName virtualAddr iface s = .ok i s1) :
    i = stepIface w mode iface := by
  unfold baseDsrStep at h
  unfold stepIface
  by_cases hm : (mode == "dsr") = true
  · rw [if_pos hm] at h
    rw [if_pos hm]
    change M.bind (ensureDsrRecord w S farmName) _ s = _ at h
    obtain ⟨_, sA, _, h⟩ := M.bind_inv h
    change M.bind (setVirtualAddr farmName virtualAddr) _ sA = _ at h
    obtain ⟨_, sB, _, h⟩ := M.bind_inv h
    simp only [pureM_apply, Result.ok.injEq] at h
    exact h.1.symm
  · rw [if_neg hm] at h
    rw [if_neg hm]
    change M.bind (retractBaseRecord w S farmName) _ s = _ at h
    obtain ⟨_, sA, _, h⟩ := M.bind_inv h
    simp only [pureM_apply, Result.ok.injEq] at h
    exact h.1.symm

theorem twinDsrStep_value (w : Env) (S : Service) (mode farmName virtualAddr iface i : String)
    (s s1 : Proc) (h : twinDsrStep w S mode farmName virtualAddr iface s = .ok i s1) :
    i = stepIface w mode iface := by
  unfold twinDsrStep at h
  unfold stepIface
  by_cases hm : (mode == "dsr") = true
  · rw [if_pos hm] at h
    rw [if_pos hm]
    change M.bind (ensureDsrRecord w S farmName) _ s = _ at h
    obtain ⟨_, sA, _, h⟩ := M.bind_inv h
    change M.bind (setVirtualAddr farmName virtualAddr) _ sA = _ at h
    obtain ⟨_, sB, _, h⟩ := M.bind_inv h
    simp only [pureM_apply, Result.ok.injEq] at h
    exact h.1.symm
  · rw [if_neg hm] at h
    rw [if_neg hm]
    change M.bind (dropTwinRecord farmName) _ s = _ at h
    obtain ⟨_, sA, _, h⟩ := M.bind_inv h
    simp only [pureM_apply, Result.ok.injEq] at h
    exact h.1.symm

/-- A returning iteration of the loop of GetJSONnftlbFromService appends exactly the farms
of the port. -/
theorem servicePortStep_farms (w : Env) (S : Service) (persistence persistenceTTL : String)
    (a : AnnotationVars) (family : String) (vars vars1 : ServiceVars) (port : ServicePort)
    (s s1 : Proc)
    (h : servicePortStep w S persistence persistenceTTL a family vars port s = .ok vars1 s1) :
    vars1.farmsSlice = vars.farmsSlice ++
        builtFarms w S persistence persistenceTTL a family vars.iface port ∧
      vars1.iface = stepIface w a.mode vars.iface := by
  unfold servicePortStep at h
  change M.bind (baseDsrStep w S a.mode _ _ _) _ s = _ at h
  obtain ⟨iface, sB, hB, h⟩ := M.bind_inv h
  have hi := baseDsrStep_value w S a.mode _ _ _ iface s sB hB
  subst hi
  by_cases ht : hasTwin S port = true
  · simp only [ht, if_true] at h
    change M.bind (twinDsrStep w S a.mode _ _ _) _ sB = _ at h
    obtain ⟨iface2, sT, hT, h⟩ := M.bind_inv h
    have hi2 := twinDsrStep_value w S a.mode _ _ _ iface2 sB sT hT
    rw [stepIface_idem] at hi2
    subst hi2
    change M.bind (modifyProc _) _ sT = _ at h
    rw [M.bind_ok (modifyProc_apply _ sT)] at h
    simp only [pureM_apply, Result.ok.injEq] at h
    rw [← h.1]
    simp [builtFarms, ht]
  · have hf : hasTwin S port = false := by simpa using ht
    simp only [hf] at h
    simp only [Bool.false_eq_true, if_false, pureM_apply, Result.ok.injEq] at h
    rw [← h.1]
    simp [builtFarms, hf]

theorem builtFarms_iface (w : Env) (S : Service) (persistence persistenceTTL : String)
    (a : AnnotationVars) (family iface1 iface2 : String) (port : ServicePort)
    (h : stepIface w a.mode iface1 = stepIface w a.mode iface2) :
    builtFarms w S persistence persistenceTTL a family iface1 port =
      builtFarms w S persistence persistenceTTL a family iface2 port := by
  unfold builtFarms
  rw [h]

/-- Whenever GetJSONnftlbFromService returns, in any mode, registry and environment, the
annotations were read without a panic and the farms are, port by port in declaration
order, the farms of `builtFarms`. -/
theorem GetJSONnftlbFromService_farms (w : Env) (S : Service) (st st1 : Proc) (js : JSONnftlb)
    (h : GetJSONnftlbFromService w S st = .ok js st1) :
    ∃ pp a, getPersistence S = some pp ∧ getAnnotations S = some a ∧
      js.Farms = S.Ports.flatMap (builtFarms w S pp.1 pp.2 a (findFamily w S) "") := by
  unfold GetJSONnftlbFromService at h
  change M.bind (orPanic (getPersistence S)) _ st = _ at h
  cases hp : getPersistence S with
  | none =>
    rw [hp, M.bind_panic (orPanic_none st)] at h
    cases h
  | some pp =>
    rw [hp, M.bind_ok (orPanic_some pp st)] at h
    change M.bind (orPanic (getAnnotations S)) _ st = _ at h
    cases ha : getAnnotations S with
    | none =>
      rw [ha, M.bind_panic (orPanic_none st)] at h
      cases h
    | some a =>
      rw [ha, M.bind_ok (orPanic_some a st)] at h
      change M.bind (findMaxConns S) _ st = _ at h
      obtain ⟨_, s0, _, h⟩ := M.bind_inv h
      change M.bind (rangeFold _ _ S.Ports) _ s0 = _ at h
      obtain ⟨vars, s2, hl, h⟩ := M.bind_inv h
      simp only [pureM_apply, Result.ok.injEq] at h
      refine ⟨pp, a, rfl, rfl, ?_⟩
      rw [← h.1]
      have key := rangeFold_visited
        (fun (done : List ServicePort) (v : ServiceVars) (_ : Proc) =>
          v.farmsSlice = done.flatMap (builtFarms w S pp.1 pp.2 a (findFamily w S) "") ∧
            stepIface w a.mode v.iface = stepIface w a.mode "")
        (servicePortStep w S pp.1 pp.2 a (findFamily w S)) S.Ports
        (fun done x acc s acc1 s1 _ hI hstep => by
          have hI2 : acc.farmsSlice =
              done.flatMap (builtFarms w S pp.1 pp.2 a (findFamily w S) "") ∧
              stepIface w a.mode acc.iface = stepIface w a.mode "" := hI
          obtain ⟨hf, hi⟩ := servicePortStep_farms w S _ _ a _ acc acc1 x s s1 hstep
          show acc1.farmsSlice =
              (done ++ [x]).flatMap (builtFarms w S pp.1 pp.2 a (findFamily w S) "") ∧
              stepIface w a.mode acc1.iface = stepIface w a.mode ""
          refine ⟨?_, ?_⟩
          · rw [hf, hI2.1, builtFarms_iface w S _ _ a _ acc.iface "" x hI2.2]
            simp [List.flatMap_append]
          · rw [hi, stepIface_idem]
            exact hI2.2)
        [] { farmsSlice := [], iface := "" } s0 ⟨rfl, rfl⟩ vars s2 hl
      simpa using key.1

/-! ## Reading one annotation -/

/-- The run of letters that `[a-z]+$` finds in a text ending in a hyphen and letters is
the part after the hyphen. -/
theorem takeWhile_append_stop {α : Type} (p : α → Bool) (xs ys : List α) (c : α)
    (hxs : ∀ x ∈ xs, p x = true) (hc : p c = false) :
    (xs ++ c :: ys).takeWhile p = xs := by
  induction xs with
  | nil => simp [List.takeWhile, hc]
  | cons x xs ih =>
    have hx : p x = true := hxs x (List.mem_cons_self x xs)
    simp only [List.cons_append, List.takeWhile_cons, hx, if_true]
    rw [ih (fun y hy => hxs y (List.mem_cons_of_mem _ hy))]

theorem FindStringSubmatch_scheduler_key (k0 : String) :
    FindStringSubmatch .lowerAtEnd (k0 ++ "-scheduler") = some "scheduler" := by
  have hdata : (k0 ++ "-scheduler").data = k0.data ++ '-' :: "scheduler".data := by
    rw [String.data_append]
  have hrev : (k0.data ++ '-' :: "scheduler".data).reverse =
      "scheduler".data.reverse ++ '-' :: k0.data.reverse := by
    simp
  unfold FindStringSubmatch
  simp only [hdata, hrev]
  rw [takeWhile_append_stop Char.isLower _ _ '-' (by decide) (by decide)]
  rfl

/-- An iteration of the loop of getAnnotations looks at the key through the match of the
regular expression only. -/
theorem annotationStep_congr (v : AnnotationVars) (key1 key2 value : String)
    (h : FindStringSubmatch v.rgx key1 = FindStringSubmatch v.rgx key2) :
    annotationStep v key1 value = annotationStep v key2 value := by
  unfold annotationStep
  rw [h]

theorem persistenceLoop_congr (persistence key1 key2 value : String)
    (h : FindStringSubmatch .lowerAtEnd key1 = FindStringSubmatch .lowerAtEnd key2) :
    persistenceLoop persistence [(key1, value)] = persistenceLoop persistence [(key2, value)] := by
  unfold persistenceLoop
  rw [h]


theorem getAnnotations_hash (S : Service) (k0 field : String)
    (hann : S.Annotations = some [(k0 ++ "-scheduler", "hash-" ++ field)])
    (hfield : field ∈ ["srcip", "dstip", "srcport", "dstport", "srcmac", "dstmac"]) :
    getAnnotations S = some (hashVars field) := by
  unfold getAnnotations
  rw [hann]
  simp only [annotationLoop]
  have hkey : FindStringSubmatch annotationDefaults.rgx (k0 ++ "-scheduler") =
      FindStringSubmatch annotationDefaults.rgx "-scheduler" := by
    show FindStringSubmatch .lowerAtEnd _ = _
    rw [FindStringSubmatch_scheduler_key]
    rfl
  rw [annotationStep_congr _ _ _ _ hkey]
  simp only [List.mem_cons, List.mem_singleton, List.not_mem_nil, or_false] at hfield
  rcases hfield with h | h | h | h | h | h <;> subst h <;> rfl

theorem getPersistence_hash (S : Service) (k0 value : String)
    (hann : S.Annotations = some [(k0 ++ "-scheduler", value)]) :
    ∃ pp, getPersistence S = some pp := by
  have hkey : FindStringSubmatch .lowerAtEnd (k0 ++ "-scheduler") =
      FindStringSubmatch .lowerAtEnd "-scheduler" := by
    rw [FindStringSubmatch_scheduler_key]
    rfl
  have hloop : persistenceLoop "" [(k0 ++ "-scheduler", value)] = some "" := by
    rw [persistenceLoop_congr _ _ _ _ hkey]
    unfold persistenceLoop
    have h1 : FindStringSubmatch .lowerAtEnd "-scheduler" = some "scheduler" := by decide
    rw [h1]
    have h2 : (ToLower "scheduler" == "persistence") = false := by decide
    simp only [h2]
    rfl
  unfold getPersistence
  rw [hann]
  simp only [hloop]
  exact ⟨_, rfl⟩


/-- C14: for a service whose only annotation has a key ending in -scheduler and the value
hash- followed by one of the six recognised fields, GetJSONnftlbFromService returns (the
commands that retract the aliases of a farm leaving the DSR mode being accepted), and its
farms are the groups it builds port by port, in declaration order; the group of a port
starts with the base farm of the port, whose scheduler is hash, whose scheduler parameter
is the field, whose virtual address is the cluster address and whose virtual ports are the
decimal text of the port number. -/
theorem C14_hash_scheduler_base_farm (w : Env) (S : Service) (st : Proc) (k0 field : String)
    (hann : S.Annotations = some [(k0 ++ "-scheduler", "hash-" ++ field)])
    (hfield : field ∈ ["srcip", "dstip", "srcport", "dstport", "srcmac", "dstmac"])
    (hdock : S.SpecType ≠ "NodePort" → ∀ port ∈ S.Ports, ∀ d,
      st.serviceDsr (baseFarmName S.Name port) = some d →
      ∀ uid ∈ d.dockerUid, w.dockerExec uid (retractCommand d.virtualAddr) = true) :
    ∃ js st1 group, GetJSONnftlbFromService w S st = .ok js st1 ∧
      js.Farms = S.Ports.flatMap group ∧
      ∀ port, ∃ f rest, group port = f :: rest ∧
        f.Name = baseFarmName S.Name port ∧ f.Scheduler = "hash" ∧
        f.SchedulerParam = field ∧ f.VirtualAddr = S.ClusterIP ∧
        f.VirtualPorts = Sprint port.Port := by
  have ha := getAnnotations_hash S k0 field hann hfield
  obtain ⟨pp, hp⟩ := getPersistence_hash S k0 _ hann
  have hmode : (hashVars field).mode ≠ "dsr" := by
    show ("snat" : String) ≠ "dsr"
    decide
  obtain ⟨js, st1, hrun, _⟩ := GetJSONnftlbFromService_snat w S st pp (hashVars field) hp ha
    hmode hdock
  obtain ⟨pp2, a2, hp2, ha2, hfarms⟩ := GetJSONnftlbFromService_farms w S st st1 js hrun
  rw [ha] at ha2
  cases ha2
  refine ⟨js, st1, _, hrun, hfarms, ?_⟩
  intro port
  exact ⟨_, _, rfl, rfl, rfl, rfl, rfl, rfl⟩

theorem C14_hash_scheduler_base_farm_witness :
    ∃ js st1 group, GetJSONnftlbFromService calmEnv webHashService Proc.empty = .ok js st1 ∧
      js.Farms = webHashService.Ports.flatMap group ∧
      ∀ port, ∃ f rest, group port = f :: rest ∧
        f.Name = baseFarmName webHashService.Name port ∧ f.Scheduler = "hash" ∧
        f.SchedulerParam = "srcip" ∧ f.VirtualAddr = webHashService.ClusterIP ∧
        f.VirtualPorts = Sprint port.Port :=
  C14_hash_scheduler_base_farm calmEnv webHashService Proc.empty
    "service.kubernetes.io/kube-nftlb-load-balancer" "srcip" (by decide) (by decide)
    (fun _ _ _ _ _ _ _ => rfl)

/-! ## The number of farms per port -/

theorem map_flatMap_eq {α β γ : Type} (g : β → γ) (f : α → List β) (xs : List α) :
    (xs.flatMap f).map g = xs.flatMap (fun x => (f x).map g) := by
  induction xs with
  | nil => rfl
  | cons x xs ih => simp [List.flatMap_cons, ih]

/-- C15: whenever GetJSONnftlbFromService returns, in any mode, registry and environment,
a service of type NodePort gets exactly two farms per port, in declaration order: the base
farm (virtual address = cluster address, virtual ports = decimal port number) followed by
the twin farm (empty virtual address, virtual ports = decimal node port number); a service
of type ClusterIP gets exactly one farm per port, the base farm. The call does return when
the annotations are read without a panic, the mode is not dsr and the commands that
retract the aliases of a farm leaving the DSR mode are accepted. -/
theorem C15_farms_per_port (w : Env) (S : Service) (st : Proc) :
    (∀ js st1, GetJSONnftlbFromService w S st = .ok js st1 →
      (S.SpecType = "NodePort" →
        js.Farms.map (fun f => (f.Name, f.VirtualAddr, f.VirtualPorts)) =
          S.Ports.flatMap (fun port =>
            [(baseFarmName S.Name port, S.ClusterIP, Sprint port.Port),
             (twinFarmName S.Name port, "", Sprint port.NodePort)])) ∧
      (S.SpecType = "ClusterIP" →
        js.Farms.map (fun f => (f.Name, f.VirtualAddr, f.VirtualPorts)) =
          S.Ports.map (fun port => (baseFarmName S.Name port, S.ClusterIP, Sprint port.Port))))
      ∧ (∀ pp a, getPersistence S = some pp → getAnnotations S = some a → a.mode ≠ "dsr" →
        (S.SpecType ≠ "NodePort" → ∀ port ∈ S.Ports, ∀ d,
          st.serviceDsr (baseFarmName S.Name port) = some d →
          ∀ uid ∈ d.dockerUid, w.dockerExec uid (retractCommand d.virtualAddr) = true) →
        (GetJSONnftlbFromService w S st).returned = true) := by
  refine ⟨?_, ?_⟩
  · intro js st1 h
    obtain ⟨pp, a, _, _, hfarms⟩ := GetJSONnftlbFromService_farms w S st st1 js h
    rw [hfarms, map_flatMap_eq]
    refine ⟨?_, ?_⟩
    · intro hty
      have ht : ∀ port, hasTwin S port = true := by
        intro port
        simp [hasTwin, hty]
      simp [builtFarms, ht, createFarm]
    · intro hty
      have ht : ∀ port, hasTwin S port = false := by
        intro port
        simp [hasTwin, hty]
      have hone : ∀ xs : List ServicePort,
          (xs.flatMap fun x => [(baseFarmName S.Name x, S.ClusterIP, Sprint x.Port)]) =
            xs.map (fun port => (baseFarmName S.Name port, S.ClusterIP, Sprint port.Port)) := by
        intro xs
        induction xs with
        | nil => rfl
        | cons x xs ih => simp [List.flatMap_cons, ih]
      simp [builtFarms, ht, createFarm, hone]
  · intro pp a hp ha hmode hdock
    obtain ⟨js, s1, hrun, _⟩ := GetJSONnftlbFromService_snat w S st pp a hp ha hmode hdock
    rw [hrun]
    rfl

theorem C15_farms_per_port_witness :
    (GetJSONnftlbFromService calmEnv webNodePortHttp Proc.empty).returned = true ∧
      (GetJSONnftlbFromService calmEnv webNodePortHttp Proc.empty).value.map
          (fun js => js.Farms.map (fun f => (f.Name, f.VirtualAddr, f.VirtualPorts)))
        = some [("web--http", "10.0.0.5", "80"), ("web--http--nodePort", "", "30080")] ∧
      (GetJSONnftlbFromService calmEnv webClusterHttp Proc.empty).value.map
          (fun js => js.Farms.map (fun f => (f.Name, f.VirtualAddr, f.VirtualPorts)))
        = some [("web--http", "10.0.0.5", "80")] :=
  ⟨(C15_farms_per_port calmEnv webNodePortHttp Proc.empty).2 ("none", "") annotationDefaults
      (by decide) (by decide) (by decide) (fun _ _ _ _ _ _ _ => rfl),
    by decide, by decide⟩

/-! ## The entries of an endpoints object -/

/-- A loop whose returning iterations each append the items `g x` to a view of the
accumulator, while a property of the state is kept, appends them item by item. -/
theorem rangeFold_view {β γ δ : Type} (view : γ → List δ) (g : β → List δ) (J : Proc → Prop)
    (body : γ → β → M γ) (xs : List β)
    (hbody : ∀ acc x st acc1 st1, x ∈ xs → J st → body acc x st = .ok acc1 st1 →
      view acc1 = view acc ++ g x ∧ J st1)
    (acc : γ) (st : Proc) (acc2 : γ) (st2 : Proc) (h0 : J st)
    (hr : rangeFold body acc xs st = .ok acc2 st2) :
    view acc2 = view acc ++ xs.flatMap g ∧ J st2 := by
  have key := rangeFold_visited
    (fun (done : List β) (a : γ) (s : Proc) => view a = view acc ++ done.flatMap g ∧ J s)
    body xs
    (fun done x a s a1 s1 hx hI hstep => by
      have hI2 : view a = view acc ++ done.flatMap g ∧ J s := hI
      obtain ⟨h1, h2⟩ := hbody a x s a1 s1 hx hI2.2 hstep
      show view a1 = view acc ++ (done ++ [x]).flatMap g ∧ J s1
      refine ⟨?_, h2⟩
      rw [h1, hI2.1]
      simp [List.flatMap_append])
    [] acc st ⟨by simp, h0⟩ acc2 st2 hr
  simpa using key

/-- C16: for every endpoints object and every registry with no DSR record and no node-port
entry, GetJSONnftlbFromEndpoints returns, and its entries are, in the nested order of the
subsets, their addresses and their ports, one entry per combination: it is named
AssignFarmNameService of the object name and the port name (or default) and holds exactly
one backend, whose name is the target name of the address (the object name when there is
no target reference), whose address is the IP of the address, whose port is the decimal
port number and whose state is up. -/
theorem C16_one_entry_per_combination (w : Env) (E : Endpoints) (st : Proc)
    (hdsr : ∀ k, st.serviceDsr k = none) (hnp : st.nodePortArray = []) :
    ∃ js st1, GetJSONnftlbFromEndpoints w E st = .ok js st1 ∧
      js.Farms.map entryView =
        E.Subsets.flatMap (fun sub => sub.Addresses.flatMap (fun address =>
          sub.Ports.flatMap (fun port =>
            [(AssignFarmNameService E.Name (if port.Name == "" then "default" else port.Name),
              [(addressBackendName E.Name address, address.IP, Sprint port.Port, "up")])]))) := by
  obtain ⟨js, st1, h⟩ := GetJSONnftlbFromEndpoints_without_dsr w E st hdsr
  refine ⟨js, st1, h, ?_⟩
  unfold GetJSONnftlbFromEndpoints at h
  change M.bind (CreateFarmID E.Name) _ st = _ at h
  obtain ⟨st0, hc, hnp0, _⟩ := CreateFarmID_ok E.Name st
  rw [M.bind_ok hc] at h
  change M.bind (rangeFold _ _ _) _ _ = _ at h
  obtain ⟨vars, st2, hl, h⟩ := M.bind_inv h
  simp only [pureM_apply, Result.ok.injEq] at h
  rw [← h.1]
  have key := rangeFold_view (fun v : EndpointsVars => v.farmsSlice.map entryView)
    (fun sub : EndpointSubset => sub.Addresses.flatMap (fun address =>
      sub.Ports.flatMap (fun port =>
        [(AssignFarmNameService E.Name (if port.Name == "" then "default" else port.Name),
          [(addressBackendName E.Name address, address.IP, Sprint port.Port, "up")])])))
    (fun s => s.nodePortArray = [])
    (endpointSubsetStep w E.Name) E.Subsets
    (fun acc sub s acc1 s1 _ hJ hstep => by
      unfold endpointSubsetStep at hstep
      exact rangeFold_view (fun v : EndpointsVars => v.farmsSlice.map entryView)
        (fun address : EndpointAddress => sub.Ports.flatMap (fun port =>
          [(AssignFarmNameService E.Name (if port.Name == "" then "default" else port.Name),
            [(addressBackendName E.Name address, address.IP, Sprint port.Port, "up")])]))
        (fun s => s.nodePortArray = [])
        (endpointAddressStep w E.Name sub.Ports) sub.Addresses
        (fun acc address s acc1 s1 _ hJ hstep => by
          unfold endpointAddressStep at hstep
          exact rangeFold_view (fun v : EndpointsVars => v.farmsSlice.map entryView)
            (fun port : EndpointPort =>
              [(AssignFarmNameService E.Name (if port.Name == "" then "default" else port.Name),
                [(addressBackendName E.Name address, address.IP, Sprint port.Port, "up")])])
            (fun s => s.nodePortArray = [])
            (endpointPortStep w E.Name (addressBackendName E.Name address) address.IP) sub.Ports
            (fun acc port s acc1 s1 _ hJ hstep => by
              obtain ⟨h1, h2⟩ := endpointPortStep_farms w E.Name _ _ acc acc1 port s s1 hstep
              have hJ2 : s.nodePortArray = [] := hJ
              refine ⟨?_, ?_⟩
              · show acc1.farmsSlice.map entryView = acc.farmsSlice.map entryView ++ _
                rw [h2, hJ2]
                simp [portFarms, Contains, entryView, backendView, backendsFarm, createBackend,
                  endpointPortName]
              · show s1.nodePortArray = []
                rw [h1, hJ2])
            acc s acc1 s1 hJ hstep)
        acc s acc1 s1 hJ hstep)
    { farmsSlice := [], maxconns := "0" } st0 vars st2 (hnp0.trans hnp) hl
  simpa using key.1

theorem C16_one_entry_per_combination_witness :
    ∃ js st1, GetJSONnftlbFromEndpoints calmEnv webOldAB Proc.empty = .ok js st1 ∧
      js.Farms.map entryView =
        [("web--http", [("pod-a", "10.0.0.1", "80", "up")]),
         ("web--http", [("pod-b", "10.0.0.2", "80", "up")])] :=
  C16_one_entry_per_combination calmEnv webOldAB Proc.empty (fun _ => rfl) rfl

/-! ## Connection ceilings of the backends -/

/-- C17, failing inputs: (1) the service web has no annotation, so that no ceiling is
registered for its farm web--http; the backend emitted under web--http carries the empty
text, not the default 0. (2) With the ceiling 100 registered for web--a and the ceiling 0
for web--b, the backend emitted under web--b, processed after the one under web--a,
carries 100, the ceiling of the farm processed before it. -/
theorem C17_ceiling_depends_on_earlier_farms :
    (GetJSONnftlbFromService calmEnv webClusterHttp Proc.empty).proc.maxConnsMap "web--http"
        = none ∧
      entryCeilings (GetJSONnftlbFromEndpoints calmEnv webNewA
          (GetJSONnftlbFromService calmEnv webClusterHttp Proc.empty).proc)
        = some [("web--http", [""])] ∧
      ceilingRegistry.maxConnsMap "web--b" = some "0" ∧
      entryCeilings (GetJSONnftlbFromEndpoints calmEnv webPortsAB ceilingRegistry)
        = some [("web--a", ["100"]), ("web--b", ["100"])] := by
  decide

/-! ## Reading the scheduler and unreadable annotations -/

/-- C20, failing inputs: an annotation whose key ends in a digit, the empty key, a key
ending in an upper-case letter and a key ending in punctuation each make getPersistence,
getAnnotations and findMaxConns panic, in any registry; a scheduler annotation with an
empty value makes getAnnotations panic. -/
theorem C20_annotation_makes_interpreter_panic (st : Proc) :
    (∀ key ∈ ["example.com/revision-2", "", "example.com/OWNER", "example.com/team."],
      getPersistence (webAnnotated [(key, "x")]) = none ∧
        getAnnotations (webAnnotated [(key, "x")]) = none ∧
        (findMaxConns (webAnnotated [(key, "x")]) st).returned = false) ∧
      getAnnotations (webAnnotated [(schedulerKey, "")]) = none := by
  refine ⟨?_, by decide⟩
  intro key hkey
  have hloop : maxConnsLoop "0" [(key, "x")] = none ∧
      getPersistence (webAnnotated [(key, "x")]) = none ∧
      getAnnotations (webAnnotated [(key, "x")]) = none := by
    revert key
    decide
  refine ⟨hloop.2.1, hloop.2.2, ?_⟩
  unfold findMaxConns
  simp only [webAnnotated, hloop.1]
  rfl


theorem toLower_of_isLower (c : Char) (h : c.isLower = true) : c.toLower = c := by
  unfold Char.isLower at h
  unfold Char.toLower
  simp only [Bool.and_eq_true, decide_eq_true_eq] at h
  have h1 : 97 ≤ c.val.toNat := h.1
  have hn : ¬ (c.toNat ≥ 65 ∧ c.toNat ≤ 90) := by
    intro hc
    have : c.toNat = c.val.toNat := rfl
    omega
  simp only [hn, if_false]

/-- A match of one of the two regular expressions is made of lower-case letters, so
lowering it changes nothing. -/
theorem ToLower_of_match (rgx : Regexp) (s x : String)
    (h : FindStringSubmatch rgx s = some x) : ToLower x = x := by
  have hall : ∀ c ∈ x.data, c.isLower = true := by
    unfold FindStringSubmatch at h
    simp only [] at h
    split at h
    · cases h
    · cases h
      intro c hc
      cases rgx with
      | lowerAtEnd =>
        simp only [List.mem_reverse] at hc
        exact (List.mem_takeWhile_imp hc)
      | lowerAtStart =>
        exact (List.mem_takeWhile_imp hc)
  unfold ToLower
  have hmap : x.data.map Char.toLower = x.data := by
    have : ∀ l : List Char, (∀ c ∈ l, c.isLower = true) → l.map Char.toLower = l := by
      intro l hl
      induction l with
      | nil => rfl
      | cons c l ih =>
        simp only [List.map_cons]
        rw [toLower_of_isLower c (hl c (List.mem_cons_self c l)),
          ih (fun d hd => hl d (List.mem_cons_of_mem _ hd))]
    exact this _ hall
  rw [hmap]


/-- C19, counterexample: for the scheduler values hash-foo and hash, getAnnotations returns
the scheduler hash (with the parameter none), not the default scheduler rr. -/
theorem C19_counterexample_hash_without_field :
    schedulerOf (webAnnotated [(schedulerKey, "hash-foo")]) = some ("hash", "none") ∧
      schedulerOf (webAnnotated [(schedulerKey, "hash")]) = some ("hash", "none") := by
  decide

/-- C19 (amended): the only annotation of the service has a key whose trailing run of
lower-case letters is scheduler, and a value that is neither rr nor symhash and starts with
a lower-case letter, `x` being its leading run of lower-case letters. When `x` is not hash,
getAnnotations returns the default scheduler rr and the default parameter none. When `x`
is hash and the trailing run of lower-case letters of the value is not one of the six
recognised fields, getAnnotations returns the scheduler hash and the default parameter
none. -/
theorem C19_other_scheduler_values (S : Service) (key value x : String)
    (hann : S.Annotations = some [(key, value)])
    (hkey : FindStringSubmatch .lowerAtEnd key = some "scheduler")
    (hrr : value ≠ "rr") (hsym : value ≠ "symhash")
    (hstart : FindStringSubmatch .lowerAtStart value = some x) :
    (x ≠ "hash" → schedulerOf S = some ("rr", "none")) ∧
      (x = "hash" → ∀ e, FindStringSubmatch .lowerAtEnd value = some e →
        e ∉ ["srcip", "dstip", "srcport", "dstport", "srcmac", "dstmac"] →
        schedulerOf S = some ("hash", "none")) := by
  have hx : ToLower x = x := ToLower_of_match _ _ _ hstart
  have hk : FindStringSubmatch annotationDefaults.rgx key = some "scheduler" := hkey
  have h1 : (ToLower "scheduler" == "mode") = false := by decide
  have h2 : (ToLower "scheduler" == "scheduler") = true := by decide
  have h3 : (value == "rr") = false := by simpa using hrr
  have h4 : (value == "symhash") = false := by simpa using hsym
  refine ⟨?_, ?_⟩
  · intro hne
    have h5 : (ToLower x == "hash") = false := by
      rw [hx]
      simpa using hne
    unfold schedulerOf getAnnotations
    rw [hann]
    simp only [annotationLoop, annotationStep, hk, h1, h2, h3, h4, hstart, h5]
    rfl
  · intro heq e he hnot
    have h5 : (ToLower x == "hash") = true := by
      rw [hx, heq]
      decide
    have hE : ToLower e = e := ToLower_of_match _ _ _ he
    have h6 : (ToLower e == "srcip" || ToLower e == "dstip" || ToLower e == "srcport"
        || ToLower e == "dstport" || ToLower e == "srcmac" || ToLower e == "dstmac") = false := by
      rw [hE]
      simp only [List.mem_cons, List.mem_singleton, List.not_mem_nil, or_false, not_or] at hnot
      simp [hnot]
    unfold schedulerOf getAnnotations
    rw [hann]
    simp only [annotationLoop, annotationStep, hk, h1, h2, h3, h4, hstart, h5, he, h6]
    rfl

theorem C19_other_scheduler_values_witness :
    schedulerOf (webAnnotated [(schedulerKey, "weight")]) = some ("rr", "none") ∧
      schedulerOf (webAnnotated [(schedulerKey, "hash-foo")]) = some ("hash", "none") :=
  ⟨(C19_other_scheduler_values (webAnnotated [(schedulerKey, "weight")]) schedulerKey "weight"
      "weight" rfl (by decide) (by decide) (by decide) (by decide)).1 (by decide),
   (C19_other_scheduler_values (webAnnotated [(schedulerKey, "hash-foo")]) schedulerKey
      "hash-foo" "hash" rfl (by decide) (by decide) (by decide) (by decide)).2 rfl "foo"
      (by decide) (by decide)⟩

/-! ## The spelling of the key and the order of the visit -/

/-- A key ending in -mode gives its value to the mode, whatever the value is. -/
theorem getAnnotations_mode (S : Service) (k0 value : String)
    (hann : S.Annotations = some [(k0 ++ "-mode", value)]) :
    modeOf S = some value := by
  have hdata : (k0 ++ "-mode").data = k0.data ++ '-' :: "mode".data := by
    rw [String.data_append]
  have hrev : (k0.data ++ '-' :: "mode".data).reverse =
      "mode".data.reverse ++ '-' :: k0.data.reverse := by
    simp
  have hkey : FindStringSubmatch annotationDefaults.rgx (k0 ++ "-mode") = some "mode" := by
    show FindStringSubmatch .lowerAtEnd _ = _
    unfold FindStringSubmatch
    simp only [hdata, hrev]
    rw [takeWhile_append_stop Char.isLower _ _ '-' (by decide) (by decide)]
    rfl
  have h1 : (ToLower "mode" == "mode") = true := by decide
  unfold modeOf getAnnotations
  rw [hann]
  simp only [annotationLoop, annotationStep, hkey, h1]
  rfl

/-- C21, failing inputs: with the key ending in -mode the value dsr is returned as mode;
with the key ending in -Mode, `[a-z]+$` finds `ode`, the annotation is ignored and the mode
stays snat; with the key ending in -MODE, `[a-z]+$` finds nothing and getAnnotations
panics. -/
theorem C21_mode_key_is_case_sensitive :
    modeOf (webAnnotated [(modeKey "mode", "dsr")]) = some "dsr" ∧
      FindStringSubmatch .lowerAtEnd (modeKey "Mode") = some "ode" ∧
      modeOf (webAnnotated [(modeKey "Mode", "dsr")]) = some "snat" ∧
      FindStringSubmatch .lowerAtEnd (modeKey "MODE") = none ∧
      modeOf (webAnnotated [(modeKey "MODE", "dsr")]) = none := by
  decide

/-- C22, failing inputs: the mode annotation visited before the scheduler annotation gives
the mode dsr, visited after it the mode snat, because the scheduler branch leaves `^[a-z]+`
in `rgx` for the keys that follow; the logprefix annotation visited after the log annotation
gives the prefix web, visited before it no prefix. In both pairs the second list is a
reordering of the first, every key ends in a lower-case letter and no field occurs
twice. -/
theorem C22_result_depends_on_visit_order :
    sixValues (webAnnotated [(modeKey "mode", "dsr"), (schedulerKey, "rr")])
        = some ("dsr", "rr", "none", "", "", "") ∧
      sixValues (webAnnotated [(schedulerKey, "rr"), (modeKey "mode", "dsr")])
        = some ("snat", "rr", "none", "", "", "") ∧
      sixValues (webAnnotated [(modeKey "log", "forward"), (modeKey "logprefix", "web")])
        = some ("snat", "rr", "none", "", "forward", "web") ∧
      sixValues (webAnnotated [(modeKey "logprefix", "web"), (modeKey "log", "forward")])
        = some ("snat", "rr", "none", "", "forward", "") := by
  exact ⟨by decide, by decide, by decide, by decide⟩

/-! ## DeleteNftlbFarm and the node-port registry -/

theorem indexOfFrom_absent (element : String) (data : List String) (k : Nat)
    (h : Contains data element = false) : indexOfFrom element k data = -1 := by
  induction data generalizing k with
  | nil => rfl
  | cons v data ih =>
    unfold Contains at h
    by_cases hv : (v == element) = true
    · simp [hv] at h
    · simp only [hv] at h
      have hne : (element == v) = false := by
        have h1 : v ≠ element := by simpa using hv
        simpa using (fun h2 : element = v => h1 h2.symm)
      unfold indexOfFrom
      simp only [hne]
      exact ih (k + 1) h

/-- The swap of lines 43 to 47 panics when the name is not in the registry. -/
theorem dropNodePort_absent (farmName : String) (st : Proc)
    (h : Contains st.nodePortArray farmName = false) :
    dropNodePort farmName st = .panic st := by
  unfold dropNodePort
  have hi : indexOf farmName st.nodePortArray = -1 := indexOfFrom_absent _ _ 0 h
  simp only [hi]
  rw [if_neg]
  intro hc
  exact absurd hc.1 (by decide)

/-- For a service of type NodePort or LoadBalancer whose first port has no twin in the
node-port registry under the name that DeleteNftlbFarm builds, DeleteNftlbFarm does not
return, whatever the environment is. -/
theorem DeleteNftlbFarm_without_twin (w : Env) (S : Service) (st : Proc) (port : ServicePort)
    (rest : List ServicePort) (hports : S.Ports = port :: rest)
    (hty : S.SpecType = "NodePort" ∨ S.SpecType = "LoadBalancer")
    (habs : Contains st.nodePortArray
      (AssignFarmNameNodePort (baseFarmName S.Name port) "nodePort") = false) :
    (DeleteNftlbFarm w S st).returned = false := by
  have ht : (S.SpecType == "NodePort" || S.SpecType == "LoadBalancer") = true := by
    rcases hty with h | h <;> simp [h]
  have hstep : (deleteFarmPortStep w S () port st).returned = false := by
    unfold deleteFarmPortStep
    simp only [deleteFarmPortStep_name]
    show (M.bind (deleteNftlbRequest w _) _ st).returned = false
    cases hA : deleteNftlbRequest w (baseFarmName S.Name port) st with
    | panic sA => rw [M.bind_panic hA]; rfl
    | ok r sA =>
      rw [M.bind_ok hA]
      have hnpA : sA.nodePortArray = st.nodePortArray := by
        have := sendRequest_keeps (fun s => s.nodePortArray = st.nodePortArray) w
          (deleteRequestData (baseFarmName S.Name port)) (fun _ _ hs => hs) st rfl
        unfold deleteNftlbRequest at hA
        rw [hA] at this
        exact this
      show (M.bind DeleteMaxConnsMap _ sA).returned = false
      unfold DeleteMaxConnsMap
      rw [M.bind_ok (modifyProc_apply _ _)]
      obtain ⟨sC, hC, _, _⟩ := deleteServiceDsr_ok (baseFarmName S.Name port)
        ((fun st : Proc => { st with maxConnsMap := fun _ => none }) sA)
      have hnpC : sC.nodePortArray = st.nodePortArray := by
        have := deleteServiceDsr_keeps (fun s => s.nodePortArray = st.nodePortArray)
          (baseFarmName S.Name port) (fun _ _ hs => hs)
          ((fun st : Proc => { st with maxConnsMap := fun _ => none }) sA) hnpA
        rw [hC] at this
        exact this
      show (M.bind (deleteServiceDsr _) _ _).returned = false
      rw [M.bind_ok hC, if_pos ht]
      show (M.bind (dropNodePort _) _ sC).returned = false
      rw [M.bind_panic (dropNodePort_absent _ sC (by rw [hnpC]; exact habs))]
      rfl
  unfold DeleteNftlbFarm
  rw [hports, rangeFold_cons]
  cases hb : deleteFarmPortStep w S () port st with
  | ok a s1 => rw [hb] at hstep; cases hstep
  | panic s1 => rfl

/-- C24, failing inputs: (1) the NodePort service web with the port http was never
synthesised, the node-port registry is empty; (2) the NodePort service web with an unnamed
port was synthesised, the registry holds web----nodePort and not web--default--nodePort,
the name DeleteNftlbFarm looks for. In both cases DeleteNftlbFarm does not return: the
index -1 of indexOf is used on the slice. -/
theorem C24_delete_panics_without_twin :
    Contains Proc.empty.nodePortArray "web--http--nodePort" = false ∧
      indexOf "web--http--nodePort" Proc.empty.nodePortArray = -1 ∧
      (DeleteNftlbFarm calmEnv webNodePortHttp Proc.empty).returned = false ∧
      (GetJSONnftlbFromService calmEnv webNodePortUnnamed Proc.empty).proc.nodePortArray
        = ["web----nodePort"] ∧
      (DeleteNftlbFarm calmEnv webNodePortUnnamed
        (GetJSONnftlbFromService calmEnv webNodePortUnnamed Proc.empty).proc).returned
        = false := by
  decide

/-- C25, failing input: the NodePort service web with the named port http is synthesised
twice (one add, one update) from an empty registry, which registers the twin name twice;
DeleteNftlbFarm returns, overwrites the first occurrence by the last element and the last
element by the empty string, and the twin name is still in the node-port registry. After a
single synthesis the name is gone. -/
theorem C25_twin_stays_registered_after_delete :
    (afterCalls calmEnv webNodePortHttp 2 Proc.empty).nodePortArray
        = ["web--http--nodePort", "web--http--nodePort"] ∧
      (DeleteNftlbFarm calmEnv webNodePortHttp
        (afterCalls calmEnv webNodePortHttp 2 Proc.empty)).returned = true ∧
      (DeleteNftlbFarm calmEnv webNodePortHttp
        (afterCalls calmEnv webNodePortHttp 2 Proc.empty)).proc.nodePortArray
        = ["web--http--nodePort", ""] ∧
      Contains (DeleteNftlbFarm calmEnv webNodePortHttp
        (afterCalls calmEnv webNodePortHttp 2 Proc.empty)).proc.nodePortArray
        "web--http--nodePort" = true ∧
      Contains (DeleteNftlbFarm calmEnv webNodePortHttp
        (afterCalls calmEnv webNodePortHttp 1 Proc.empty)).proc.nodePortArray
        "web--http--nodePort" = false := by
  decide

/-! ## The loop of DeleteNftlbBackends -/

/-- With a positive backend count and no port in any subset, no pass of the loop changes
anything: the bound on the passes is reached, whatever it is. -/
theorem deleteBackendsLoop_spins (w : Env) (E : Endpoints) (st : Proc)
    (hports : backendPortNames E = []) (hcount : GetBackendID st E.Name > 0) (fuel : Nat) :
    deleteBackendsLoop w E fuel [] st = .ok none st := by
  induction fuel with
  | zero => rfl
  | succ fuel ih =>
    unfold deleteBackendsLoop
    simp only [hcount, if_true, hports, List.append_nil, rangeFold_nil, M.pure_run]
    exact ih

/-- C27, failing inputs: the endpoints object web without subsets, and the endpoints object
web with a subset without ports, each with the backend count 1 recorded for web. Whatever
the bound on the passes of its loop is, DeleteNftlbBackends reaches it: it does not
terminate, no request is issued and the count stays 1. -/
theorem C27_loop_never_ends_without_ports (fuel : Nat) :
    (DeleteNftlbBackends calmEnv webNone fuel (countOnly "web" 1)).value = some none ∧
      GetBackendID (DeleteNftlbBackends calmEnv webNone fuel (countOnly "web" 1)).proc "web"
        = 1 ∧
      (DeleteNftlbBackends calmEnv webNone fuel (countOnly "web" 1)).proc.requests = [] ∧
      (DeleteNftlbBackends calmEnv webNoPorts fuel (countOnly "web" 1)).value = some none ∧
      GetBackendID (DeleteNftlbBackends calmEnv webNoPorts fuel (countOnly "web" 1)).proc
        "web" = 1 := by
  have h1 : DeleteNftlbBackends calmEnv webNone fuel (countOnly "web" 1)
      = .ok none (countOnly "web" 1) :=
    deleteBackendsLoop_spins calmEnv webNone (countOnly "web" 1) (by decide) (by decide) fuel
  have h2 : DeleteNftlbBackends calmEnv webNoPorts fuel (countOnly "web" 1)
      = .ok none (countOnly "web" 1) :=
    deleteBackendsLoop_spins calmEnv webNoPorts (countOnly "web" 1) (by decide) (by decide) fuel
  rw [h1, h2]
  decide

/-- With two ports and the backend count 1, the loop is left after one pass that lowered
the count twice: the count ends at -1. -/
theorem DeleteNftlbBackends_overshoots :
    (DeleteNftlbBackends calmEnv webPortsAB 2 (countOnly "web" 1)).value = some (some ()) ∧
      GetBackendID (DeleteNftlbBackends calmEnv webPortsAB 2 (countOnly "web" 1)).proc "web"
        = -1 := by
  decide

/-! ## Persistence -/

/-- A key that ends in a lower-case letter has a match of `[a-z]+$`. -/
theorem FindStringSubmatch_of_lower_end (key : String) (c : Char)
    (hlast : key.data.getLast? = some c) (hc : c.isLower = true) :
    ∃ field0, FindStringSubmatch .lowerAtEnd key = some field0 := by
  have hhead : key.data.reverse.head? = some c := by
    rw [List.head?_reverse]
    exact hlast
  unfold FindStringSubmatch
  cases hrev : key.data.reverse with
  | nil => rw [hrev] at hhead; cases hhead
  | cons x xs =>
    rw [hrev] at hhead
    simp only [List.head?_cons, Option.some.injEq] at hhead
    subst hhead
    simp [List.takeWhile_cons, hc]

/-- The first six-way test of getPersistence is the test for a field name. -/
theorem isFieldName_eq (value : String) :
    (value == "srcip" || value == "dstip" || value == "srcport" || value == "srcport"
      || value == "dstport" || value == "srcmac" || value == "dstmac") = isFieldName value := by
  unfold isFieldName
  cases (value == "srcip") <;> cases (value == "dstip") <;> cases (value == "srcport") <;>
    cases (value == "dstport") <;> cases (value == "srcmac") <;> cases (value == "dstmac") <;>
    rfl

/-- One iteration of the loop of getPersistence on a readable key. -/
theorem persistenceLoop_cons (persistence key value field0 : String)
    (rest : List (String × String))
    (hkey : FindStringSubmatch .lowerAtEnd key = some field0) :
    persistenceLoop persistence ((key, value) :: rest) =
      if isPersistenceKey key then
        (if isFieldName value then persistenceLoop value rest
         else persistenceLoop persistence rest)
      else persistenceLoop persistence rest := by
  have hlow : ToLower field0 = field0 := ToLower_of_match _ _ _ hkey
  have hP : isPersistenceKey key = (field0 == "persistence") := by
    unfold isPersistenceKey
    rw [hkey]
    by_cases h : field0 = "persistence" <;> simp [h]
  rw [persistenceLoop, hkey]
  simp only [hlow, isFieldName_eq, hP]

/-- Without a persistence key among readable keys the loop keeps its value. -/
theorem persistenceLoop_without_key (persistence : String) (entries : List (String × String))
    (hkeys : ∀ kv ∈ entries, ∃ field0, FindStringSubmatch .lowerAtEnd kv.1 = some field0)
    (hnone : ∀ kv ∈ entries, isPersistenceKey kv.1 = false) :
    persistenceLoop persistence entries = some persistence := by
  induction entries with
  | nil => rfl
  | cons kv rest ih =>
    obtain ⟨key, value⟩ := kv
    obtain ⟨field0, hf⟩ := hkeys (key, value) (List.mem_cons_self _ _)
    rw [persistenceLoop_cons _ _ _ _ _ hf, hnone (key, value) (List.mem_cons_self _ _)]
    simp only [Bool.false_eq_true, if_false]
    exact ih (fun kv h => hkeys kv (List.mem_cons_of_mem _ h))
      (fun kv h => hnone kv (List.mem_cons_of_mem _ h))

/-- With readable keys and at most one persistence key the loop ends with the value of
that key when it is a field name, and with the value it started from otherwise. -/
theorem persistenceLoop_one_key (persistence : String) (entries : List (String × String))
    (hkeys : ∀ kv ∈ entries, ∃ field0, FindStringSubmatch .lowerAtEnd kv.1 = some field0)
    (hone : (entries.filter (fun kv => isPersistenceKey kv.1)).length ≤ 1) :
    persistenceLoop persistence entries = some
      (match (entries.find? (fun kv => isPersistenceKey kv.1)).map (fun kv => kv.2) with
       | some value => if isFieldName value then value else persistence
       | none => persistence) := by
  induction entries with
  | nil => rfl
  | cons kv rest ih =>
    obtain ⟨key, value⟩ := kv
    obtain ⟨field0, hf⟩ := hkeys (key, value) (List.mem_cons_self _ _)
    have hkeys2 : ∀ kv ∈ rest, ∃ field0, FindStringSubmatch .lowerAtEnd kv.1 = some field0 :=
      fun kv h => hkeys kv (List.mem_cons_of_mem _ h)
    rw [persistenceLoop_cons _ _ _ _ _ hf]
    by_cases hP : isPersistenceKey key = true
    · have hrest : ∀ kv ∈ rest, isPersistenceKey kv.1 = false := by
        intro kv hkv
        by_contra hne
        have hkvP : isPersistenceKey kv.1 = true := by simpa using hne
        have hmem : kv ∈ rest.filter (fun kv => isPersistenceKey kv.1) :=
          List.mem_filter.2 ⟨hkv, hkvP⟩
        have hpos : 0 < (rest.filter (fun kv => isPersistenceKey kv.1)).length :=
          List.length_pos_of_mem hmem
        simp only [List.filter_cons, hP, if_true, List.length_cons] at hone
        omega
      simp only [hP, if_true, List.find?_cons_of_pos, Option.map_some']
      by_cases hv : isFieldName value = true
      · simp only [hv, if_true]
        exact persistenceLoop_without_key _ _ hkeys2 hrest
      · simp only [hv]
        exact persistenceLoop_without_key _ _ hkeys2 hrest
    · have hPf : isPersistenceKey key = false := by simpa using hP
      have hone2 : (rest.filter (fun kv => isPersistenceKey kv.1)).length ≤ 1 := by
        simpa [List.filter_cons, hPf] using hone
      simp only [hPf, Bool.false_eq_true, if_false]
      rw [ih hkeys2 hone2]
      simp [List.find?_cons, hPf]


/-- The field names are not the empty text. -/
theorem isFieldName_ne_empty (value : String) (h : isFieldName value = true) :
    (value == "") = false := by
  by_cases hv : value = ""
  · subst hv
    exact absurd h (by decide)
  · simpa using hv

/-- C23: for a service whose annotation keys all end in a lower-case letter and of which at
most one has persistence as its trailing word, getPersistence returns, and what it returns
is the described pair: as persistence the value of that annotation when it is one of srcip,
dstip, srcport, dstport, srcmac, dstmac, otherwise srcip when the session affinity is
ClientIP, none when it is None and the empty text in every other case; as TTL the decimal
text of the session-affinity timeout when one is set and the empty text otherwise. -/
theorem C23_persistence_and_ttl (S : Service)
    (hkeys : ∀ kv ∈ S.Annotations.getD [],
      ∃ c, kv.1.data.getLast? = some c ∧ c.isLower = true)
    (hone : ((S.Annotations.getD []).filter (fun kv => isPersistenceKey kv.1)).length ≤ 1) :
    getPersistence S = some (describedPersistence S) := by
  have hread : ∀ kv ∈ S.Annotations.getD [],
      ∃ field0, FindStringSubmatch .lowerAtEnd kv.1 = some field0 := by
    intro kv hkv
    obtain ⟨c, h1, h2⟩ := hkeys kv hkv
    exact FindStringSubmatch_of_lower_end kv.1 c h1 h2
  have hloop := persistenceLoop_one_key "" (S.Annotations.getD []) hread hone
  have hafter : (match S.Annotations with
      | none => some ""
      | some entries => persistenceLoop "" entries) =
      some (match ((S.Annotations.getD []).find? (fun kv => isPersistenceKey kv.1)).map
          (fun kv => kv.2) with
        | some value => if isFieldName value then value else ""
        | none => "") := by
    cases hann : S.Annotations with
    | none => rfl
    | some entries =>
      rw [hann] at hloop
      exact hloop
  unfold getPersistence describedPersistence
  simp only [hafter]
  have httl : (match S.SessionAffinityConfig with
      | none => ""
      | some cfg =>
        match cfg.ClientIP with
        | none => ""
        | some clientIP =>
          match clientIP.TimeoutSeconds with
          | none => ""
          | some seconds => Sprint seconds) = affinityTTL S := rfl
  rw [httl]
  cases hfind : ((S.Annotations.getD []).find? (fun kv => isPersistenceKey kv.1)).map
      (fun kv => kv.2) with
  | none =>
    simp [affinityPersistence]
  | some value =>
    by_cases hv : isFieldName value = true
    · have hne := isFieldName_ne_empty value hv
      simp [hv, hne]
    · have hvf : isFieldName value = false := by simpa using hv
      simp [hvf, affinityPersistence]

theorem C23_persistence_and_ttl_witness :
    getPersistence webPersistenceService = some ("dstip", "10800") ∧
      describedPersistence webPersistenceService = ("dstip", "10800") :=
  ⟨(C23_persistence_and_ttl webPersistenceService (by decide) (by decide)).trans
      (by decide), by decide⟩

/-- A key of the documented form, ending in -persistence, is a persistence key. -/
theorem isPersistenceKey_hyphen (k0 : String) :
    isPersistenceKey (k0 ++ "-persistence") = true := by
  have hdata : (k0 ++ "-persistence").data = k0.data ++ '-' :: "persistence".data := by
    rw [String.data_append]
  have hrev : (k0.data ++ '-' :: "persistence".data).reverse =
      "persistence".data.reverse ++ '-' :: k0.data.reverse := by
    simp
  have hkey : FindStringSubmatch .lowerAtEnd (k0 ++ "-persistence") = some "persistence" := by
    unfold FindStringSubmatch
    simp only [hdata, hrev]
    rw [takeWhile_append_stop Char.isLower _ _ '-' (by decide) (by decide)]
    rfl
  unfold isPersistenceKey
  rw [hkey]
  decide

/-! ## Farm identities -/

theorem hasDoubleHyphen_append (pre post : List Char) :
    hasDoubleHyphen (pre ++ '-' :: '-' :: post) = true := by
  induction pre with
  | nil => simp [hasDoubleHyphen]
  | cons c pre ih =>
    cases pre with
    | nil =>
      simp only [List.cons_append, List.nil_append] at ih ⊢
      unfold hasDoubleHyphen
      rw [ih]
      simp
    | cons d pre =>
      simp only [List.cons_append] at ih ⊢
      unfold hasDoubleHyphen
      rw [ih]
      simp

/-- The text after the two hyphens is longer on the left: then it is the same text, when it
neither starts with a hyphen nor holds two hyphens in a row. -/
theorem split_longer (c b b2 : List Char)
    (h : '-' :: '-' :: b = c ++ '-' :: '-' :: b2)
    (hhead : b.head? ≠ some '-') (hdouble : hasDoubleHyphen b = false) : c = [] := by
  cases c with
  | nil => rfl
  | cons x c1 =>
    exfalso
    simp only [List.cons_append, List.cons.injEq] at h
    obtain ⟨_, h⟩ := h
    cases c1 with
    | nil =>
      simp only [List.nil_append, List.cons.injEq, true_and] at h
      rw [h] at hhead
      exact hhead rfl
    | cons y c2 =>
      simp only [List.cons_append, List.cons.injEq] at h
      obtain ⟨_, h⟩ := h
      rw [h, hasDoubleHyphen_append] at hdouble
      cases hdouble

/-- A text cut at two hyphens before a plain suffix is cut in one way only. -/
theorem split_unique (a a2 b b2 : List Char)
    (h : a ++ '-' :: '-' :: b = a2 ++ '-' :: '-' :: b2)
    (hhead : b.head? ≠ some '-') (hdouble : hasDoubleHyphen b = false)
    (hhead2 : b2.head? ≠ some '-') (hdouble2 : hasDoubleHyphen b2 = false) :
    a = a2 ∧ b = b2 := by
  rcases List.append_eq_append_iff.1 h with ⟨c, h1, h2⟩ | ⟨c, h1, h2⟩
  · have hc := split_longer c b b2 h2 hhead hdouble
    subst hc
    simp only [List.append_nil, List.nil_append, List.cons.injEq, true_and] at h1 h2
    exact ⟨h1.symm, h2⟩
  · have hc := split_longer c b2 b h2 hhead2 hdouble2
    subst hc
    simp only [List.append_nil, List.nil_append, List.cons.injEq, true_and] at h1 h2
    exact ⟨h1, h2.symm⟩


theorem baseFarmName_data (serviceName : String) (port : ServicePort) :
    (baseFarmName serviceName port).data =
      serviceName.data ++ '-' :: '-' :: (portNameOrDefault port).data := by
  unfold baseFarmName portNameOrDefault AssignFarmNameService
  split <;> simp [String.data_append]

theorem twinFarmName_data (serviceName : String) (port : ServicePort) :
    (twinFarmName serviceName port).data =
      (serviceName.data ++ '-' :: '-' :: port.Name.data) ++ '-' :: '-' :: "nodePort".data := by
  unfold twinFarmName AssignFarmNameNodePort
  simp [String.data_append]

/-- What a plain port name gives: neither the name nor the name read with `default` for
the empty name starts with a hyphen or holds two hyphens in a row, and the latter is made
of lower-case letters, digits and hyphens. -/
theorem portNameOk_facts (port : ServicePort) (h : portNameOk port.Name = true) :
    port.Name.data.head? ≠ some '-' ∧ hasDoubleHyphen port.Name.data = false ∧
      (portNameOrDefault port).data.head? ≠ some '-' ∧
      hasDoubleHyphen (portNameOrDefault port).data = false ∧
      (portNameOrDefault port).data.all (fun c => c.isLower || c.isDigit || c == '-') = true := by
  unfold portNameOk at h
  simp only [Bool.and_eq_true, Bool.not_eq_true', beq_eq_false_iff_ne, ne_eq] at h
  obtain ⟨⟨hall, hhead⟩, hdouble⟩ := h
  refine ⟨hhead, hdouble, ?_⟩
  unfold portNameOrDefault
  by_cases hn : (port.Name == "") = true
  · rw [if_pos hn]
    decide
  · rw [if_neg hn]
    exact ⟨hhead, hdouble, hall⟩

/-- The names of the farms of plain ports tell the service name, the port name (an empty
name read as default) and the role. -/
theorem emittedName_injective (s1 s2 : String) (port1 port2 : ServicePort) (r1 r2 : Role)
    (h1 : portNameOk port1.Name = true) (h2 : portNameOk port2.Name = true)
    (h : emittedName s1 port1 r1 = emittedName s2 port2 r2) :
    s1 = s2 ∧ portNameOrDefault port1 = portNameOrDefault port2 ∧ r1 = r2 := by
  obtain ⟨hh1, hd1, he1, hed1, hall1⟩ := portNameOk_facts port1 h1
  obtain ⟨hh2, hd2, he2, hed2, hall2⟩ := portNameOk_facts port2 h2
  have hnp1 : ("nodePort".data).head? ≠ some '-' := by decide
  have hnp2 : hasDoubleHyphen "nodePort".data = false := by decide
  have hdata := congrArg String.data h
  cases r1 <;> cases r2
  · simp only [emittedName, baseFarmName_data] at hdata
    obtain ⟨ha, hb⟩ := split_unique _ _ _ _ hdata he1 hed1 he2 hed2
    exact ⟨String.ext ha, String.ext hb, rfl⟩
  · exfalso
    simp only [emittedName, baseFarmName_data, twinFarmName_data] at hdata
    obtain ⟨_, hb⟩ := split_unique _ _ _ _ hdata he1 hed1 hnp1 hnp2
    rw [hb] at hall1
    exact absurd hall1 (by decide)
  · exfalso
    simp only [emittedName, baseFarmName_data, twinFarmName_data] at hdata
    obtain ⟨_, hb⟩ := split_unique _ _ _ _ hdata hnp1 hnp2 he2 hed2
    rw [← hb] at hall2
    exact absurd hall2 (by decide)
  · simp only [emittedName, twinFarmName_data] at hdata
    obtain ⟨ha, _⟩ := split_unique _ _ _ _ hdata hnp1 hnp2 hnp1 hnp2
    obtain ⟨hs, hp⟩ := split_unique _ _ _ _ ha hh1 hd1 hh2 hd2
    have hname : port1.Name = port2.Name := String.ext hp
    refine ⟨String.ext hs, ?_, rfl⟩
    unfold portNameOrDefault
    rw [hname]

/-- Every farm of a returning call carries the name of one of the ports of the service in
one of the two roles. -/
theorem GetJSONnftlbFromService_origin (w : Env) (S : Service) (st st1 : Proc)
    (js : JSONnftlb) (h : GetJSONnftlbFromService w S st = .ok js st1) :
    ∀ f ∈ js.Farms, ∃ port ∈ S.Ports, ∃ role, f.Name = emittedName S.Name port role := by
  intro f hf
  have hnames := GetJSONnftlbFromService_names w S st st1 js h
  have hmem : f.Name ∈ js.Farms.map (fun f => f.Name) := List.mem_map.2 ⟨f, hf, rfl⟩
  rw [hnames, List.mem_flatMap] at hmem
  obtain ⟨port, hport, hin⟩ := hmem
  refine ⟨port, hport, ?_⟩
  unfold portFarmNames twinNames at hin
  rw [List.mem_append, List.mem_singleton] at hin
  rcases hin with hin | hin
  · exact ⟨.base, hin⟩
  · split at hin
    · rw [List.mem_singleton] at hin
      exact ⟨.twin, hin⟩
    · cases hin

/-- C26, counterexample: the service a with the port b--c and the service a--b with the
port c both get the single farm a--b--c, although their names and port names differ; in
the NodePort service web with the ports a--nodePort and a, the base farm of the first port
and the twin farm of the second are both named web--a--nodePort. -/
theorem C26_counterexample_names_collide :
    farmNames (GetJSONnftlbFromService calmEnv (plainService "a" "b--c") Proc.empty)
        = some ["a--b--c"] ∧
      farmNames (GetJSONnftlbFromService calmEnv (plainService "a--b" "c") Proc.empty)
        = some ["a--b--c"] ∧
      farmNames (GetJSONnftlbFromService calmEnv webCollidingPorts Proc.empty)
        = some ["web--a--nodePort", "web--a--nodePort--nodePort", "web--a",
            "web--a--nodePort"] := by
  decide

/-- C26 (amended): for two services (or one service taken twice) whose port names are
plain, that is made of lower-case letters, digits and hyphens, not starting with a hyphen
and without two hyphens in a row: every farm that a returning GetJSONnftlbFromService emits
carries the name built for one of the ports of its service in one of the two roles, and
whenever the name built for a port of the first service in a role equals the name built for
a port of the second service in a role, the service names are equal, the port names are
equal (an empty name read as default) and the roles are equal. -/
theorem C26_names_injective_for_plain_ports (w1 w2 : Env) (S1 S2 : Service)
    (st1 st2 st3 st4 : Proc) (js1 js2 : JSONnftlb)
    (hrun1 : GetJSONnftlbFromService w1 S1 st1 = .ok js1 st2)
    (hrun2 : GetJSONnftlbFromService w2 S2 st3 = .ok js2 st4)
    (hplain1 : ∀ port ∈ S1.Ports, portNameOk port.Name = true)
    (hplain2 : ∀ port ∈ S2.Ports, portNameOk port.Name = true) :
    (∀ f ∈ js1.Farms, ∃ port ∈ S1.Ports, ∃ role, f.Name = emittedName S1.Name port role) ∧
      (∀ f ∈ js2.Farms, ∃ port ∈ S2.Ports, ∃ role, f.Name = emittedName S2.Name port role) ∧
      (∀ port1 ∈ S1.Ports, ∀ port2 ∈ S2.Ports, ∀ role1 role2,
        emittedName S1.Name port1 role1 = emittedName S2.Name port2 role2 →
        S1.Name = S2.Name ∧ portNameOrDefault port1 = portNameOrDefault port2 ∧
          role1 = role2) :=
  ⟨GetJSONnftlbFromService_origin w1 S1 st1 st2 js1 hrun1,
    GetJSONnftlbFromService_origin w2 S2 st3 st4 js2 hrun2,
    fun port1 hp1 port2 hp2 role1 role2 h =>
      emittedName_injective S1.Name S2.Name port1 port2 role1 role2 (hplain1 port1 hp1)
        (hplain2 port2 hp2) h⟩

theorem C26_names_injective_for_plain_ports_witness :
    emittedName webNodePortHttp.Name
        { Name := "http", Protocol := "TCP", Port := 80, NodePort := 30080 } Role.base
        = emittedName webClusterHttp.Name
          { Name := "http", Protocol := "TCP", Port := 80, NodePort := 0 } Role.base ∧
      webNodePortHttp.Name = webClusterHttp.Name ∧
      portNameOrDefault { Name := "http", Protocol := "TCP", Port := 80, NodePort := 30080 }
        = portNameOrDefault { Name := "http", Protocol := "TCP", Port := 80, NodePort := 0 } ∧
      Role.base = Role.base :=
  ⟨by decide,
    (C26_names_injective_for_plain_ports calmEnv calmEnv webNodePortHttp webClusterHttp
      Proc.empty _ Proc.empty _ _ _ rfl rfl (by decide) (by decide)).2.2
      { Name := "http", Protocol := "TCP", Port := 80, NodePort := 30080 } (by decide)
      { Name := "http", Protocol := "TCP", Port := 80, NodePort := 0 } (by decide)
      Role.base Role.base (by decide)⟩

end KubeNftlb
